import Mathlib

/-!
# nss_nonlocal: chain dispatch, collision guard and group expansion

A shallow embedding of `nonlocal-passwd.c` and `nonlocal-group.c`.

* The C functions become state-passing Lean functions.  The module's statics
  (`local_only`, the enumeration cursors) live in `State`; everything outside
  the module (the ambient `errno`, the private data of the backends and of
  libc) lives in `World`.
* What the module calls but does not define (the backends' entry points, libc's
  `getpwuid_r` / `getgrgid_r` / `malloc` / `sysconf`, the configured chains) is
  a parameter, collected in `Env`.
* Every function returns, next to its C results, the list of `Event`s of that
  call: one per backend invocation and one per run of a collision guard.
  The events are observations only, no function reads them.
-/

namespace NssNonlocal

/-- Status codes a backend can hand back (`enum nss_status` of `<nss.h>`, which
is not part of the repository; the four values of the spec's OperationStatus). -/
inductive nss_status where
  | TRYAGAIN
  | UNAVAIL
  | NOTFOUND
  | SUCCESS
deriving DecidableEq, Repr

/-- The errno value for a result buffer that is too small. -/
def ERANGE : Int := 34

/-- The errno value for an exhausted heap. -/
def ENOMEM : Int := 12

/-- User record, `struct passwd` of `<pwd.h>`. -/
structure passwd where
  pw_name : String
  pw_passwd : String
  pw_uid : Nat
  pw_gid : Nat
  pw_gecos : String
  pw_dir : String
  pw_shell : String
deriving DecidableEq, Repr

/-- Group record, `struct group` of `<grp.h>`. -/
structure group where
  gr_name : String
  gr_passwd : String
  gr_gid : Nat
  gr_mem : List String
deriving DecidableEq, Repr

/-- The caller's gid array of `initgroups_dyn`: `*start`, `*size`, `*groupsp`.
`*start` and `*size` are of type `long` and count array entries: they are
natural numbers here. -/
structure GroupBuf where
  start : Nat
  size : Nat
  groups : List Nat
deriving DecidableEq, Repr

/-- Everything outside the module: the thread's `errno` and the private data
`ext` of backends and libc (connections, enumeration positions, ...). -/
structure World (β : Type) where
  errno : Int
  ext : β

/-- What a backend entry point leaves behind: its status, the caller's record
and `*errnop` after the call, and the world. -/
structure Ret (ρ β : Type) where
  status : nss_status
  res : ρ
  errnop : Int
  world : World β

/-- What libc's `getpwuid_r` / `getgrgid_r` leave behind: the return value and
the `result` pointer (`none` for NULL). -/
structure LibcRet (ρ β : Type) where
  ret : Int
  result : Option ρ
  world : World β

/-- Single-shot backend entry point `(key, rec, buffer, buflen, errnop)`. -/
abbrev LookupFn (κ ρ β : Type) := κ → ρ → Nat → Int → World β → Ret ρ β

/-- Backend get-next entry point `(rec, buffer, buflen, errnop)`. -/
abbrev GetentFn (ρ β : Type) := ρ → Nat → Int → World β → Ret ρ β

/-- Backend open entry point `(stayopen)`. -/
abbrev SetentFn (β : Type) := Int → World β → nss_status × World β

/-- Backend bulk group expansion `(user, group, start, size, groupsp, limit, errnop)`. -/
abbrev InitgroupsFn (β : Type) := String → Nat → GroupBuf → Int → Int → World β → Ret GroupBuf β

/-- One configured backend of a chain (glibc's `service_user`): its module name
and, per operation, the entry point the module exports (`none` when the symbol
cannot be resolved). -/
structure service_user (β : Type) where
  name : String
  setpwent : Option (SetentFn β) := none
  getpwent_r : Option (GetentFn passwd β) := none
  getpwnam_r : Option (LookupFn String passwd β) := none
  getpwuid_r : Option (LookupFn Nat passwd β) := none
  setgrent : Option (SetentFn β) := none
  getgrent_r : Option (GetentFn group β) := none
  getgrnam_r : Option (LookupFn String group β) := none
  getgrgid_r : Option (LookupFn Nat group β) := none
  initgroups_dyn : Option (InitgroupsFn β) := none

/-- A resolved function pointer: the module it was resolved in and the function. -/
structure fct (α : Type) where
  service : String
  l : α

/-- Observations of one call. -/
inductive Event where
  | call (service fct_name : String) (status : nss_status) (errnop : Int)
  | setent (service fct_name : String) (status : nss_status)
  | check_uid (uid : Nat) (status : nss_status)
  | check_gid (gid : Nat) (status : nss_status)
deriving DecidableEq, Repr

/-- The environment of the module.  `passwd_nonlocal` and `group_nonlocal` are
what `__nss_database_lookup` yields for the two databases (`[]` for a NULL
chain); `getpwuid_r` receives, first, the value `local_only` has during the
call, as code of this module re-entered from inside libc would read it. -/
structure Env (β : Type) where
  passwd_nonlocal : List (service_user β)
  group_nonlocal : List (service_user β)
  getpwuid_r : Int → Nat → Int → World β → LibcRet passwd β
  getgrgid_r : Nat → Int → World β → LibcRet group β
  malloc : Int → World β → Bool × World β
  sysconf_GETPW_R_SIZE_MAX : Int
  sysconf_GETGR_R_SIZE_MAX : Int

/-- The statics of the two source files next to the world: `local_only`, and per
class the cursor `*ent_nip` (`[]` for NULL, else the rest of the chain from the
current backend on), `*ent_fct_start` and `*ent_fct`. -/
structure State (β : Type) where
  world : World β
  local_only : Int
  pwent_nip : List (service_user β)
  pwent_fct_start : Option (fct (GetentFn passwd β))
  pwent_fct : Option (fct (GetentFn passwd β))
  grent_nip : List (service_user β)
  grent_fct_start : Option (fct (GetentFn group β))
  grent_fct : Option (fct (GetentFn group β))

/-- Result of a collision guard: status, `*errnop` afterwards, state, events. -/
structure Check (β : Type) where
  status : nss_status
  errnop : Int
  state : State β
  trace : List Event

/-- Result of an entry point that fills a record. -/
structure Out (ρ β : Type) where
  status : nss_status
  res : ρ
  errnop : Int
  state : State β
  trace : List Event

/-- Result of an open: status, the backend the walk stopped at, state, events. -/
structure SetOut (β : Type) where
  status : nss_status
  nip : List (service_user β)
  state : State β
  trace : List Event

/-- Result of `__nss_next`: return value, `*ni` and `*fctp` afterwards. -/
structure NextRet (α β : Type) where
  ret : Int
  ni : List (service_user β)
  fctp : Option (fct α)

variable {α β κ ρ : Type}

/-- Symbol lookup `__nss_lookup_function(ni, fct_name)`; `sel` picks the entry
point that `fct_name` names. -/
def __nss_lookup_function (sel : service_user β → Option α) :
    List (service_user β) → Option (fct α)
  | [] => none
  | ni :: _ => (sel ni).map (fun f => ⟨ni.name, f⟩)

/-- Modelled from the spec: `__nss_next` is glibc's and only declared in
`nsswitch-internal.h`.  It is the default continuation protocol of §4.2: stop
(1) on `SUCCESS`, otherwise advance to the next backend and resolve its entry
point (0), or report the end of the chain (-1).  A backend whose entry point
cannot be resolved is advanced to all the same; the caller's loop then counts
it as `UNAVAIL`. -/
def __nss_next (sel : service_user β → Option α) (ni : List (service_user β))
    (fctp : Option (fct α)) (status : nss_status) : NextRet α β :=
  if status = .SUCCESS then ⟨1, ni, fctp⟩
  else match ni with
    | [] => ⟨-1, ni, fctp⟩
    | [_] => ⟨-1, ni, fctp⟩
    | _ :: n :: rest => ⟨0, n :: rest, __nss_lookup_function sel (n :: rest)⟩

/-- The magic buffer length `MAGIC_LOCAL_GR_BUFLEN`. -/
def MAGIC_LOCAL_GR_BUFLEN (env : Env β) : Int := env.sysconf_GETGR_R_SIZE_MAX + 7

/-- Result of `local_getpwuid_r`. -/
structure LocalRet (β : Type) where
  status : nss_status
  pwd : Option passwd
  errnop : Int
  state : State β

/-- The authoritative user lookup, `local_getpwuid_r` (nonlocal-passwd.c:59). -/
def local_getpwuid_r (env : Env β) (uid : Nat) (buflen : Int) (errnop : Int)
    (s : State β) : LocalRet β :=
  let old_local_only := s.local_only
  let old_errno := s.world.errno
  let s1 : State β := { s with world := { s.world with errno := errnop }, local_only := 1 }
  let r := env.getpwuid_r s1.local_only uid buflen s1.world
  let s2 : State β :=
    { s1 with world := { r.world with errno := old_errno }, local_only := old_local_only }
  let errnop1 := r.world.errno
  if r.result.isSome then ⟨.SUCCESS, r.result, errnop1, s2⟩
  else if r.ret = 0 then ⟨.NOTFOUND, r.result, errnop1, s2⟩
  else ⟨.TRYAGAIN, r.result, errnop1, s2⟩

/-- The collision guard for uids, `check_nonlocal_uid` (nonlocal-passwd.c:83).
The syslog line is not modelled: it changes neither state nor result. -/
def check_nonlocal_uid (env : Env β) (_user : String) (uid : Nat) (errnop : Int)
    (s : State β) : Check β :=
  let local_errno := s.world.errno
  let local_buflen := env.sysconf_GETPW_R_SIZE_MAX
  let m := env.malloc local_buflen s.world
  if m.1 = false then
    ⟨.TRYAGAIN, ENOMEM, { s with world := { m.2 with errno := local_errno } },
      [Event.check_uid uid .TRYAGAIN]⟩
  else
    let l := local_getpwuid_r env uid local_buflen 0 { s with world := m.2 }
    if l.status = .SUCCESS then
      ⟨.NOTFOUND, errnop, l.state, [Event.check_uid uid .NOTFOUND]⟩
    else if l.status ≠ .NOTFOUND ∧ l.status ≠ .UNAVAIL then
      ⟨l.status, l.errnop, l.state, [Event.check_uid uid l.status]⟩
    else
      ⟨.SUCCESS, errnop, l.state, [Event.check_uid uid .SUCCESS]⟩

/-- The collision guard for gids, `check_nonlocal_gid` (nonlocal-group.c:57).
The syslog line is not modelled: it changes neither state nor result. -/
def check_nonlocal_gid (env : Env β) (_user : String) (gid : Nat) (errnop : Int)
    (s : State β) : Check β :=
  let old_errno := s.world.errno
  let buflen := MAGIC_LOCAL_GR_BUFLEN env
  let m := env.malloc buflen s.world
  if m.1 = false then
    ⟨.TRYAGAIN, ENOMEM, { s with world := { m.2 with errno := old_errno } },
      [Event.check_gid gid .TRYAGAIN]⟩
  else
    let r := env.getgrgid_r gid buflen { m.2 with errno := 0 }
    let s1 : State β := { s with world := { r.world with errno := old_errno } }
    if r.ret ≠ 0 then
      ⟨.TRYAGAIN, old_errno, s1, [Event.check_gid gid .TRYAGAIN]⟩
    else if r.result.isSome then
      ⟨.NOTFOUND, errnop, s1, [Event.check_gid gid .NOTFOUND]⟩
    else
      ⟨.SUCCESS, errnop, s1, [Event.check_gid gid .SUCCESS]⟩

/-- A call through a resolved function pointer (`DL_CALL_FCT`) of a record
entry point, or `UNAVAIL` when the pointer is NULL; `call` supplies the
arguments. -/
def call_fct (fct_name : String) (call : α → ρ → Int → World β → Ret ρ β)
    (fctp : Option (fct α)) (res : ρ) (errnop : Int) (s : State β) : Out ρ β :=
  match fctp with
  | none => ⟨.UNAVAIL, res, errnop, s, []⟩
  | some f =>
    let c := call f.l res errnop s.world
    ⟨c.status, c.res, c.errnop, { s with world := c.world },
      [Event.call f.service fct_name c.status c.errnop]⟩

/-- The chain walk of the single-shot lookups and of the group expansion
(nonlocal-passwd.c:237-244, 282-289; nonlocal-group.c:211-218, 248-255,
286-293):
`do { status = fct.ptr == NULL ? UNAVAIL : call; if (status == TRYAGAIN &&
*errnop == ERANGE) break; } while (__nss_next(&nip, ..., status, 0) == 0)`.
The first argument is `nip`; the loop is entered with a non-NULL `nip` only. -/
def nss_walk (fct_name : String) (sel : service_user β → Option α)
    (call : α → ρ → Int → World β → Ret ρ β) :
    List (service_user β) → Option (fct α) → ρ → Int → State β → Out ρ β
  | [], _, res, errnop, s => ⟨.UNAVAIL, res, errnop, s, []⟩
  | ni :: next, fctp, res, errnop, s =>
    let r := call_fct fct_name call fctp res errnop s
    if r.status = .TRYAGAIN ∧ r.errnop = ERANGE then r
    else
      let n := __nss_next sel (ni :: next) fctp r.status
      if n.ret = 0 then
        let o := nss_walk fct_name sel call next n.fctp r.res r.errnop r.state
        { o with trace := r.trace ++ o.trace }
      else r

/-- Lookup of a user by name, `_nss_nonlocal_getpwnam_r` (nonlocal-passwd.c:216).
`group_errno` is uninitialised in C and only ever written; it starts as 0. -/
def _nss_nonlocal_getpwnam_r (env : Env β) (name : String) (pwd : passwd) (buflen : Nat)
    (errnop : Int) (s : State β) : Out passwd β :=
  match env.passwd_nonlocal with
  | [] => ⟨.UNAVAIL, pwd, errnop, s, []⟩
  | nip :: next =>
    let r := nss_walk "getpwnam_r" (fun ni => ni.getpwnam_r)
      (fun f res e w => f name res buflen e w) (nip :: next)
      (__nss_lookup_function (fun ni => ni.getpwnam_r) (nip :: next)) pwd errnop s
    if r.status ≠ .SUCCESS then r
    else
      let c := check_nonlocal_uid env name r.res.pw_uid r.errnop r.state
      if c.status ≠ .SUCCESS then ⟨c.status, r.res, c.errnop, c.state, r.trace ++ c.trace⟩
      else
        let g := check_nonlocal_gid env name r.res.pw_gid 0 c.state
        if g.status ≠ .SUCCESS then
          ⟨.SUCCESS, { r.res with pw_gid := 65534 }, c.errnop, g.state,
            r.trace ++ c.trace ++ g.trace⟩
        else ⟨.SUCCESS, r.res, c.errnop, g.state, r.trace ++ c.trace ++ g.trace⟩

/-- Lookup of a user by uid, `_nss_nonlocal_getpwuid_r` (nonlocal-passwd.c:258). -/
def _nss_nonlocal_getpwuid_r (env : Env β) (uid : Nat) (pwd : passwd) (buflen : Nat)
    (errnop : Int) (s : State β) : Out passwd β :=
  if s.local_only = 1 then ⟨.UNAVAIL, pwd, errnop, s, []⟩
  else
    match env.passwd_nonlocal with
    | [] => ⟨.UNAVAIL, pwd, errnop, s, []⟩
    | nip :: next =>
      let r := nss_walk "getpwuid_r" (fun ni => ni.getpwuid_r)
        (fun f res e w => f uid res buflen e w) (nip :: next)
        (__nss_lookup_function (fun ni => ni.getpwuid_r) (nip :: next)) pwd errnop s
      if r.status ≠ .SUCCESS then r
      else
        let c := check_nonlocal_uid env r.res.pw_name r.res.pw_uid r.errnop r.state
        if c.status ≠ .SUCCESS then ⟨c.status, r.res, c.errnop, c.state, r.trace ++ c.trace⟩
        else
          let g := check_nonlocal_gid env r.res.pw_name r.res.pw_gid 0 c.state
          if g.status ≠ .SUCCESS then
            ⟨.SUCCESS, { r.res with pw_gid := 65534 }, c.errnop, g.state,
              r.trace ++ c.trace ++ g.trace⟩
          else ⟨.SUCCESS, r.res, c.errnop, g.state, r.trace ++ c.trace ++ g.trace⟩

/-- Lookup of a group by name, `_nss_nonlocal_getgrnam_r` (nonlocal-group.c:191). -/
def _nss_nonlocal_getgrnam_r (env : Env β) (name : String) (grp : group) (buflen : Nat)
    (errnop : Int) (s : State β) : Out group β :=
  match env.group_nonlocal with
  | [] => ⟨.UNAVAIL, grp, errnop, s, []⟩
  | nip :: next =>
    let r := nss_walk "getgrnam_r" (fun ni => ni.getgrnam_r)
      (fun f res e w => f name res buflen e w) (nip :: next)
      (__nss_lookup_function (fun ni => ni.getgrnam_r) (nip :: next)) grp errnop s
    if r.status ≠ .SUCCESS then r
    else
      let c := check_nonlocal_gid env name r.res.gr_gid r.errnop r.state
      ⟨c.status, r.res, c.errnop, c.state, r.trace ++ c.trace⟩

/-- Lookup of a group by gid, `_nss_nonlocal_getgrgid_r` (nonlocal-group.c:225). -/
def _nss_nonlocal_getgrgid_r (env : Env β) (gid : Nat) (grp : group) (buflen : Nat)
    (errnop : Int) (s : State β) : Out group β :=
  if (buflen : Int) = MAGIC_LOCAL_GR_BUFLEN env then ⟨.UNAVAIL, grp, errnop, s, []⟩
  else
    match env.group_nonlocal with
    | [] => ⟨.UNAVAIL, grp, errnop, s, []⟩
    | nip :: next =>
      let r := nss_walk "getgrgid_r" (fun ni => ni.getgrgid_r)
        (fun f res e w => f gid res buflen e w) (nip :: next)
        (__nss_lookup_function (fun ni => ni.getgrgid_r) (nip :: next)) grp errnop s
      if r.status ≠ .SUCCESS then r
      else
        let c := check_nonlocal_gid env r.res.gr_name r.res.gr_gid r.errnop r.state
        ⟨c.status, r.res, c.errnop, c.state, r.trace ++ c.trace⟩

/-- A call through a resolved function pointer of an open, or `UNAVAIL` when
the pointer is NULL. -/
def call_setent (fct_name : String) (stayopen : Int) (nip : List (service_user β))
    (fctp : Option (fct (SetentFn β))) (s : State β) : SetOut β :=
  match fctp with
  | none => ⟨.UNAVAIL, nip, s, []⟩
  | some f =>
    let c := f.l stayopen s.world
    ⟨c.1, nip, { s with world := c.2 }, [Event.setent f.service fct_name c.1]⟩

/-- The chain walk of the opens (nonlocal-passwd.c:139-144,
nonlocal-group.c:114-119): `do { status = fct.ptr == NULL ? UNAVAIL :
fct.l(stayopen); } while (__nss_next(&nip, ..., status, 0) == 0)`; also yields
the `nip` the walk stopped at. -/
def setent_walk (fct_name : String) (sel : service_user β → Option (SetentFn β))
    (stayopen : Int) :
    List (service_user β) → Option (fct (SetentFn β)) → State β → SetOut β
  | [], _, s => ⟨.UNAVAIL, [], s, []⟩
  | ni :: next, fctp, s =>
    let r := call_setent fct_name stayopen (ni :: next) fctp s
    let n := __nss_next sel (ni :: next) fctp r.status
    if n.ret = 0 then
      let o := setent_walk fct_name sel stayopen next n.fctp r.state
      { o with trace := r.trace ++ o.trace }
    else r

/-- Open of the user enumeration, `_nss_nonlocal_setpwent` (nonlocal-passwd.c:121). -/
def _nss_nonlocal_setpwent (env : Env β) (stayopen : Int) (s : State β) : SetOut β :=
  match env.passwd_nonlocal with
  | [] => ⟨.UNAVAIL, [], s, []⟩
  | nip :: next =>
    let r := setent_walk "setpwent" (fun ni => ni.setpwent) stayopen (nip :: next)
      (__nss_lookup_function (fun ni => ni.setpwent) (nip :: next)) s
    if r.status ≠ .SUCCESS then r
    else
      let start := match r.state.pwent_fct_start with
        | none => __nss_lookup_function (fun ni => ni.getpwent_r) r.nip
        | some f => some f
      { r with state := { r.state with pwent_nip := r.nip, pwent_fct_start := start,
                                       pwent_fct := start } }

/-- Open of the group enumeration, `_nss_nonlocal_setgrent` (nonlocal-group.c:96). -/
def _nss_nonlocal_setgrent (env : Env β) (stayopen : Int) (s : State β) : SetOut β :=
  match env.group_nonlocal with
  | [] => ⟨.UNAVAIL, [], s, []⟩
  | nip :: next =>
    let r := setent_walk "setgrent" (fun ni => ni.setgrent) stayopen (nip :: next)
      (__nss_lookup_function (fun ni => ni.setgrent) (nip :: next)) s
    if r.status ≠ .SUCCESS then r
    else
      let start := match r.state.grent_fct_start with
        | none => __nss_lookup_function (fun ni => ni.getgrent_r) r.nip
        | some f => some f
      { r with state := { r.state with grent_nip := r.nip, grent_fct_start := start,
                                       grent_fct := start } }

/-- The inner loop of get-next (nonlocal-passwd.c:199-202, nonlocal-group.c:174-177):
`do status = fct.l(rec, buffer, buflen, errnop); while (status == SUCCESS &&
guard(rec) != SUCCESS)`.  A backend may hand out rejected candidates for ever,
so the loop runs on `fuel`: `none` when the fuel does not suffice. -/
def getent_retry (fct_name : String) (guard : ρ → State β → Check β)
    (f : fct (GetentFn ρ β)) (buflen : Nat) :
    Nat → ρ → Int → State β → Option (Out ρ β)
  | 0, _, _, _ => none
  | fuel + 1, res, errnop, s =>
    let c := f.l res buflen errnop s.world
    let ev := Event.call f.service fct_name c.status c.errnop
    let s1 : State β := { s with world := c.world }
    if c.status = .SUCCESS then
      let g := guard c.res s1
      if g.status ≠ .SUCCESS then
        (getent_retry fct_name guard f buflen fuel c.res c.errnop g.state).map
          (fun o => { o with trace := ev :: g.trace ++ o.trace })
      else some ⟨.SUCCESS, c.res, c.errnop, g.state, ev :: g.trace⟩
    else some ⟨c.status, c.res, c.errnop, s1, [ev]⟩

/-- The inner loop of get-next through the cursor's function pointer, or
`UNAVAIL` when the pointer is NULL (nonlocal-passwd.c:195-203). -/
def call_getent (fct_name : String) (guard : ρ → State β → Check β) (buflen : Nat)
    (fuel : Nat) (fctp : Option (fct (GetentFn ρ β))) (res : ρ) (errnop : Int)
    (s : State β) : Option (Out ρ β) :=
  match fctp with
  | none => some ⟨.UNAVAIL, res, errnop, s, []⟩
  | some f => getent_retry fct_name guard f buflen fuel res errnop s

/-- The outer loop of get-next (nonlocal-passwd.c:194-212, nonlocal-group.c:169-187)
from the cursor `(nip, fctp)`; `put` stores a cursor into the statics of the
class.  Each inner loop gets `fuel` rounds. -/
def getent_walk (fct_name : String) (sel : service_user β → Option (GetentFn ρ β))
    (guard : ρ → State β → Check β)
    (put : List (service_user β) → Option (fct (GetentFn ρ β)) → State β → State β)
    (buflen : Nat) (fuel : Nat) :
    List (service_user β) → Option (fct (GetentFn ρ β)) → ρ → Int → State β →
      Option (Out ρ β)
  | [], _, res, errnop, s => some ⟨.NOTFOUND, res, errnop, s, []⟩
  | ni :: next, fctp, res, errnop, s =>
    match call_getent fct_name guard buflen fuel fctp res errnop s with
    | none => none
    | some r =>
      if r.status = .TRYAGAIN ∧ r.errnop = ERANGE then some r
      else if r.status = .SUCCESS then some r
      else
        let n := __nss_next sel (ni :: next) fctp r.status
        if n.ret = 0 then
          (getent_walk fct_name sel guard put buflen fuel next n.fctp r.res r.errnop
              (put n.ni n.fctp r.state)).map
            (fun o => { o with trace := r.trace ++ o.trace })
        else some ⟨.NOTFOUND, r.res, r.errnop, put [] n.fctp r.state, r.trace⟩

/-- Get-next of the user enumeration, `_nss_nonlocal_getpwent_r`
(nonlocal-passwd.c:184).  `nonlocal_errno` is uninitialised in C and only ever
written; it starts as 0. -/
def _nss_nonlocal_getpwent_r (env : Env β) (fuel : Nat) (pwd : passwd) (buflen : Nat)
    (errnop : Int) (s : State β) : Option (Out passwd β) :=
  let walk := fun (s1 : State β) =>
    getent_walk "getpwent_r" (fun ni => ni.getpwent_r)
      (fun p t => check_nonlocal_uid env p.pw_name p.pw_uid 0 t)
      (fun nip f t => { t with pwent_nip := nip, pwent_fct := f })
      buflen fuel s1.pwent_nip s1.pwent_fct pwd errnop s1
  match s.pwent_nip with
  | [] =>
    let o := _nss_nonlocal_setpwent env 0 s
    if o.status ≠ .SUCCESS then some ⟨o.status, pwd, errnop, o.state, o.trace⟩
    else (walk o.state).map (fun r => { r with trace := o.trace ++ r.trace })
  | _ :: _ => walk s

/-- Get-next of the group enumeration, `_nss_nonlocal_getgrent_r`
(nonlocal-group.c:159). -/
def _nss_nonlocal_getgrent_r (env : Env β) (fuel : Nat) (grp : group) (buflen : Nat)
    (errnop : Int) (s : State β) : Option (Out group β) :=
  let walk := fun (s1 : State β) =>
    getent_walk "getgrent_r" (fun ni => ni.getgrent_r)
      (fun g t => check_nonlocal_gid env "(unknown)" g.gr_gid 0 t)
      (fun nip f t => { t with grent_nip := nip, grent_fct := f })
      buflen fuel s1.grent_nip s1.grent_fct grp errnop s1
  match s.grent_nip with
  | [] =>
    let o := _nss_nonlocal_setgrent env 0 s
    if o.status ≠ .SUCCESS then some ⟨o.status, grp, errnop, o.state, o.trace⟩
    else (walk o.state).map (fun r => { r with trace := o.trace ++ r.trace })
  | _ :: _ => walk s

/-- The duplicate scan of the group expansion (nonlocal-group.c:300-302):
`for (i = 0; i < out; ++i) if (groups[i] == x) break;`, the value of `i`
afterwards; `n` bounds the rounds left. -/
def dup_scan (groups : List Nat) (x : Nat) (out : Nat) : Nat → Nat → Nat
  | 0, i => i
  | n + 1, i =>
    if i < out then
      if groups.getD i 0 = x then i else dup_scan groups x out n (i + 1)
    else i

/-- The largest value of the C type `int`, 2^31 - 1. -/
def INT_MAX : Int := 2147483647

/-- Conversion of a `long` to `int` as in `int in = *start, out = *start`
(nonlocal-group.c:277): the value modulo 2^32 = 4294967296, taken in the range
of `int`, from -2^31 = -2147483648 to `INT_MAX`. -/
def long_to_int (x : Int) : Int := (x + 2147483648) % 4294967296 - 2147483648

/-- The filter loop of the group expansion (nonlocal-group.c:297-317),
`for (; in < *start; ++in)` with `n` rounds to go; `in` and `out` are of type
`int`.  There is no result (`none`) where the C code has no defined behaviour:
when `(*groupsp)[in]` is read with a negative `in`, and when `++in` leaves the
range of `int`.  Where a result is returned `out` is not negative. -/
def initgroups_filter (env : Env β) (user : String) :
    Nat → Int → Int → GroupBuf → Int → State β → List Event → Option (Out GroupBuf β)
  | 0, _, out, buf, errnop, s, tr =>
    some ⟨.SUCCESS, { buf with start := out.toNat }, errnop, s, tr⟩
  | n + 1, i_n, out, buf, errnop, s, tr =>
    if i_n < 0 then none
    else
      let nonlocal_errno := errnop
      let i := dup_scan buf.groups (buf.groups.getD i_n.toNat 0) out.toNat out.toNat 0
      if (i : Int) < out then
        if i_n = INT_MAX then none
        else initgroups_filter env user n (i_n + 1) out buf errnop s tr
      else
        let c := check_nonlocal_gid env user (buf.groups.getD i_n.toNat 0) nonlocal_errno s
        if c.status = .SUCCESS then
          if i_n = INT_MAX then none
          else
            initgroups_filter env user n (i_n + 1) (out + 1)
              { buf with groups := buf.groups.set out.toNat (buf.groups.getD i_n.toNat 0) }
              errnop c.state (tr ++ c.trace)
        else if c.status ≠ .NOTFOUND then
          some ⟨c.status, { buf with start := out.toNat }, c.errnop, c.state, tr ++ c.trace⟩
        else if i_n = INT_MAX then none
        else initgroups_filter env user n (i_n + 1) out buf errnop c.state (tr ++ c.trace)

/-- Group expansion, `_nss_nonlocal_initgroups_dyn` (nonlocal-group.c:262).  The
loop `for (; in < *start; ++in)` makes `*start - in` rounds when that is
positive, and none otherwise. -/
def _nss_nonlocal_initgroups_dyn (env : Env β) (user : String) (grp : Nat) (buf : GroupBuf)
    (limit : Int) (errnop : Int) (s : State β) : Option (Out GroupBuf β) :=
  let i_n : Int := long_to_int buf.start
  let out : Int := long_to_int buf.start
  match env.group_nonlocal with
  | [] => some ⟨.UNAVAIL, buf, errnop, s, []⟩
  | nip :: next =>
    let r := nss_walk "initgroups_dyn" (fun ni => ni.initgroups_dyn)
      (fun f res e w => f user grp res limit e w) (nip :: next)
      (__nss_lookup_function (fun ni => ni.initgroups_dyn) (nip :: next)) buf errnop s
    if r.status ≠ .SUCCESS then some r
    else
      initgroups_filter env user ((r.res.start : Int) - i_n).toNat i_n out r.res r.errnop
        r.state r.trace

/-- The filter loop with `in` and `out` as natural numbers and without the
bounds of `int`: what `initgroups_filter` computes whenever it returns, see
`initgroups_filter_sound`.  The proofs about the array are done on this loop. -/
def initgroups_filter_nat (env : Env β) (user : String) :
    Nat → Nat → Nat → GroupBuf → Int → State β → List Event → Out GroupBuf β
  | 0, _, out, buf, errnop, s, tr => ⟨.SUCCESS, { buf with start := out }, errnop, s, tr⟩
  | n + 1, i_n, out, buf, errnop, s, tr =>
    let nonlocal_errno := errnop
    let i := dup_scan buf.groups (buf.groups.getD i_n 0) out out 0
    if i < out then initgroups_filter_nat env user n (i_n + 1) out buf errnop s tr
    else
      let c := check_nonlocal_gid env user (buf.groups.getD i_n 0) nonlocal_errno s
      if c.status = .SUCCESS then
        initgroups_filter_nat env user n (i_n + 1) (out + 1)
          { buf with groups := buf.groups.set out (buf.groups.getD i_n 0) } errnop c.state
          (tr ++ c.trace)
      else if c.status ≠ .NOTFOUND then
        ⟨c.status, { buf with start := out }, c.errnop, c.state, tr ++ c.trace⟩
      else initgroups_filter_nat env user n (i_n + 1) out buf errnop c.state (tr ++ c.trace)

/-! ## Concrete environments for the examples -/

/-- A user record with the given name, uid and gid. -/
def demo_pw (name : String) (uid gid : Nat) : passwd :=
  ⟨name, "x", uid, gid, "", "/", "/bin/sh"⟩

/-- A group record with the given name and gid. -/
def demo_gr (name : String) (gid : Nat) : group :=
  ⟨name, "x", gid, []⟩

/-- The initial state: `errno` 0, flag clear, both cursors closed. -/
def demo_state : State Nat :=
  ⟨⟨0, 0⟩, 0, [], none, none, [], none, none⟩

/-- A backend that knows nobody: every lookup ends `NOTFOUND` with errno 2. -/
def demo_empty : service_user Nat :=
  { name := "empty"
    getpwnam_r := some (fun _ p _ _ w => ⟨.NOTFOUND, p, 2, w⟩)
    getpwuid_r := some (fun _ p _ _ w => ⟨.NOTFOUND, p, 2, w⟩)
    getgrnam_r := some (fun _ g _ _ w => ⟨.NOTFOUND, g, 2, w⟩)
    getgrgid_r := some (fun _ g _ _ w => ⟨.NOTFOUND, g, 2, w⟩) }

/-- A directory backend: user `name` has uid 1000 and gid 100, uid `u` is
`"joe"`, group `name` has gid 100, gid `g` is `"staff"`. -/
def demo_dir : service_user Nat :=
  { name := "dir"
    getpwnam_r := some (fun n _ _ e w => ⟨.SUCCESS, demo_pw n 1000 100, e, w⟩)
    getpwuid_r := some (fun u _ _ e w => ⟨.SUCCESS, demo_pw "joe" u 100, e, w⟩)
    getgrnam_r := some (fun n _ _ e w => ⟨.SUCCESS, demo_gr n 100, e, w⟩)
    getgrgid_r := some (fun g _ _ e w => ⟨.SUCCESS, demo_gr "staff" g, e, w⟩) }

/-- A backend that is never to be reached: it would answer every lookup with
user or group `"intruder"`. -/
def demo_late : service_user Nat :=
  { name := "late"
    getpwnam_r := some (fun _ _ _ e w => ⟨.SUCCESS, demo_pw "intruder" 4000 4000, e, w⟩)
    getpwuid_r := some (fun _ _ _ e w => ⟨.SUCCESS, demo_pw "intruder" 4000 4000, e, w⟩)
    getgrnam_r := some (fun _ _ _ e w => ⟨.SUCCESS, demo_gr "intruder" 4000, e, w⟩)
    getgrgid_r := some (fun _ _ _ e w => ⟨.SUCCESS, demo_gr "intruder" 4000, e, w⟩) }

/-- An environment over the given chains whose authoritative source has no
entry at all, and whose allocations succeed. -/
def demo_env {β : Type} (pw gr : List (service_user β)) : Env β :=
  { passwd_nonlocal := pw
    group_nonlocal := gr
    getpwuid_r := fun _ _ _ w => ⟨0, none, w⟩
    getgrgid_r := fun _ _ w => ⟨0, none, w⟩
    malloc := fun _ w => (true, w)
    sysconf_GETPW_R_SIZE_MAX := 1024
    sysconf_GETGR_R_SIZE_MAX := 1024 }

/-- Result of `call_each`: what every backend answered (status and `*errnop`),
in chain order, and the record, `*errnop`, state and events at the end. -/
structure Each (ρ β : Type) where
  answers : List (nss_status × Int)
  res : ρ
  errnop : Int
  state : State β
  trace : List Event

/-- Reference run for the dispatch properties: the backends of a chain called
one after the other, each exactly once and whatever it answers (a backend
without the entry point counts as `UNAVAIL` and is not called). -/
def call_each (fct_name : String) (sel : service_user β → Option α)
    (call : α → ρ → Int → World β → Ret ρ β) :
    List (service_user β) → ρ → Int → State β → Each ρ β
  | [], res, errnop, s => ⟨[], res, errnop, s, []⟩
  | ni :: rest, res, errnop, s =>
    let r := call_fct fct_name call (__nss_lookup_function sel [ni]) res errnop s
    let e := call_each fct_name sel call rest r.res r.errnop r.state
    ⟨(r.status, r.errnop) :: e.answers, e.res, e.errnop, e.state, r.trace ++ e.trace⟩

/-- The backend a `call` event names. -/
def Event.called : Event → Option String
  | .call service _ _ _ => some service
  | _ => none

/-- The backends of a chain that export the entry point, by name, in chain order. -/
def resolved (sel : service_user β → Option α) (chain : List (service_user β)) : List String :=
  chain.filterMap (fun ni => (sel ni).map (fun _ => ni.name))

/-- An answer that makes the chain walk go on: neither `SUCCESS` nor `TRYAGAIN`
with `ERANGE`. -/
def goes_on (a : nss_status × Int) : Prop :=
  a.1 ≠ .SUCCESS ∧ ¬ (a.1 = .TRYAGAIN ∧ a.2 = ERANGE)

instance (a : nss_status × Int) : Decidable (goes_on a) :=
  inferInstanceAs (Decidable (a.1 ≠ .SUCCESS ∧ ¬ (a.1 = .TRYAGAIN ∧ a.2 = ERANGE)))

/-- A backend that is down: every lookup ends `UNAVAIL` with errno 111. -/
def demo_down : service_user Nat :=
  { name := "down"
    getpwnam_r := some (fun _ p _ _ w => ⟨.UNAVAIL, p, 111, w⟩)
    getpwuid_r := some (fun _ p _ _ w => ⟨.UNAVAIL, p, 111, w⟩)
    getgrnam_r := some (fun _ g _ _ w => ⟨.UNAVAIL, g, 111, w⟩)
    getgrgid_r := some (fun _ g _ _ w => ⟨.UNAVAIL, g, 111, w⟩) }

/-- A backend call that came back `TRYAGAIN` with `*errnop == ERANGE`. -/
def Event.is_erange : Event → Bool
  | .call _ _ .TRYAGAIN e => decide (e = ERANGE)
  | _ => false

/-- A run of a collision guard. -/
def Event.is_check : Event → Bool
  | .check_uid _ _ => true
  | .check_gid _ _ => true
  | _ => false

/-- The buffer-too-small answer of a backend is final: in the events `tr` of a
call that returned `status` and `errnop`, nothing follows such an answer, and the
call returned `TRYAGAIN` with `ERANGE`. -/
def erange_is_final (status : nss_status) (errnop : Int) (tr : List Event) : Prop :=
  ∀ pre ev post, tr = pre ++ ev :: post → ev.is_erange = true →
    post = [] ∧ status = .TRYAGAIN ∧ errnop = ERANGE

/-- No guard ran in a call that saw a buffer-too-small answer. -/
def erange_without_check (tr : List Event) : Prop :=
  (∃ ev ∈ tr, ev.is_erange = true) → ∀ x ∈ tr, x.is_check = false

/-- An environment over the given chains whose authoritative source has user
`root` with uid 0, groups `root` with gid 0 and `staff` with gid 20, and fails
with an I/O error (5) on uid 7 and gid 7; allocations succeed. -/
def demo_local (pw gr : List (service_user Nat)) : Env Nat :=
  { passwd_nonlocal := pw
    group_nonlocal := gr
    getpwuid_r := fun _ uid _ w =>
      if uid = 0 then ⟨0, some (demo_pw "root" 0 0), w⟩
      else if uid = 7 then ⟨5, none, ⟨5, w.ext⟩⟩
      else ⟨0, none, w⟩
    getgrgid_r := fun gid _ w =>
      if gid = 0 then ⟨0, some (demo_gr "root" 0), w⟩
      else if gid = 20 then ⟨0, some (demo_gr "staff" 20), w⟩
      else if gid = 7 then ⟨5, none, ⟨5, w.ext⟩⟩
      else ⟨0, none, w⟩
    malloc := fun _ w => (true, w)
    sysconf_GETPW_R_SIZE_MAX := 1024
    sysconf_GETGR_R_SIZE_MAX := 1024 }

/-- An enumerating backend whose position is the world's counter: open resets
it; get-next hands out an entry with the next id of `ids` and moves on, and
past the end answers `last` with errno `e_last`. -/
def demo_stream (ids : List Nat) (last : nss_status) (e_last : Int) : service_user Nat :=
  { name := "stream"
    setpwent := some (fun _ w => (.SUCCESS, ⟨w.errno, 0⟩))
    setgrent := some (fun _ w => (.SUCCESS, ⟨w.errno, 0⟩))
    getpwent_r := some (fun p _ e w =>
      if w.ext < ids.length then ⟨.SUCCESS, demo_pw "user" (ids.getD w.ext 0) 100, e,
        ⟨w.errno, w.ext + 1⟩⟩
      else ⟨last, p, e_last, w⟩)
    getgrent_r := some (fun g _ e w =>
      if w.ext < ids.length then ⟨.SUCCESS, demo_gr "group" (ids.getD w.ext 0), e,
        ⟨w.errno, w.ext + 1⟩⟩
      else ⟨last, g, e_last, w⟩) }

/-- A directory backend whose users have uid 1000 and primary group `g`, and
whose groups have gid `g`. -/
def demo_dir_gid (g : Nat) : service_user Nat :=
  { name := "dir"
    getpwnam_r := some (fun n _ _ e w => ⟨.SUCCESS, demo_pw n 1000 g, e, w⟩)
    getpwuid_r := some (fun u _ _ e w => ⟨.SUCCESS, demo_pw "joe" u g, e, w⟩)
    getgrnam_r := some (fun n _ _ e w => ⟨.SUCCESS, demo_gr n g, e, w⟩)
    getgrgid_r := some (fun _ _ _ e w => ⟨.SUCCESS, demo_gr "staff" g, e, w⟩) }

/-- The status of a guard run that failed with an error: neither `SUCCESS` nor
`NOTFOUND`. -/
def Event.check_error : Event → Option nss_status
  | .check_uid _ st => if st = .SUCCESS ∨ st = .NOTFOUND then none else some st
  | .check_gid _ st => if st = .SUCCESS ∨ st = .NOTFOUND then none else some st
  | _ => none

/-- A guard error is propagated: in the events `tr` of a call that returned
`status`, nothing follows a guard run that failed with an error, and the call
returned the guard's status. -/
def check_error_is_final (status : nss_status) (tr : List Event) : Prop :=
  ∀ pre ev post st, tr = pre ++ ev :: post → ev.check_error = some st →
    post = [] ∧ status = st

/-- Result of `keep_new`. -/
structure Kept (β : Type) where
  status : nss_status
  kept : List Nat
  errnop : Int
  state : State β
  trace : List Event

/-- Reference for the filter of the group expansion, in the words of §4.5: go
through the new entries in order; skip an entry that equals one already
accepted (`acc`: the entries below the window marker and the entries kept so
far); otherwise run the guard on it: on `SUCCESS` keep it, on `NOTFOUND` drop it,
on any other status stop with that status. -/
def keep_new (env : Env β) (user : String) :
    List Nat → List Nat → Int → State β → Kept β
  | _, [], errnop, s => ⟨.SUCCESS, [], errnop, s, []⟩
  | acc, g :: rest, errnop, s =>
    if g ∈ acc then keep_new env user acc rest errnop s
    else
      let c := check_nonlocal_gid env user g errnop s
      if c.status = .SUCCESS then
        let k := keep_new env user (acc ++ [g]) rest errnop c.state
        ⟨k.status, g :: k.kept, k.errnop, k.state, c.trace ++ k.trace⟩
      else if c.status ≠ .NOTFOUND then ⟨c.status, [], c.errnop, c.state, c.trace⟩
      else
        let k := keep_new env user acc rest errnop c.state
        ⟨k.status, k.kept, k.errnop, k.state, c.trace ++ k.trace⟩

/-- A bulk backend that appends the gids `l` to the caller's array. -/
def demo_groups (l : List Nat) : service_user Nat :=
  { name := "groups"
    initgroups_dyn := some (fun _ _ b _ e w =>
      ⟨.SUCCESS, ⟨b.start + l.length, b.size, b.groups.take b.start ++ l⟩, e, w⟩) }

/-- The private data of the two enumerating example backends: whether alpha is
reachable, and how far each enumeration has got. -/
structure DemoNet where
  alpha_up : Bool
  alpha_pos : Nat
  beta_pos : Nat

/-- The initial state over `DemoNet`: alpha reachable, both enumerations at the
start, `errno` 0, flag clear, both cursors closed. -/
def demo_net_state : State DemoNet :=
  ⟨⟨0, ⟨true, 0, 0⟩⟩, 0, [], none, none, [], none, none⟩

/-- Alpha holds one user, uid 1001.  While it is unreachable its open and its
get-next answer `UNAVAIL`. -/
def demo_alpha : service_user DemoNet :=
  { name := "alpha"
    setpwent := some (fun _ w =>
      if w.ext.alpha_up then (.SUCCESS, ⟨w.errno, { w.ext with alpha_pos := 0 }⟩)
      else (.UNAVAIL, w))
    getpwent_r := some (fun p _ e w =>
      if w.ext.alpha_up then
        if w.ext.alpha_pos = 0 then
          ⟨.SUCCESS, demo_pw "ann" 1001 100, e, ⟨w.errno, { w.ext with alpha_pos := 1 }⟩⟩
        else ⟨.NOTFOUND, p, 2, w⟩
      else ⟨.UNAVAIL, p, 111, w⟩) }

/-- Beta holds one user, uid 1002, and is always reachable. -/
def demo_beta : service_user DemoNet :=
  { name := "beta"
    setpwent := some (fun _ w => (.SUCCESS, ⟨w.errno, { w.ext with beta_pos := 0 }⟩))
    getpwent_r := some (fun p _ e w =>
      if w.ext.beta_pos = 0 then
        ⟨.SUCCESS, demo_pw "bob" 1002 100, e, ⟨w.errno, { w.ext with beta_pos := 1 }⟩⟩
      else ⟨.NOTFOUND, p, 2, w⟩) }

/-- Alpha becomes unreachable; nothing else changes. -/
def demo_alpha_down (s : State DemoNet) : State DemoNet :=
  { s with world := { s.world with ext := { s.world.ext with alpha_up := false } } }

/-- Three get-next calls in a row on the chain alpha, beta, from the initial
state, each on the state the one before left: the three results. -/
def demo_three_calls : Option (Out passwd DemoNet × Out passwd DemoNet × Out passwd DemoNet) :=
  (_nss_nonlocal_getpwent_r (demo_env [demo_alpha, demo_beta] []) 1 (demo_pw "" 0 0) 64 0
    demo_net_state).bind fun o1 =>
  (_nss_nonlocal_getpwent_r (demo_env [demo_alpha, demo_beta] []) 1 (demo_pw "" 0 0) 64 0
    o1.state).bind fun o2 =>
  (_nss_nonlocal_getpwent_r (demo_env [demo_alpha, demo_beta] []) 1 (demo_pw "" 0 0) 64 0
    o2.state).map fun o3 => (o1, o2, o3)

/-- The gid a guard run accepted: a run of `check_nonlocal_gid` that returned
`SUCCESS`. -/
def Event.accepted : Event → Option Nat
  | .check_gid gid st => if st = .SUCCESS then some gid else none
  | _ => none

/-- The status of a guard run. -/
def Event.check_status : Event → Option nss_status
  | .check_uid _ st => some st
  | .check_gid _ st => some st
  | _ => none

/-- A get-next call in progress: the cursor, the record and `*errnop` as the last
backend call left them, the state, and the events so far. -/
structure Progress (ρ β : Type) where
  nip : List (service_user β)
  fctp : Option (fct (GetentFn ρ β))
  res : ρ
  errnop : Int
  state : State β
  trace : List Event

/-- Reference run of the get-next loops (nonlocal-passwd.c:194-209), one round at
a time: the backend under the cursor is asked once (a NULL pointer counts as
`UNAVAIL`), and the call goes on, with the same backend after a candidate the
guard does not accept, with the next one after an answer that `__nss_next`
passes.  `none` when the round ends the call: an accepted candidate, `TRYAGAIN`
with `ERANGE`, or the end of the chain. -/
def getent_round (fct_name : String) (sel : service_user β → Option (GetentFn ρ β))
    (guard : ρ → State β → Check β)
    (put : List (service_user β) → Option (fct (GetentFn ρ β)) → State β → State β)
    (buflen : Nat) (p : Progress ρ β) : Option (Progress ρ β) :=
  match p.nip with
  | [] => none
  | ni :: next =>
    match p.fctp with
    | none =>
      let n := __nss_next sel (ni :: next) p.fctp .UNAVAIL
      if n.ret = 0 then
        some ⟨next, n.fctp, p.res, p.errnop, put n.ni n.fctp p.state, p.trace⟩
      else none
    | some f =>
      let c := f.l p.res buflen p.errnop p.state.world
      let ev := Event.call f.service fct_name c.status c.errnop
      let s1 : State β := { p.state with world := c.world }
      if c.status = .SUCCESS then
        let g := guard c.res s1
        if g.status ≠ .SUCCESS then
          some ⟨ni :: next, p.fctp, c.res, c.errnop, g.state, p.trace ++ ev :: g.trace⟩
        else none
      else if c.status = .TRYAGAIN ∧ c.errnop = ERANGE then none
      else
        let n := __nss_next sel (ni :: next) p.fctp c.status
        if n.ret = 0 then
          some ⟨next, n.fctp, c.res, c.errnop, put n.ni n.fctp s1, p.trace ++ [ev]⟩
        else none

/-- The call in progress after `m` rounds, none of which ended the call. -/
def getent_rounds (fct_name : String) (sel : service_user β → Option (GetentFn ρ β))
    (guard : ρ → State β → Check β)
    (put : List (service_user β) → Option (fct (GetentFn ρ β)) → State β → State β)
    (buflen : Nat) : Nat → Progress ρ β → Option (Progress ρ β)
  | 0, p => some p
  | m + 1, p =>
    match getent_round fct_name sel guard put buflen p with
    | none => none
    | some q => getent_rounds fct_name sel guard put buflen m q

/-- A get-next call of the user enumeration at the entry of its loop: after the
implicit open when the cursor is closed (`none` when that open fails). -/
def getpwent_entry (env : Env β) (pwd : passwd) (errnop : Int) (s : State β) :
    Option (Progress passwd β) :=
  match s.pwent_nip with
  | [] =>
    let o := _nss_nonlocal_setpwent env 0 s
    if o.status ≠ .SUCCESS then none
    else some ⟨o.state.pwent_nip, o.state.pwent_fct, pwd, errnop, o.state, o.trace⟩
  | _ :: _ => some ⟨s.pwent_nip, s.pwent_fct, pwd, errnop, s, []⟩

/-- A get-next call of the group enumeration at the entry of its loop. -/
def getgrent_entry (env : Env β) (grp : group) (errnop : Int) (s : State β) :
    Option (Progress group β) :=
  match s.grent_nip with
  | [] =>
    let o := _nss_nonlocal_setgrent env 0 s
    if o.status ≠ .SUCCESS then none
    else some ⟨o.state.grent_nip, o.state.grent_fct, grp, errnop, o.state, o.trace⟩
  | _ :: _ => some ⟨s.grent_nip, s.grent_fct, grp, errnop, s, []⟩

/-! ## Properties -/

open nss_status

theorem check_nonlocal_uid_trace (env : Env β) (user : String) (uid : Nat) (e : Int)
    (s : State β) :
    (check_nonlocal_uid env user uid e s).trace =
      [Event.check_uid uid (check_nonlocal_uid env user uid e s).status] := by
  unfold check_nonlocal_uid
  simp only
  split_ifs <;> rfl

theorem check_nonlocal_gid_trace (env : Env β) (user : String) (gid : Nat) (e : Int)
    (s : State β) :
    (check_nonlocal_gid env user gid e s).trace =
      [Event.check_gid gid (check_nonlocal_gid env user gid e s).status] := by
  unfold check_nonlocal_gid
  simp only
  split_ifs <;> rfl

theorem getent_retry_success (fct_name : String) (guard : ρ → State β → Check β)
    (ev : ρ → Event)
    (hg : ∀ r s, (guard r s).status = SUCCESS → ev r ∈ (guard r s).trace)
    (f : fct (GetentFn ρ β)) (buflen : Nat) :
    ∀ (fuel : Nat) (res : ρ) (errnop : Int) (s : State β) (o : Out ρ β),
      getent_retry fct_name guard f buflen fuel res errnop s = some o →
      o.status = SUCCESS → ev o.res ∈ o.trace := by
  intro fuel
  induction fuel with
  | zero => intro res errnop s o h; simp [getent_retry] at h
  | succ n ih =>
    intro res errnop s o h hs
    simp only [getent_retry] at h
    split_ifs at h with h1 h2
    · simp only [Option.map_eq_some'] at h
      obtain ⟨o1, ho1, rfl⟩ := h
      have := ih _ _ _ _ ho1 hs
      simp [this]
    · simp only [Option.some.injEq] at h
      subst h
      simp only [ne_eq, Decidable.not_not] at h2
      simp [hg _ _ h2]
    · simp only [Option.some.injEq] at h
      subst h
      exact absurd hs h1

theorem getent_walk_success (fct_name : String) (sel : service_user β → Option (GetentFn ρ β))
    (guard : ρ → State β → Check β)
    (put : List (service_user β) → Option (fct (GetentFn ρ β)) → State β → State β)
    (ev : ρ → Event)
    (hg : ∀ r s, (guard r s).status = SUCCESS → ev r ∈ (guard r s).trace)
    (buflen fuel : Nat) :
    ∀ (nip : List (service_user β)) (fctp : Option (fct (GetentFn ρ β))) (res : ρ)
      (errnop : Int) (s : State β) (o : Out ρ β),
      getent_walk fct_name sel guard put buflen fuel nip fctp res errnop s = some o →
      o.status = SUCCESS → ev o.res ∈ o.trace := by
  intro nip
  induction nip with
  | nil =>
    intro fctp res errnop s o h hs
    simp only [getent_walk, Option.some.injEq] at h
    subst h
    simp at hs
  | cons ni next ih =>
    intro fctp res errnop s o h hs
    simp only [getent_walk] at h
    split at h
    · simp at h
    · rename_i r hr
      split_ifs at h with h1 h2 h3
      · simp only [Option.some.injEq] at h
        subst h
        rw [h1.1] at hs; simp at hs
      · simp only [Option.some.injEq] at h
        subst h
        cases fctp with
        | none => simp [call_getent] at hr; subst hr; simp at hs
        | some f => exact getent_retry_success fct_name guard ev hg f buflen fuel _ _ _ _ hr hs
      · simp only [Option.map_eq_some'] at h
        obtain ⟨o1, ho1, rfl⟩ := h
        have := ih _ _ _ _ _ ho1 hs
        simp [this]
      · simp only [Option.some.injEq] at h
        subst h
        simp at hs

theorem check_nonlocal_uid_success (env : Env β) (user : String) (uid : Nat) (e : Int)
    (s : State β) (h : (check_nonlocal_uid env user uid e s).status = SUCCESS) :
    (env.malloc env.sysconf_GETPW_R_SIZE_MAX s.world).1 = true ∧
    (env.getpwuid_r 1 uid env.sysconf_GETPW_R_SIZE_MAX
      { (env.malloc env.sysconf_GETPW_R_SIZE_MAX s.world).2 with errno := 0 }).result = none ∧
    (env.getpwuid_r 1 uid env.sysconf_GETPW_R_SIZE_MAX
      { (env.malloc env.sysconf_GETPW_R_SIZE_MAX s.world).2 with errno := 0 }).ret = 0 := by
  unfold check_nonlocal_uid local_getpwuid_r at h
  simp only at h
  split_ifs at h <;> simp_all

theorem check_nonlocal_gid_success (env : Env β) (user : String) (gid : Nat) (e : Int)
    (s : State β) (h : (check_nonlocal_gid env user gid e s).status = SUCCESS) :
    (env.malloc (MAGIC_LOCAL_GR_BUFLEN env) s.world).1 = true ∧
    (env.getgrgid_r gid (MAGIC_LOCAL_GR_BUFLEN env)
      { (env.malloc (MAGIC_LOCAL_GR_BUFLEN env) s.world).2 with errno := 0 }).result = none ∧
    (env.getgrgid_r gid (MAGIC_LOCAL_GR_BUFLEN env)
      { (env.malloc (MAGIC_LOCAL_GR_BUFLEN env) s.world).2 with errno := 0 }).ret = 0 := by
  unfold check_nonlocal_gid at h
  simp only at h
  split_ifs at h
  all_goals simp_all

/-- C1: whenever one of the six lookup entry points returns `SUCCESS`, the
collision guard ran during that call on the uid (gid) of the returned record
and returned `SUCCESS`; and a guard that returns `SUCCESS` has seen the
authoritative lookup report no entry for that id. -/
theorem C1_success_only_after_guard (env : Env β) :
    (∀ name pwd buflen errnop s,
      (_nss_nonlocal_getpwnam_r env name pwd buflen errnop s).status = SUCCESS →
      Event.check_uid (_nss_nonlocal_getpwnam_r env name pwd buflen errnop s).res.pw_uid SUCCESS
        ∈ (_nss_nonlocal_getpwnam_r env name pwd buflen errnop s).trace) ∧
    (∀ uid pwd buflen errnop s,
      (_nss_nonlocal_getpwuid_r env uid pwd buflen errnop s).status = SUCCESS →
      Event.check_uid (_nss_nonlocal_getpwuid_r env uid pwd buflen errnop s).res.pw_uid SUCCESS
        ∈ (_nss_nonlocal_getpwuid_r env uid pwd buflen errnop s).trace) ∧
    (∀ fuel pwd buflen errnop s o,
      _nss_nonlocal_getpwent_r env fuel pwd buflen errnop s = some o → o.status = SUCCESS →
      Event.check_uid o.res.pw_uid SUCCESS ∈ o.trace) ∧
    (∀ name grp buflen errnop s,
      (_nss_nonlocal_getgrnam_r env name grp buflen errnop s).status = SUCCESS →
      Event.check_gid (_nss_nonlocal_getgrnam_r env name grp buflen errnop s).res.gr_gid SUCCESS
        ∈ (_nss_nonlocal_getgrnam_r env name grp buflen errnop s).trace) ∧
    (∀ gid grp buflen errnop s,
      (_nss_nonlocal_getgrgid_r env gid grp buflen errnop s).status = SUCCESS →
      Event.check_gid (_nss_nonlocal_getgrgid_r env gid grp buflen errnop s).res.gr_gid SUCCESS
        ∈ (_nss_nonlocal_getgrgid_r env gid grp buflen errnop s).trace) ∧
    (∀ fuel grp buflen errnop s o,
      _nss_nonlocal_getgrent_r env fuel grp buflen errnop s = some o → o.status = SUCCESS →
      Event.check_gid o.res.gr_gid SUCCESS ∈ o.trace) ∧
    (∀ user uid e s, (check_nonlocal_uid env user uid e s).status = SUCCESS →
      (env.getpwuid_r 1 uid env.sysconf_GETPW_R_SIZE_MAX
        { (env.malloc env.sysconf_GETPW_R_SIZE_MAX s.world).2 with errno := 0 }).result
        = none) ∧
    (∀ user gid e s, (check_nonlocal_gid env user gid e s).status = SUCCESS →
      (env.getgrgid_r gid (MAGIC_LOCAL_GR_BUFLEN env)
        { (env.malloc (MAGIC_LOCAL_GR_BUFLEN env) s.world).2 with errno := 0 }).result
        = none) := by
  refine ⟨?_, ?_, ?_, ?_, ?_, ?_, ?_, ?_⟩
  · intro name pwd buflen errnop s h
    unfold _nss_nonlocal_getpwnam_r at h ⊢
    split
    · rename_i hc; simp only [hc] at h; simp at h
    · rename_i nip next hc
      simp only [hc] at h
      simp only
      split_ifs at h ⊢ with h1 h2 h3
      · exact absurd h h1
      · exact absurd h h2
      · simp only [ne_eq, Decidable.not_not] at h2
        simp [check_nonlocal_uid_trace, h2]
      · simp only [ne_eq, Decidable.not_not] at h2
        simp [check_nonlocal_uid_trace, h2]
  · intro uid pwd buflen errnop s h
    by_cases h0 : s.local_only = 1
    · simp [_nss_nonlocal_getpwuid_r, h0] at h
    · cases hc : env.passwd_nonlocal with
      | nil => simp [_nss_nonlocal_getpwuid_r, h0, hc] at h
      | cons nip next =>
        simp only [_nss_nonlocal_getpwuid_r, h0, hc, if_false] at h ⊢
        split_ifs at h ⊢ with h1 h2 h3
        · exact absurd h h1
        · exact absurd h h2
        · simp only [ne_eq, Decidable.not_not] at h2
          simp [check_nonlocal_uid_trace, h2]
        · simp only [ne_eq, Decidable.not_not] at h2
          simp [check_nonlocal_uid_trace, h2]
  · intro fuel pwd buflen errnop s o h hs
    have key := getent_walk_success "getpwent_r" (fun ni => ni.getpwent_r)
      (fun p t => check_nonlocal_uid env p.pw_name p.pw_uid 0 t)
      (fun nip f t => { t with pwent_nip := nip, pwent_fct := f })
      (fun p => Event.check_uid p.pw_uid SUCCESS)
      (by intro r t hr; simp only [check_nonlocal_uid_trace, hr]; simp) buflen fuel
    unfold _nss_nonlocal_getpwent_r at h
    simp only at h
    split at h
    · split_ifs at h with h1
      · simp only [Option.some.injEq] at h
        subst h
        exact absurd hs h1
      · simp only [Option.map_eq_some'] at h
        obtain ⟨o1, ho1, rfl⟩ := h
        have := key _ _ _ _ _ _ ho1 hs
        simp [this]
    · exact key _ _ _ _ _ _ h hs
  · intro name grp buflen errnop s h
    unfold _nss_nonlocal_getgrnam_r at h ⊢
    split
    · rename_i hc; simp only [hc] at h; simp at h
    · rename_i nip next hc
      simp only [hc] at h
      simp only
      split_ifs at h ⊢ with h1
      · exact absurd h h1
      · simp only at h
        simp [check_nonlocal_gid_trace, h]
  · intro gid grp buflen errnop s h
    by_cases h0 : (buflen : Int) = MAGIC_LOCAL_GR_BUFLEN env
    · simp [_nss_nonlocal_getgrgid_r, h0] at h
    · cases hc : env.group_nonlocal with
      | nil => simp [_nss_nonlocal_getgrgid_r, h0, hc] at h
      | cons nip next =>
        simp only [_nss_nonlocal_getgrgid_r, h0, hc, if_false] at h ⊢
        split_ifs at h ⊢ with h1
        · exact absurd h h1
        · simp only at h
          simp [check_nonlocal_gid_trace, h]
  · intro fuel grp buflen errnop s o h hs
    have key := getent_walk_success "getgrent_r" (fun ni => ni.getgrent_r)
      (fun g t => check_nonlocal_gid env "(unknown)" g.gr_gid 0 t)
      (fun nip f t => { t with grent_nip := nip, grent_fct := f })
      (fun g => Event.check_gid g.gr_gid SUCCESS)
      (by intro r t hr; simp only [check_nonlocal_gid_trace, hr]; simp) buflen fuel
    unfold _nss_nonlocal_getgrent_r at h
    simp only at h
    split at h
    · split_ifs at h with h1
      · simp only [Option.some.injEq] at h
        subst h
        exact absurd hs h1
      · simp only [Option.map_eq_some'] at h
        obtain ⟨o1, ho1, rfl⟩ := h
        have := key _ _ _ _ _ _ ho1 hs
        simp [this]
    · exact key _ _ _ _ _ _ h hs
  · intro user uid e s h
    exact (check_nonlocal_uid_success env user uid e s h).2.1
  · intro user gid e s h
    exact (check_nonlocal_gid_success env user gid e s h).2.1

/-- An instance: the name lookup over the chain empty, dir returns `SUCCESS`, and
the guard ran on uid 1000 of the returned record and accepted it. -/
theorem C1_success_only_after_guard_witness :
    (_nss_nonlocal_getpwnam_r (demo_env [demo_empty, demo_dir] []) "joe" (demo_pw "" 0 0) 64 0
      demo_state).status = SUCCESS ∧
    Event.check_uid 1000 SUCCESS ∈
      (_nss_nonlocal_getpwnam_r (demo_env [demo_empty, demo_dir] []) "joe" (demo_pw "" 0 0) 64 0
        demo_state).trace :=
  ⟨by decide,
   (C1_success_only_after_guard (demo_env [demo_empty, demo_dir] [])).1 "joe" (demo_pw "" 0 0)
     64 0 demo_state (by decide)⟩

theorem nss_lookup_function_cons (sel : service_user β → Option α) (ni : service_user β)
    (next : List (service_user β)) :
    __nss_lookup_function sel (ni :: next) = __nss_lookup_function sel [ni] := rfl

theorem nss_next_success (sel : service_user β → Option α) (ni : List (service_user β))
    (fctp : Option (fct α)) : (__nss_next sel ni fctp SUCCESS).ret = 1 := by
  simp [__nss_next]

theorem nss_next_last (sel : service_user β → Option α) (ni : service_user β)
    (fctp : Option (fct α)) (st : nss_status) : (__nss_next sel [ni] fctp st).ret ≠ 0 := by
  unfold __nss_next
  split_ifs <;> simp

theorem nss_next_advance (sel : service_user β → Option α) (ni n : service_user β)
    (rest : List (service_user β)) (fctp : Option (fct α)) (st : nss_status)
    (h : st ≠ SUCCESS) :
    __nss_next sel (ni :: n :: rest) fctp st =
      ⟨0, n :: rest, __nss_lookup_function sel (n :: rest)⟩ := by
  simp [__nss_next, h]

theorem call_each_trace_called (fct_name : String) (sel : service_user β → Option α)
    (call : α → ρ → Int → World β → Ret ρ β) :
    ∀ (chain : List (service_user β)) (res : ρ) (errnop : Int) (s : State β),
      (call_each fct_name sel call chain res errnop s).trace.filterMap Event.called =
        resolved sel chain := by
  intro chain
  induction chain with
  | nil => intro res errnop s; simp [call_each, resolved]
  | cons ni rest ih =>
    intro res errnop s
    simp only [call_each, List.filterMap_append, ih]
    cases hf : sel ni with
    | none => simp [call_fct, __nss_lookup_function, hf, resolved]
    | some f => simp [call_fct, __nss_lookup_function, hf, resolved, Event.called]

/-- While the backends in front answer with statuses that make the walk go on,
the walk passes them, calling each once, and goes on behind them. -/
theorem nss_walk_passes (fct_name : String) (sel : service_user β → Option α)
    (call : α → ρ → Int → World β → Ret ρ β) (ni : service_user β)
    (post : List (service_user β)) :
    ∀ (pre : List (service_user β)) (res : ρ) (errnop : Int) (s : State β),
      (∀ a ∈ (call_each fct_name sel call pre res errnop s).answers, goes_on a) →
      nss_walk fct_name sel call (pre ++ ni :: post)
          (__nss_lookup_function sel (pre ++ ni :: post)) res errnop s =
        { nss_walk fct_name sel call (ni :: post) (__nss_lookup_function sel (ni :: post))
            (call_each fct_name sel call pre res errnop s).res
            (call_each fct_name sel call pre res errnop s).errnop
            (call_each fct_name sel call pre res errnop s).state with
          trace := (call_each fct_name sel call pre res errnop s).trace ++
            (nss_walk fct_name sel call (ni :: post) (__nss_lookup_function sel (ni :: post))
              (call_each fct_name sel call pre res errnop s).res
              (call_each fct_name sel call pre res errnop s).errnop
              (call_each fct_name sel call pre res errnop s).state).trace } := by
  intro pre
  induction pre with
  | nil => intro res errnop s _; simp [call_each]
  | cons p pre ih =>
    intro res errnop s h
    simp only [call_each, List.mem_cons, forall_eq_or_imp] at h
    obtain ⟨h1, h2⟩ := h
    obtain ⟨n, rest, hn⟩ : ∃ n rest, pre ++ ni :: post = n :: rest := by
      cases pre with
      | nil => exact ⟨ni, post, rfl⟩
      | cons a l => exact ⟨a, l ++ ni :: post, rfl⟩
    have h3 := ih _ _ _ h2
    simp only [List.cons_append, call_each]
    rw [nss_walk]
    simp only [nss_lookup_function_cons sel p]
    rw [if_neg h1.2, hn, nss_next_advance _ _ _ _ _ _ h1.1]
    simp only [if_true]
    rw [← hn, h3]
    simp

/-- A backend that answers `SUCCESS` ends the walk: nothing behind it is called. -/
theorem nss_walk_stops (fct_name : String) (sel : service_user β → Option α)
    (call : α → ρ → Int → World β → Ret ρ β) (ni : service_user β)
    (post : List (service_user β)) (res : ρ) (errnop : Int) (s : State β)
    (h : (call_fct fct_name call (__nss_lookup_function sel [ni]) res errnop s).status
      = SUCCESS) :
    nss_walk fct_name sel call (ni :: post) (__nss_lookup_function sel (ni :: post)) res
        errnop s =
      call_fct fct_name call (__nss_lookup_function sel [ni]) res errnop s := by
  rw [nss_walk]
  simp only [nss_lookup_function_cons sel ni]
  simp [h, nss_next_success]

/-- The last backend ends the walk whatever it answers. -/
theorem nss_walk_last (fct_name : String) (sel : service_user β → Option α)
    (call : α → ρ → Int → World β → Ret ρ β) (ni : service_user β)
    (res : ρ) (errnop : Int) (s : State β) :
    nss_walk fct_name sel call [ni] (__nss_lookup_function sel [ni]) res errnop s =
      call_fct fct_name call (__nss_lookup_function sel [ni]) res errnop s := by
  rw [nss_walk]
  simp [nss_next_last]

theorem getpwnam_r_walk (env : Env β) (name : String) (pwd : passwd) (buflen : Nat)
    (errnop : Int) (s : State β) (h : env.passwd_nonlocal ≠ []) :
    _nss_nonlocal_getpwnam_r env name pwd buflen errnop s =
      (let r := nss_walk "getpwnam_r" (fun ni => ni.getpwnam_r)
        (fun f res e w => f name res buflen e w) env.passwd_nonlocal
        (__nss_lookup_function (fun ni => ni.getpwnam_r) env.passwd_nonlocal) pwd errnop s
      if r.status ≠ .SUCCESS then r
      else
        let c := check_nonlocal_uid env name r.res.pw_uid r.errnop r.state
        if c.status ≠ .SUCCESS then ⟨c.status, r.res, c.errnop, c.state, r.trace ++ c.trace⟩
        else
          let g := check_nonlocal_gid env name r.res.pw_gid 0 c.state
          if g.status ≠ .SUCCESS then
            ⟨.SUCCESS, { r.res with pw_gid := 65534 }, c.errnop, g.state,
              r.trace ++ c.trace ++ g.trace⟩
          else ⟨.SUCCESS, r.res, c.errnop, g.state, r.trace ++ c.trace ++ g.trace⟩) := by
  unfold _nss_nonlocal_getpwnam_r
  cases hc : env.passwd_nonlocal with
  | nil => exact absurd hc h
  | cons nip next => rfl

theorem getpwuid_r_walk (env : Env β) (uid : Nat) (pwd : passwd) (buflen : Nat)
    (errnop : Int) (s : State β) (h : env.passwd_nonlocal ≠ []) (h0 : s.local_only ≠ 1) :
    _nss_nonlocal_getpwuid_r env uid pwd buflen errnop s =
      (let r := nss_walk "getpwuid_r" (fun ni => ni.getpwuid_r)
        (fun f res e w => f uid res buflen e w) env.passwd_nonlocal
        (__nss_lookup_function (fun ni => ni.getpwuid_r) env.passwd_nonlocal) pwd errnop s
      if r.status ≠ .SUCCESS then r
      else
        let c := check_nonlocal_uid env r.res.pw_name r.res.pw_uid r.errnop r.state
        if c.status ≠ .SUCCESS then ⟨c.status, r.res, c.errnop, c.state, r.trace ++ c.trace⟩
        else
          let g := check_nonlocal_gid env r.res.pw_name r.res.pw_gid 0 c.state
          if g.status ≠ .SUCCESS then
            ⟨.SUCCESS, { r.res with pw_gid := 65534 }, c.errnop, g.state,
              r.trace ++ c.trace ++ g.trace⟩
          else ⟨.SUCCESS, r.res, c.errnop, g.state, r.trace ++ c.trace ++ g.trace⟩) := by
  unfold _nss_nonlocal_getpwuid_r
  rw [if_neg h0]
  cases hc : env.passwd_nonlocal with
  | nil => exact absurd hc h
  | cons nip next => rfl

theorem getgrnam_r_walk (env : Env β) (name : String) (grp : group) (buflen : Nat)
    (errnop : Int) (s : State β) (h : env.group_nonlocal ≠ []) :
    _nss_nonlocal_getgrnam_r env name grp buflen errnop s =
      (let r := nss_walk "getgrnam_r" (fun ni => ni.getgrnam_r)
        (fun f res e w => f name res buflen e w) env.group_nonlocal
        (__nss_lookup_function (fun ni => ni.getgrnam_r) env.group_nonlocal) grp errnop s
      if r.status ≠ .SUCCESS then r
      else
        let c := check_nonlocal_gid env name r.res.gr_gid r.errnop r.state
        ⟨c.status, r.res, c.errnop, c.state, r.trace ++ c.trace⟩) := by
  unfold _nss_nonlocal_getgrnam_r
  cases hc : env.group_nonlocal with
  | nil => exact absurd hc h
  | cons nip next => rfl

theorem getgrgid_r_walk (env : Env β) (gid : Nat) (grp : group) (buflen : Nat)
    (errnop : Int) (s : State β) (h : env.group_nonlocal ≠ [])
    (h0 : (buflen : Int) ≠ MAGIC_LOCAL_GR_BUFLEN env) :
    _nss_nonlocal_getgrgid_r env gid grp buflen errnop s =
      (let r := nss_walk "getgrgid_r" (fun ni => ni.getgrgid_r)
        (fun f res e w => f gid res buflen e w) env.group_nonlocal
        (__nss_lookup_function (fun ni => ni.getgrgid_r) env.group_nonlocal) grp errnop s
      if r.status ≠ .SUCCESS then r
      else
        let c := check_nonlocal_gid env r.res.gr_name r.res.gr_gid r.errnop r.state
        ⟨c.status, r.res, c.errnop, c.state, r.trace ++ c.trace⟩) := by
  unfold _nss_nonlocal_getgrgid_r
  rw [if_neg h0]
  cases hc : env.group_nonlocal with
  | nil => exact absurd hc h
  | cons nip next => rfl

theorem initgroups_dyn_walk (env : Env β) (user : String) (grp : Nat) (buf : GroupBuf)
    (limit : Int) (errnop : Int) (s : State β) :
    _nss_nonlocal_initgroups_dyn env user grp buf limit errnop s =
      (let r := nss_walk "initgroups_dyn" (fun ni => ni.initgroups_dyn)
        (fun f res e w => f user grp res limit e w) env.group_nonlocal
        (__nss_lookup_function (fun ni => ni.initgroups_dyn) env.group_nonlocal) buf errnop s
      if r.status ≠ .SUCCESS then some r
      else
        initgroups_filter env user ((r.res.start : Int) - long_to_int buf.start).toNat
          (long_to_int buf.start) (long_to_int buf.start) r.res r.errnop r.state r.trace) := by
  unfold _nss_nonlocal_initgroups_dyn
  cases hc : env.group_nonlocal with
  | nil => simp [nss_walk]
  | cons nip next => rfl

theorem long_to_int_le (x : Int) : long_to_int x ≤ INT_MAX := by
  unfold long_to_int INT_MAX
  omega

theorem long_to_int_eq (x : Int) (h0 : 0 ≤ x) (h1 : x ≤ INT_MAX) : long_to_int x = x := by
  unfold long_to_int
  unfold INT_MAX at h1
  omega

/-- Whatever the filter loop returns is what the loop on natural numbers computes. -/
theorem initgroups_filter_sound (env : Env β) (user : String) :
    ∀ (n i o : Nat) (buf : GroupBuf) (e : Int) (s : State β) (tr : List Event)
      (x : Out GroupBuf β),
      initgroups_filter env user n (i : Int) (o : Int) buf e s tr = some x →
      x = initgroups_filter_nat env user n i o buf e s tr := by
  intro n
  induction n with
  | zero =>
    intro i o buf e s tr x h
    simp only [initgroups_filter, Int.toNat_ofNat, Option.some.injEq] at h
    simp only [initgroups_filter_nat]
    exact h.symm
  | succ n ih =>
    intro i o buf e s tr x h
    have hi : ¬ ((i : Int) < 0) := by omega
    have h1 : ((i : Int) + 1) = ((i + 1 : Nat) : Int) := by push_cast; rfl
    have h2 : ((o : Int) + 1) = ((o + 1 : Nat) : Int) := by push_cast; rfl
    simp only [initgroups_filter, hi, if_false, Int.toNat_ofNat, Nat.cast_lt] at h
    simp only [initgroups_filter_nat]
    split_ifs at h ⊢ with c1 c2 c3 c4 c5 c6
    all_goals first
      | exact ih _ _ _ _ _ _ _ (h1 ▸ h)
      | exact ih _ _ _ _ _ _ _ (h1 ▸ h2 ▸ h)
      | exact (Option.some.inj h).symm

/-- The filter loop returns `SUCCESS` only when `in` stays in the range of `int`
up to the end of the window. -/
theorem initgroups_filter_success_bound (env : Env β) (user : String) :
    ∀ (n : Nat) (i o : Int) (buf : GroupBuf) (e : Int) (s : State β) (tr : List Event)
      (x : Out GroupBuf β), i ≤ INT_MAX →
      initgroups_filter env user n i o buf e s tr = some x → x.status = SUCCESS →
      i + n ≤ INT_MAX := by
  intro n
  induction n with
  | zero => intro i o buf e s tr x hi _ _; simpa using hi
  | succ n ih =>
    intro i o buf e s tr x hi h hs
    simp only [initgroups_filter] at h
    have key : ∀ o1 buf1 s1 tr1, i ≠ INT_MAX →
        initgroups_filter env user n (i + 1) o1 buf1 e s1 tr1 = some x →
        i + (n + 1 : Nat) ≤ INT_MAX := by
      intro o1 buf1 s1 tr1 hne h1
      have := ih (i + 1) o1 buf1 e s1 tr1 x (by omega) h1 hs
      push_cast
      omega
    split_ifs at h with c0 c1 c2 c3 c4 c5 c6
    · exact key _ _ _ _ c2 h
    · exact key _ _ _ _ c4 h
    · simp only [Option.some.injEq] at h
      subst h
      exact absurd hs c3
    · exact key _ _ _ _ c6 h

/-- The filter loop returns, and returns what the loop on natural numbers
computes, when `in` stays in the range of `int`: up to the end of the window, or
up to an entry at which the loop is left with a guard error. -/
theorem initgroups_filter_total (env : Env β) (user : String) :
    ∀ (n i o : Nat) (buf : GroupBuf) (e : Int) (s : State β) (tr : List Event),
      (i : Int) + n ≤ INT_MAX + 1 →
      ((initgroups_filter_nat env user n i o buf e s tr).status = SUCCESS →
        (i : Int) + n ≤ INT_MAX) →
      initgroups_filter env user n (i : Int) (o : Int) buf e s tr =
        some (initgroups_filter_nat env user n i o buf e s tr) := by
  intro n
  induction n with
  | zero =>
    intro i o buf e s tr _ _
    simp [initgroups_filter, initgroups_filter_nat]
  | succ n ih =>
    intro i o buf e s tr hb hs
    have hi : ¬ ((i : Int) < 0) := by omega
    have h1 : ((i : Int) + 1) = ((i + 1 : Nat) : Int) := by push_cast; rfl
    have h2 : ((o : Int) + 1) = ((o + 1 : Nat) : Int) := by push_cast; rfl
    have hb1 : ((i + 1 : Nat) : Int) + n ≤ INT_MAX + 1 := by push_cast at hb ⊢; omega
    simp only [initgroups_filter, hi, if_false, Int.toNat_ofNat, Nat.cast_lt]
    simp only [initgroups_filter_nat] at hs ⊢
    have hmax : ∀ (o1 : Nat) buf1 s1 tr1,
        ((initgroups_filter_nat env user n (i + 1) o1 buf1 e s1 tr1).status = SUCCESS →
          (i : Int) + (n + 1 : Nat) ≤ INT_MAX) →
        (i : Int) = INT_MAX → False := by
      intro o1 buf1 s1 tr1 hs1 hm
      have hn : n = 0 := by push_cast at hb; omega
      subst hn
      have := hs1 (by simp [initgroups_filter_nat])
      push_cast at this
      omega
    split_ifs at hs ⊢ with c1 c2 c3 c4 c5 c6
    · exact absurd c2 (fun hm => hmax _ _ _ _ hs hm)
    · rw [h1]
      exact ih _ _ _ _ _ _ hb1 (fun hh => by have := hs hh; push_cast at this ⊢; omega)
    · exact absurd c4 (fun hm => hmax _ _ _ _ hs hm)
    · rw [h1, h2]
      exact ih _ _ _ _ _ _ hb1 (fun hh => by have := hs hh; push_cast at this ⊢; omega)
    · rfl
    · exact absurd c6 (fun hm => hmax _ _ _ _ hs hm)
    · rw [h1]
      exact ih _ _ _ _ _ _ hb1 (fun hh => by have := hs hh; push_cast at this ⊢; omega)

/-- A run of the filter loop that is left with a guard error is the same with
more rounds to go. -/
theorem initgroups_filter_stops (env : Env β) (user : String) (m : Nat) :
    ∀ (n : Nat) (i o : Int) (buf : GroupBuf) (e : Int) (s : State β) (tr : List Event)
      (x : Out GroupBuf β),
      initgroups_filter env user n i o buf e s tr = some x → x.status ≠ SUCCESS →
      initgroups_filter env user (n + m) i o buf e s tr = some x := by
  intro n
  induction n with
  | zero =>
    intro i o buf e s tr x h hs
    simp only [initgroups_filter, Option.some.injEq] at h
    subst h
    exact absurd rfl hs
  | succ n ih =>
    intro i o buf e s tr x h hs
    rw [Nat.add_right_comm]
    simp only [initgroups_filter] at h ⊢
    split_ifs at h ⊢ with c0 c1 c2 c3 c4 c5 c6
    · exact ih _ _ _ _ _ _ _ h hs
    · exact ih _ _ _ _ _ _ _ h hs
    · exact h
    · exact ih _ _ _ _ _ _ _ h hs

theorem initgroups_filter_nat_stops (env : Env β) (user : String) (m : Nat) :
    ∀ (n i o : Nat) (buf : GroupBuf) (e : Int) (s : State β) (tr : List Event),
      (initgroups_filter_nat env user n i o buf e s tr).status ≠ SUCCESS →
      initgroups_filter_nat env user (n + m) i o buf e s tr =
        initgroups_filter_nat env user n i o buf e s tr := by
  intro n
  induction n with
  | zero =>
    intro i o buf e s tr hs
    exact absurd rfl hs
  | succ n ih =>
    intro i o buf e s tr hs
    rw [Nat.add_right_comm]
    simp only [initgroups_filter_nat] at hs ⊢
    split_ifs at hs ⊢ with c1 c2 c3
    · exact ih _ _ _ _ _ _ hs
    · exact ih _ _ _ _ _ _ hs
    · rfl
    · exact ih _ _ _ _ _ _ hs

/-- What the group expansion returns: the result of the chain walk when that is
not `SUCCESS`; otherwise `in` is not negative and the result is what the loop on
natural numbers computes on the window that starts at `in`. -/
theorem initgroups_dyn_some (env : Env β) (user : String) (grp : Nat) (buf : GroupBuf)
    (limit : Int) (errnop : Int) (s : State β) (o : Out GroupBuf β)
    (h : _nss_nonlocal_initgroups_dyn env user grp buf limit errnop s = some o) :
    ((nss_walk "initgroups_dyn" (fun ni => ni.initgroups_dyn)
        (fun f res e w => f user grp res limit e w) env.group_nonlocal
        (__nss_lookup_function (fun ni => ni.initgroups_dyn) env.group_nonlocal) buf errnop
        s).status ≠ SUCCESS ∧
      o = nss_walk "initgroups_dyn" (fun ni => ni.initgroups_dyn)
        (fun f res e w => f user grp res limit e w) env.group_nonlocal
        (__nss_lookup_function (fun ni => ni.initgroups_dyn) env.group_nonlocal) buf errnop
        s) ∨
    ((nss_walk "initgroups_dyn" (fun ni => ni.initgroups_dyn)
        (fun f res e w => f user grp res limit e w) env.group_nonlocal
        (__nss_lookup_function (fun ni => ni.initgroups_dyn) env.group_nonlocal) buf errnop
        s).status = SUCCESS ∧ 0 ≤ long_to_int buf.start ∧
      ∃ n, o = initgroups_filter_nat env user n (long_to_int buf.start).toNat
        (long_to_int buf.start).toNat
        (nss_walk "initgroups_dyn" (fun ni => ni.initgroups_dyn)
          (fun f res e w => f user grp res limit e w) env.group_nonlocal
          (__nss_lookup_function (fun ni => ni.initgroups_dyn) env.group_nonlocal) buf errnop
          s).res
        (nss_walk "initgroups_dyn" (fun ni => ni.initgroups_dyn)
          (fun f res e w => f user grp res limit e w) env.group_nonlocal
          (__nss_lookup_function (fun ni => ni.initgroups_dyn) env.group_nonlocal) buf errnop
          s).errnop
        (nss_walk "initgroups_dyn" (fun ni => ni.initgroups_dyn)
          (fun f res e w => f user grp res limit e w) env.group_nonlocal
          (__nss_lookup_function (fun ni => ni.initgroups_dyn) env.group_nonlocal) buf errnop
          s).state
        (nss_walk "initgroups_dyn" (fun ni => ni.initgroups_dyn)
          (fun f res e w => f user grp res limit e w) env.group_nonlocal
          (__nss_lookup_function (fun ni => ni.initgroups_dyn) env.group_nonlocal) buf errnop
          s).trace) := by
  rw [initgroups_dyn_walk] at h
  generalize nss_walk "initgroups_dyn" (fun ni => ni.initgroups_dyn)
    (fun f res e w => f user grp res limit e w) env.group_nonlocal
    (__nss_lookup_function (fun ni => ni.initgroups_dyn) env.group_nonlocal) buf errnop s = r
    at h ⊢
  simp only at h
  by_cases hr : r.status = SUCCESS
  · simp only [hr, ne_eq, not_true_eq_false, if_false] at h
    right
    by_cases hneg : long_to_int buf.start < 0
    · obtain ⟨n, hn⟩ : ∃ n, ((r.res.start : Int) - long_to_int buf.start).toNat = n + 1 :=
        ⟨((r.res.start : Int) - long_to_int buf.start).toNat - 1, by omega⟩
      rw [hn] at h
      simp [initgroups_filter, hneg] at h
    · have h0 : 0 ≤ long_to_int buf.start := by omega
      refine ⟨hr, h0, ((r.res.start : Int) - long_to_int buf.start).toNat, ?_⟩
      obtain ⟨m, hm⟩ : ∃ m : Nat, long_to_int buf.start = (m : Int) :=
        ⟨_, (Int.toNat_of_nonneg h0).symm⟩
      rw [hm] at h ⊢
      rw [Int.toNat_ofNat]
      exact initgroups_filter_sound env user _ _ _ _ _ _ _ _ h
  · simp only [hr, ne_eq, not_false_eq_true, if_true, Option.some.injEq] at h
    exact Or.inl ⟨hr, h.symm⟩

/-- The walk over a chain whose backends 1..k-1 make it go on and whose backend k
answers `SUCCESS`: the answer of backend k, after one call to each of 1..k. -/
theorem nss_walk_first_success (fct_name : String) (sel : service_user β → Option α)
    (call : α → ρ → Int → World β → Ret ρ β) (pre : List (service_user β))
    (bk : service_user β) (post : List (service_user β)) (res : ρ) (errnop : Int)
    (s : State β)
    (h1 : ∀ a ∈ (call_each fct_name sel call pre res errnop s).answers, goes_on a)
    (h2 : (call_fct fct_name call (__nss_lookup_function sel [bk])
      (call_each fct_name sel call pre res errnop s).res
      (call_each fct_name sel call pre res errnop s).errnop
      (call_each fct_name sel call pre res errnop s).state).status = SUCCESS) :
    nss_walk fct_name sel call (pre ++ bk :: post)
        (__nss_lookup_function sel (pre ++ bk :: post)) res errnop s =
      { call_fct fct_name call (__nss_lookup_function sel [bk])
          (call_each fct_name sel call pre res errnop s).res
          (call_each fct_name sel call pre res errnop s).errnop
          (call_each fct_name sel call pre res errnop s).state with
        trace := (call_each fct_name sel call pre res errnop s).trace ++
          (call_fct fct_name call (__nss_lookup_function sel [bk])
            (call_each fct_name sel call pre res errnop s).res
            (call_each fct_name sel call pre res errnop s).errnop
            (call_each fct_name sel call pre res errnop s).state).trace } ∧
    ((call_each fct_name sel call pre res errnop s).trace ++
      (call_fct fct_name call (__nss_lookup_function sel [bk])
        (call_each fct_name sel call pre res errnop s).res
        (call_each fct_name sel call pre res errnop s).errnop
        (call_each fct_name sel call pre res errnop s).state).trace).filterMap Event.called =
      resolved sel (pre ++ [bk]) := by
  constructor
  · rw [nss_walk_passes fct_name sel call bk post pre res errnop s h1,
      nss_walk_stops fct_name sel call bk post _ _ _ h2]
  · rw [List.filterMap_append, call_each_trace_called]
    cases hf : sel bk with
    | none => simp [call_fct, __nss_lookup_function, hf] at h2
    | some f => simp [call_fct, __nss_lookup_function, hf, resolved, Event.called]

theorem check_nonlocal_uid_errnop (env : Env β) (user : String) (uid : Nat) (e : Int)
    (s : State β) (h : (check_nonlocal_uid env user uid e s).status = SUCCESS) :
    (check_nonlocal_uid env user uid e s).errnop = e := by
  unfold check_nonlocal_uid at h ⊢
  simp only at h ⊢
  split_ifs at h ⊢ <;> simp_all

theorem check_nonlocal_gid_errnop (env : Env β) (user : String) (gid : Nat) (e : Int)
    (s : State β) (h : (check_nonlocal_gid env user gid e s).status = SUCCESS) :
    (check_nonlocal_gid env user gid e s).errnop = e := by
  unfold check_nonlocal_gid at h ⊢
  simp only at h ⊢
  split_ifs at h ⊢
  all_goals simp_all

theorem filterMap_called_check_uid (env : Env β) (user : String) (uid : Nat) (e : Int)
    (s : State β) :
    (check_nonlocal_uid env user uid e s).trace.filterMap Event.called = [] := by
  rw [check_nonlocal_uid_trace]; rfl

theorem filterMap_called_check_gid (env : Env β) (user : String) (gid : Nat) (e : Int)
    (s : State β) :
    (check_nonlocal_gid env user gid e s).trace.filterMap Event.called = [] := by
  rw [check_nonlocal_gid_trace]; rfl

theorem append_cons_ne_nil {γ : Type} (pre : List γ) (x : γ) (post : List γ) :
    pre ++ x :: post ≠ [] := by
  simp

/-- C2 (amended): in a single-shot lookup, if backends 1..k-1 answer with
statuses that are neither `SUCCESS` nor `TRYAGAIN` with `ERANGE`, backend k
answers `SUCCESS` and the guard accepts its candidate (`check_nonlocal_uid` for a
user, `check_nonlocal_gid` for a group), the lookup returns `SUCCESS`, and the
backends called are exactly 1..k, once each.  The record returned is the
candidate of backend k, except that a user lookup replaces the primary gid by
65534 when `check_nonlocal_gid` on it does not return `SUCCESS`.  That a backend
answers in the call means that the call got past the entry gate of the by-id
lookups (`local_only` is not 1, the buffer length is not the magic one): a call
stopped there has no event at all. -/
theorem C2_first_success_wins (env : Env β) :
    (∀ pre bk post name pwd buflen errnop s,
      env.passwd_nonlocal = pre ++ bk :: post →
      let e := call_each "getpwnam_r" (fun ni => ni.getpwnam_r)
        (fun f res e w => f name res buflen e w) pre pwd errnop s
      let r := call_fct "getpwnam_r" (fun f res e w => f name res buflen e w)
        (__nss_lookup_function (fun ni => ni.getpwnam_r) [bk]) e.res e.errnop e.state
      let c := check_nonlocal_uid env name r.res.pw_uid r.errnop r.state
      let g := check_nonlocal_gid env name r.res.pw_gid 0 c.state
      let o := _nss_nonlocal_getpwnam_r env name pwd buflen errnop s
      (∀ a ∈ e.answers, goes_on a) → r.status = SUCCESS → c.status = SUCCESS →
      o.status = SUCCESS ∧
      o.res = (if g.status = SUCCESS then r.res else { r.res with pw_gid := 65534 }) ∧
      o.errnop = r.errnop ∧ o.state = g.state ∧
      o.trace = e.trace ++ r.trace ++ c.trace ++ g.trace ∧
      o.trace.filterMap Event.called = resolved (fun ni => ni.getpwnam_r) (pre ++ [bk])) ∧
    (∀ pre bk post uid pwd buflen errnop s,
      env.passwd_nonlocal = pre ++ bk :: post → s.local_only ≠ 1 →
      let e := call_each "getpwuid_r" (fun ni => ni.getpwuid_r)
        (fun f res e w => f uid res buflen e w) pre pwd errnop s
      let r := call_fct "getpwuid_r" (fun f res e w => f uid res buflen e w)
        (__nss_lookup_function (fun ni => ni.getpwuid_r) [bk]) e.res e.errnop e.state
      let c := check_nonlocal_uid env r.res.pw_name r.res.pw_uid r.errnop r.state
      let g := check_nonlocal_gid env r.res.pw_name r.res.pw_gid 0 c.state
      let o := _nss_nonlocal_getpwuid_r env uid pwd buflen errnop s
      (∀ a ∈ e.answers, goes_on a) → r.status = SUCCESS → c.status = SUCCESS →
      o.status = SUCCESS ∧
      o.res = (if g.status = SUCCESS then r.res else { r.res with pw_gid := 65534 }) ∧
      o.errnop = r.errnop ∧ o.state = g.state ∧
      o.trace = e.trace ++ r.trace ++ c.trace ++ g.trace ∧
      o.trace.filterMap Event.called = resolved (fun ni => ni.getpwuid_r) (pre ++ [bk])) ∧
    (∀ pre bk post name grp buflen errnop s,
      env.group_nonlocal = pre ++ bk :: post →
      let e := call_each "getgrnam_r" (fun ni => ni.getgrnam_r)
        (fun f res e w => f name res buflen e w) pre grp errnop s
      let r := call_fct "getgrnam_r" (fun f res e w => f name res buflen e w)
        (__nss_lookup_function (fun ni => ni.getgrnam_r) [bk]) e.res e.errnop e.state
      let c := check_nonlocal_gid env name r.res.gr_gid r.errnop r.state
      let o := _nss_nonlocal_getgrnam_r env name grp buflen errnop s
      (∀ a ∈ e.answers, goes_on a) → r.status = SUCCESS → c.status = SUCCESS →
      o.status = SUCCESS ∧ o.res = r.res ∧ o.errnop = r.errnop ∧ o.state = c.state ∧
      o.trace = e.trace ++ r.trace ++ c.trace ∧
      o.trace.filterMap Event.called = resolved (fun ni => ni.getgrnam_r) (pre ++ [bk])) ∧
    (∀ pre bk post gid grp (buflen : Nat) errnop s,
      env.group_nonlocal = pre ++ bk :: post → (buflen : Int) ≠ MAGIC_LOCAL_GR_BUFLEN env →
      let e := call_each "getgrgid_r" (fun ni => ni.getgrgid_r)
        (fun f res e w => f gid res buflen e w) pre grp errnop s
      let r := call_fct "getgrgid_r" (fun f res e w => f gid res buflen e w)
        (__nss_lookup_function (fun ni => ni.getgrgid_r) [bk]) e.res e.errnop e.state
      let c := check_nonlocal_gid env r.res.gr_name r.res.gr_gid r.errnop r.state
      let o := _nss_nonlocal_getgrgid_r env gid grp buflen errnop s
      (∀ a ∈ e.answers, goes_on a) → r.status = SUCCESS → c.status = SUCCESS →
      o.status = SUCCESS ∧ o.res = r.res ∧ o.errnop = r.errnop ∧ o.state = c.state ∧
      o.trace = e.trace ++ r.trace ++ c.trace ∧
      o.trace.filterMap Event.called = resolved (fun ni => ni.getgrgid_r) (pre ++ [bk])) ∧
    (∀ uid pwd buflen errnop s, s.local_only = 1 →
      (_nss_nonlocal_getpwuid_r env uid pwd buflen errnop s).trace = []) ∧
    (∀ gid grp (buflen : Nat) errnop s, (buflen : Int) = MAGIC_LOCAL_GR_BUFLEN env →
      (_nss_nonlocal_getgrgid_r env gid grp buflen errnop s).trace = []) := by
  refine ⟨?_, ?_, ?_, ?_, ?_, ?_⟩
  · intro pre bk post name pwd buflen errnop s hc
    dsimp only
    intro h1 h2 h3
    obtain ⟨hw, ht⟩ := nss_walk_first_success "getpwnam_r" (fun ni => ni.getpwnam_r)
      (fun f res e w => f name res buflen e w) pre bk post pwd errnop s h1 h2
    rw [getpwnam_r_walk env name pwd buflen errnop s (hc ▸ append_cons_ne_nil pre bk post),
      hc, hw]
    rw [List.filterMap_append] at ht
    simp only [h2, h3, ne_eq, not_true_eq_false, if_false]
    split_ifs with hg
    · simp only [true_and, List.filterMap_append, filterMap_called_check_uid,
        filterMap_called_check_gid, List.append_nil, List.append_assoc]
      exact ⟨check_nonlocal_uid_errnop _ _ _ _ _ h3, ht⟩
    · simp only [true_and, List.filterMap_append, filterMap_called_check_uid,
        filterMap_called_check_gid, List.append_nil, List.append_assoc]
      exact ⟨check_nonlocal_uid_errnop _ _ _ _ _ h3, ht⟩
  · intro pre bk post uid pwd buflen errnop s hc h0
    dsimp only
    intro h1 h2 h3
    obtain ⟨hw, ht⟩ := nss_walk_first_success "getpwuid_r" (fun ni => ni.getpwuid_r)
      (fun f res e w => f uid res buflen e w) pre bk post pwd errnop s h1 h2
    rw [getpwuid_r_walk env uid pwd buflen errnop s (hc ▸ append_cons_ne_nil pre bk post) h0,
      hc, hw]
    rw [List.filterMap_append] at ht
    simp only [h2, h3, ne_eq, not_true_eq_false, if_false]
    split_ifs with hg
    · simp only [true_and, List.filterMap_append, filterMap_called_check_uid,
        filterMap_called_check_gid, List.append_nil, List.append_assoc]
      exact ⟨check_nonlocal_uid_errnop _ _ _ _ _ h3, ht⟩
    · simp only [true_and, List.filterMap_append, filterMap_called_check_uid,
        filterMap_called_check_gid, List.append_nil, List.append_assoc]
      exact ⟨check_nonlocal_uid_errnop _ _ _ _ _ h3, ht⟩
  · intro pre bk post name grp buflen errnop s hc
    dsimp only
    intro h1 h2 h3
    obtain ⟨hw, ht⟩ := nss_walk_first_success "getgrnam_r" (fun ni => ni.getgrnam_r)
      (fun f res e w => f name res buflen e w) pre bk post grp errnop s h1 h2
    rw [getgrnam_r_walk env name grp buflen errnop s (hc ▸ append_cons_ne_nil pre bk post),
      hc, hw]
    simp only [h2, h3, ne_eq, not_true_eq_false, if_false, true_and,
      List.filterMap_append, filterMap_called_check_gid,
      List.append_nil, List.append_assoc]
    rw [List.filterMap_append] at ht
    exact ⟨check_nonlocal_gid_errnop _ _ _ _ _ h3, ht⟩
  · intro pre bk post gid grp buflen errnop s hc h0
    dsimp only
    intro h1 h2 h3
    obtain ⟨hw, ht⟩ := nss_walk_first_success "getgrgid_r" (fun ni => ni.getgrgid_r)
      (fun f res e w => f gid res buflen e w) pre bk post grp errnop s h1 h2
    rw [getgrgid_r_walk env gid grp buflen errnop s (hc ▸ append_cons_ne_nil pre bk post) h0,
      hc, hw]
    simp only [h2, h3, ne_eq, not_true_eq_false, if_false, true_and,
      List.filterMap_append, filterMap_called_check_gid,
      List.append_nil, List.append_assoc]
    rw [List.filterMap_append] at ht
    exact ⟨check_nonlocal_gid_errnop _ _ _ _ _ h3, ht⟩
  · intro uid pwd buflen errnop s h
    simp [_nss_nonlocal_getpwuid_r, h]
  · intro gid grp buflen errnop s h
    simp [_nss_nonlocal_getgrgid_r, h]

theorem call_each_answers_ne_nil (fct_name : String) (sel : service_user β → Option α)
    (call : α → ρ → Int → World β → Ret ρ β) (ni : service_user β)
    (rest : List (service_user β)) (res : ρ) (errnop : Int) (s : State β) :
    (call_each fct_name sel call (ni :: rest) res errnop s).answers ≠ [] := by
  simp [call_each]

/-- When every backend answers `NOTFOUND` or `UNAVAIL`, the walk calls each of
them once and ends with what the last one answered. -/
theorem nss_walk_all_absent (fct_name : String) (sel : service_user β → Option α)
    (call : α → ρ → Int → World β → Ret ρ β) :
    ∀ (chain : List (service_user β)) (res : ρ) (errnop : Int) (s : State β),
      chain ≠ [] →
      (∀ a ∈ (call_each fct_name sel call chain res errnop s).answers,
        a.1 = NOTFOUND ∨ a.1 = UNAVAIL) →
      ∃ st, (call_each fct_name sel call chain res errnop s).answers.getLast? =
          some (st, (call_each fct_name sel call chain res errnop s).errnop) ∧
        nss_walk fct_name sel call chain (__nss_lookup_function sel chain) res errnop s =
          ⟨st, (call_each fct_name sel call chain res errnop s).res,
            (call_each fct_name sel call chain res errnop s).errnop,
            (call_each fct_name sel call chain res errnop s).state,
            (call_each fct_name sel call chain res errnop s).trace⟩ := by
  intro chain
  induction chain with
  | nil => intro res errnop s h; exact absurd rfl h
  | cons ni rest ih =>
    intro res errnop s _ h
    simp only [call_each, List.mem_cons, forall_eq_or_imp] at h
    obtain ⟨h1, h2⟩ := h
    have hne : (call_fct fct_name call (__nss_lookup_function sel [ni]) res errnop s).status
        ≠ SUCCESS := by
      rcases h1 with h1 | h1 <;> simp [h1]
    have hnt : ¬ ((call_fct fct_name call (__nss_lookup_function sel [ni]) res errnop
        s).status = TRYAGAIN ∧
        (call_fct fct_name call (__nss_lookup_function sel [ni]) res errnop s).errnop
          = ERANGE) := by
      rcases h1 with h1 | h1 <;> simp [h1]
    cases rest with
    | nil =>
      refine ⟨(call_fct fct_name call (__nss_lookup_function sel [ni]) res errnop s).status,
        ?_, ?_⟩
      · simp [call_each]
      · rw [nss_walk_last]
        simp [call_each]
    | cons n rest =>
      obtain ⟨st, hl, hw⟩ := ih _ _ _ (List.cons_ne_nil n rest) h2
      refine ⟨st, ?_, ?_⟩
      · simp only [call_each] at hl ⊢
        rw [List.getLast?_cons_cons]
        exact hl
      · rw [nss_walk]
        simp only [nss_lookup_function_cons sel ni]
        rw [if_neg hnt, nss_next_advance _ _ _ _ _ _ hne]
        simp only [if_true]
        rw [hw]
        simp [call_each]

/-- An instance: over the chain empty, dir, late the name lookup returns the
record of dir, the second backend, and late is never called. -/
theorem C2_first_success_wins_witness :
    (_nss_nonlocal_getpwnam_r (demo_env [demo_empty, demo_dir, demo_late] []) "joe"
      (demo_pw "" 0 0) 64 0 demo_state).status = SUCCESS ∧
    (_nss_nonlocal_getpwnam_r (demo_env [demo_empty, demo_dir, demo_late] []) "joe"
      (demo_pw "" 0 0) 64 0 demo_state).res = demo_pw "joe" 1000 100 ∧
    (_nss_nonlocal_getpwnam_r (demo_env [demo_empty, demo_dir, demo_late] []) "joe"
      (demo_pw "" 0 0) 64 0 demo_state).trace.filterMap Event.called = ["empty", "dir"] :=
  have h := (C2_first_success_wins (demo_env [demo_empty, demo_dir, demo_late] [])).1
    [demo_empty] demo_dir [demo_late] "joe" (demo_pw "" 0 0) 64 0 demo_state rfl
    (by decide) (by decide) (by decide)
  ⟨h.1, h.2.1.trans (by decide), h.2.2.2.2.2⟩

/-- C2 as stated fails for a user whose primary gid collides.  Over the chain
empty, dir, late, with a local group of gid 20: backend 1 answers `NOTFOUND`,
backend 2 answers `SUCCESS` with user joe, uid 1000, gid 20, and
`check_nonlocal_uid` accepts uid 1000.  The lookup returns `SUCCESS` and late is
never called, but the record returned has gid 65534: it is not exactly the
candidate of backend 2. -/
theorem C2_counterexample :
    (_nss_nonlocal_getpwnam_r (demo_local [demo_empty, demo_dir_gid 20, demo_late] []) "joe"
      (demo_pw "" 0 0) 64 0 demo_state).status = SUCCESS ∧
    (_nss_nonlocal_getpwnam_r (demo_local [demo_empty, demo_dir_gid 20, demo_late] []) "joe"
      (demo_pw "" 0 0) 64 0 demo_state).trace =
        [Event.call "empty" "getpwnam_r" NOTFOUND 2, Event.call "dir" "getpwnam_r" SUCCESS 2,
         Event.check_uid 1000 SUCCESS, Event.check_gid 20 NOTFOUND] ∧
    (call_fct "getpwnam_r" (fun f res e w => f "joe" res 64 e w)
      (__nss_lookup_function (fun ni => ni.getpwnam_r) [demo_dir_gid 20]) (demo_pw "" 0 0) 2
      demo_state).res = demo_pw "joe" 1000 20 ∧
    (_nss_nonlocal_getpwnam_r (demo_local [demo_empty, demo_dir_gid 20, demo_late] []) "joe"
      (demo_pw "" 0 0) 64 0 demo_state).res = demo_pw "joe" 1000 65534 := by
  decide

/-- C3 (amended): in a single-shot lookup over a non-empty chain that is let in
(for `getpwuid_r` the flag `local_only` is not 1, for `getgrgid_r` the buffer
length is not the magic one), if every backend answers `NOTFOUND` or `UNAVAIL`
(a backend without the entry point counting as `UNAVAIL`), the lookup returns
the status the last backend answered, which is `NOTFOUND` or `UNAVAIL`, and has
called every backend that has the entry point exactly once, in chain order. -/
theorem C3_all_absent_returns_last (env : Env β) :
    (∀ name pwd buflen errnop s, env.passwd_nonlocal ≠ [] →
      let e := call_each "getpwnam_r" (fun ni => ni.getpwnam_r)
        (fun f res e w => f name res buflen e w) env.passwd_nonlocal pwd errnop s
      let o := _nss_nonlocal_getpwnam_r env name pwd buflen errnop s
      (∀ a ∈ e.answers, a.1 = NOTFOUND ∨ a.1 = UNAVAIL) →
      e.answers.getLast?.map Prod.fst = some o.status ∧
      (o.status = NOTFOUND ∨ o.status = UNAVAIL) ∧
      o.res = e.res ∧ o.errnop = e.errnop ∧ o.state = e.state ∧ o.trace = e.trace ∧
      o.trace.filterMap Event.called = resolved (fun ni => ni.getpwnam_r) env.passwd_nonlocal) ∧
    (∀ uid pwd buflen errnop s, env.passwd_nonlocal ≠ [] → s.local_only ≠ 1 →
      let e := call_each "getpwuid_r" (fun ni => ni.getpwuid_r)
        (fun f res e w => f uid res buflen e w) env.passwd_nonlocal pwd errnop s
      let o := _nss_nonlocal_getpwuid_r env uid pwd buflen errnop s
      (∀ a ∈ e.answers, a.1 = NOTFOUND ∨ a.1 = UNAVAIL) →
      e.answers.getLast?.map Prod.fst = some o.status ∧
      (o.status = NOTFOUND ∨ o.status = UNAVAIL) ∧
      o.res = e.res ∧ o.errnop = e.errnop ∧ o.state = e.state ∧ o.trace = e.trace ∧
      o.trace.filterMap Event.called = resolved (fun ni => ni.getpwuid_r) env.passwd_nonlocal) ∧
    (∀ name grp buflen errnop s, env.group_nonlocal ≠ [] →
      let e := call_each "getgrnam_r" (fun ni => ni.getgrnam_r)
        (fun f res e w => f name res buflen e w) env.group_nonlocal grp errnop s
      let o := _nss_nonlocal_getgrnam_r env name grp buflen errnop s
      (∀ a ∈ e.answers, a.1 = NOTFOUND ∨ a.1 = UNAVAIL) →
      e.answers.getLast?.map Prod.fst = some o.status ∧
      (o.status = NOTFOUND ∨ o.status = UNAVAIL) ∧
      o.res = e.res ∧ o.errnop = e.errnop ∧ o.state = e.state ∧ o.trace = e.trace ∧
      o.trace.filterMap Event.called = resolved (fun ni => ni.getgrnam_r) env.group_nonlocal) ∧
    (∀ gid grp (buflen : Nat) errnop s, env.group_nonlocal ≠ [] →
      (buflen : Int) ≠ MAGIC_LOCAL_GR_BUFLEN env →
      let e := call_each "getgrgid_r" (fun ni => ni.getgrgid_r)
        (fun f res e w => f gid res buflen e w) env.group_nonlocal grp errnop s
      let o := _nss_nonlocal_getgrgid_r env gid grp buflen errnop s
      (∀ a ∈ e.answers, a.1 = NOTFOUND ∨ a.1 = UNAVAIL) →
      e.answers.getLast?.map Prod.fst = some o.status ∧
      (o.status = NOTFOUND ∨ o.status = UNAVAIL) ∧
      o.res = e.res ∧ o.errnop = e.errnop ∧ o.state = e.state ∧ o.trace = e.trace ∧
      o.trace.filterMap Event.called = resolved (fun ni => ni.getgrgid_r) env.group_nonlocal) := by
  refine ⟨?_, ?_, ?_, ?_⟩
  · intro name pwd buflen errnop s hne
    dsimp only
    intro h
    obtain ⟨st, hl, hw⟩ := nss_walk_all_absent "getpwnam_r" (fun ni => ni.getpwnam_r)
      (fun f res e w => f name res buflen e w) env.passwd_nonlocal pwd errnop s hne h
    have hst := h _ (List.mem_of_getLast?_eq_some hl)
    have hns : st ≠ SUCCESS := by rcases hst with h1 | h1 <;> simp_all
    rw [getpwnam_r_walk env name pwd buflen errnop s hne, hw]
    simp only [hns, ne_eq, not_false_eq_true, if_true, hl, Option.map_some', true_and]
    exact ⟨hst, call_each_trace_called _ _ _ _ _ _ _⟩
  · intro uid pwd buflen errnop s hne h0
    dsimp only
    intro h
    obtain ⟨st, hl, hw⟩ := nss_walk_all_absent "getpwuid_r" (fun ni => ni.getpwuid_r)
      (fun f res e w => f uid res buflen e w) env.passwd_nonlocal pwd errnop s hne h
    have hst := h _ (List.mem_of_getLast?_eq_some hl)
    have hns : st ≠ SUCCESS := by rcases hst with h1 | h1 <;> simp_all
    rw [getpwuid_r_walk env uid pwd buflen errnop s hne h0, hw]
    simp only [hns, ne_eq, not_false_eq_true, if_true, hl, Option.map_some', true_and]
    exact ⟨hst, call_each_trace_called _ _ _ _ _ _ _⟩
  · intro name grp buflen errnop s hne
    dsimp only
    intro h
    obtain ⟨st, hl, hw⟩ := nss_walk_all_absent "getgrnam_r" (fun ni => ni.getgrnam_r)
      (fun f res e w => f name res buflen e w) env.group_nonlocal grp errnop s hne h
    have hst := h _ (List.mem_of_getLast?_eq_some hl)
    have hns : st ≠ SUCCESS := by rcases hst with h1 | h1 <;> simp_all
    rw [getgrnam_r_walk env name grp buflen errnop s hne, hw]
    simp only [hns, ne_eq, not_false_eq_true, if_true, hl, Option.map_some', true_and]
    exact ⟨hst, call_each_trace_called _ _ _ _ _ _ _⟩
  · intro gid grp buflen errnop s hne h0
    dsimp only
    intro h
    obtain ⟨st, hl, hw⟩ := nss_walk_all_absent "getgrgid_r" (fun ni => ni.getgrgid_r)
      (fun f res e w => f gid res buflen e w) env.group_nonlocal grp errnop s hne h
    have hst := h _ (List.mem_of_getLast?_eq_some hl)
    have hns : st ≠ SUCCESS := by rcases hst with h1 | h1 <;> simp_all
    rw [getgrgid_r_walk env gid grp buflen errnop s hne h0, hw]
    simp only [hns, ne_eq, not_false_eq_true, if_true, hl, Option.map_some', true_and]
    exact ⟨hst, call_each_trace_called _ _ _ _ _ _ _⟩

/-- An instance: over the chain down, empty the group lookup by name returns
`NOTFOUND`, the status of the last backend, after calling both once. -/
theorem C3_all_absent_returns_last_witness :
    (_nss_nonlocal_getgrnam_r (demo_env [] [demo_down, demo_empty]) "staff" (demo_gr "" 0) 64 0
      demo_state).status = NOTFOUND ∧
    (_nss_nonlocal_getgrnam_r (demo_env [] [demo_down, demo_empty]) "staff" (demo_gr "" 0) 64 0
      demo_state).trace.filterMap Event.called = ["down", "empty"] :=
  have h := (C3_all_absent_returns_last (demo_env [] [demo_down, demo_empty])).2.2.1
    "staff" (demo_gr "" 0) 64 0 demo_state (List.cons_ne_nil _ _) (by decide)
  ⟨Option.some.inj h.1.symm, h.2.2.2.2.2.2⟩

/-- C3 as stated fails: over the chain of a backend that knows nobody and a
backend that is down, both backends answer `NOTFOUND` or `UNAVAIL`, and the
lookup returns `UNAVAIL`, the status of the last one, not `NOTFOUND`. -/
theorem C3_counterexample :
    (∀ a ∈ (call_each "getpwnam_r" (fun ni => ni.getpwnam_r)
        (fun f res e w => f "joe" res 64 e w) [demo_empty, demo_down] (demo_pw "" 0 0) 0
        demo_state).answers, a.1 = NOTFOUND ∨ a.1 = UNAVAIL) ∧
    (_nss_nonlocal_getpwnam_r (demo_env [demo_empty, demo_down] []) "joe" (demo_pw "" 0 0) 64 0
      demo_state).status = UNAVAIL ∧
    (_nss_nonlocal_getpwnam_r (demo_env [demo_empty, demo_down] []) "joe" (demo_pw "" 0 0) 64 0
      demo_state).status ≠ NOTFOUND := by
  decide

theorem erange_is_final_nil (st : nss_status) (e : Int) : erange_is_final st e [] := by
  intro pre ev post h
  simp at h

theorem erange_is_final_append (st : nss_status) (e : Int) (tr1 tr2 : List Event)
    (h1 : ∀ x ∈ tr1, x.is_erange = false) (h2 : erange_is_final st e tr2) :
    erange_is_final st e (tr1 ++ tr2) := by
  intro pre ev post h hev
  rw [List.append_eq_append_iff] at h
  rcases h with ⟨a, rfl, ha⟩ | ⟨c, rfl, hc⟩
  · exact h2 a ev post ha hev
  · cases c with
    | nil => exact h2 [] ev post (by simpa using hc.symm) hev
    | cons x c =>
      simp only [List.cons_append, List.cons.injEq] at hc
      have := h1 ev (by simp [hc.1])
      rw [this] at hev
      exact absurd hev (by simp)

theorem erange_is_final_quiet (st : nss_status) (e : Int) (tr : List Event)
    (h : ∀ x ∈ tr, x.is_erange = false) : erange_is_final st e tr := by
  have := erange_is_final_append st e tr [] h (erange_is_final_nil st e)
  simpa using this

theorem erange_is_final_single (ev : Event) : erange_is_final TRYAGAIN ERANGE [ev] := by
  intro pre ev1 post h _
  cases pre with
  | nil => simp only [List.nil_append, List.cons.injEq] at h; exact ⟨h.2.symm, rfl, rfl⟩
  | cons x pre =>
    simp only [List.cons_append, List.cons.injEq] at h
    have := h.2
    simp at this

theorem erange_is_final_quiet_of_status (st : nss_status) (e : Int) (tr : List Event)
    (h : erange_is_final st e tr) (hs : ¬ (st = TRYAGAIN ∧ e = ERANGE)) :
    ∀ x ∈ tr, x.is_erange = false := by
  intro x hx
  obtain ⟨pre, post, rfl⟩ := List.append_of_mem hx
  by_contra hne
  have := h pre x post rfl (by simpa using hne)
  exact hs this.2

/-- What one call through a function pointer leaves in the events. -/
theorem call_fct_erange (fct_name : String) (call : α → ρ → Int → World β → Ret ρ β)
    (fctp : Option (fct α)) (res : ρ) (errnop : Int) (s : State β) :
    (∀ x ∈ (call_fct fct_name call fctp res errnop s).trace, x.is_check = false) ∧
    (¬ ((call_fct fct_name call fctp res errnop s).status = TRYAGAIN ∧
        (call_fct fct_name call fctp res errnop s).errnop = ERANGE) →
      ∀ x ∈ (call_fct fct_name call fctp res errnop s).trace, x.is_erange = false) ∧
    erange_is_final (call_fct fct_name call fctp res errnop s).status
      (call_fct fct_name call fctp res errnop s).errnop
      (call_fct fct_name call fctp res errnop s).trace := by
  cases fctp with
  | none =>
    simp only [call_fct]
    exact ⟨by simp, by simp, erange_is_final_nil _ _⟩
  | some f =>
    simp only [call_fct]
    refine ⟨by simp [Event.is_check], ?_, ?_⟩
    · intro h x hx
      simp only [List.mem_singleton] at hx
      subst hx
      cases hst : (call f.l res errnop s.world).status <;> simp_all [Event.is_erange]
    · intro pre ev post h hev
      cases pre with
      | nil =>
        simp only [List.nil_append, List.cons.injEq] at h
        refine ⟨h.2.symm, ?_⟩
        rw [← h.1] at hev
        cases hst : (call f.l res errnop s.world).status <;>
          simp_all [Event.is_erange]
      | cons x pre =>
        simp only [List.cons_append, List.cons.injEq] at h
        have := h.2
        simp at this

/-- The chain walk never runs a guard, and a buffer-too-small answer ends it. -/
theorem nss_walk_erange (fct_name : String) (sel : service_user β → Option α)
    (call : α → ρ → Int → World β → Ret ρ β) :
    ∀ (chain : List (service_user β)) (fctp : Option (fct α)) (res : ρ) (errnop : Int)
      (s : State β),
      (∀ x ∈ (nss_walk fct_name sel call chain fctp res errnop s).trace, x.is_check = false) ∧
      erange_is_final (nss_walk fct_name sel call chain fctp res errnop s).status
        (nss_walk fct_name sel call chain fctp res errnop s).errnop
        (nss_walk fct_name sel call chain fctp res errnop s).trace := by
  intro chain
  induction chain with
  | nil =>
    intro fctp res errnop s
    simp only [nss_walk]
    exact ⟨by simp, erange_is_final_nil _ _⟩
  | cons ni next ih =>
    intro fctp res errnop s
    obtain ⟨hc1, hc2, hc3⟩ := call_fct_erange fct_name call fctp res errnop s
    rw [nss_walk]
    simp only
    split_ifs with h1 h2
    · exact ⟨hc1, hc3⟩
    · obtain ⟨i1, i2⟩ := ih (__nss_next sel (ni :: next) fctp
        (call_fct fct_name call fctp res errnop s).status).fctp
        (call_fct fct_name call fctp res errnop s).res
        (call_fct fct_name call fctp res errnop s).errnop
        (call_fct fct_name call fctp res errnop s).state
      refine ⟨?_, erange_is_final_append _ _ _ _ (hc2 h1) i2⟩
      intro x hx
      rcases List.mem_append.mp hx with hx | hx
      · exact hc1 x hx
      · exact i1 x hx
    · exact ⟨hc1, hc3⟩

theorem check_nonlocal_uid_quiet (env : Env β) (user : String) (uid : Nat) (e : Int)
    (s : State β) :
    ∀ x ∈ (check_nonlocal_uid env user uid e s).trace, x.is_erange = false := by
  rw [check_nonlocal_uid_trace]
  simp [Event.is_erange]

theorem check_nonlocal_gid_quiet (env : Env β) (user : String) (gid : Nat) (e : Int)
    (s : State β) :
    ∀ x ∈ (check_nonlocal_gid env user gid e s).trace, x.is_erange = false := by
  rw [check_nonlocal_gid_trace]
  simp [Event.is_erange]

theorem erange_is_final_call (service fct_name : String) (st : nss_status) (e : Int) :
    erange_is_final st e [Event.call service fct_name st e] := by
  intro pre ev post h hev
  cases pre with
  | nil =>
    simp only [List.nil_append, List.cons.injEq] at h
    refine ⟨h.2.symm, ?_⟩
    rw [← h.1] at hev
    cases st <;> simp_all [Event.is_erange]
  | cons x pre =>
    simp only [List.cons_append, List.cons.injEq] at h
    have := h.2
    simp at this

/-- The events the filter loop of the group expansion adds are guard runs. -/
theorem initgroups_filter_nat_trace (env : Env β) (user : String) :
    ∀ (n i_n out : Nat) (buf : GroupBuf) (errnop : Int) (s : State β) (tr : List Event),
      ∃ l, (initgroups_filter_nat env user n i_n out buf errnop s tr).trace = tr ++ l ∧
        ∀ x ∈ l, x.is_erange = false := by
  intro n
  induction n with
  | zero => intro i_n out buf errnop s tr; exact ⟨[], by simp [initgroups_filter_nat], by simp⟩
  | succ n ih =>
    intro i_n out buf errnop s tr
    simp only [initgroups_filter_nat]
    split_ifs with h1 h2 h3
    · exact ih _ _ _ _ _ _
    · obtain ⟨l, hl, hq⟩ := ih (i_n + 1) (out + 1)
        { buf with groups := buf.groups.set out (buf.groups.getD i_n 0) } errnop
        (check_nonlocal_gid env user (buf.groups.getD i_n 0) errnop s).state
        (tr ++ (check_nonlocal_gid env user (buf.groups.getD i_n 0) errnop s).trace)
      refine ⟨(check_nonlocal_gid env user (buf.groups.getD i_n 0) errnop s).trace ++ l,
        by rw [hl, List.append_assoc], ?_⟩
      intro x hx
      rcases List.mem_append.mp hx with hx | hx
      · exact check_nonlocal_gid_quiet _ _ _ _ _ x hx
      · exact hq x hx
    · exact ⟨_, rfl, check_nonlocal_gid_quiet _ _ _ _ _⟩
    · obtain ⟨l, hl, hq⟩ := ih (i_n + 1) out buf errnop
        (check_nonlocal_gid env user (buf.groups.getD i_n 0) errnop s).state
        (tr ++ (check_nonlocal_gid env user (buf.groups.getD i_n 0) errnop s).trace)
      refine ⟨(check_nonlocal_gid env user (buf.groups.getD i_n 0) errnop s).trace ++ l,
        by rw [hl, List.append_assoc], ?_⟩
      intro x hx
      rcases List.mem_append.mp hx with hx | hx
      · exact check_nonlocal_gid_quiet _ _ _ _ _ x hx
      · exact hq x hx

theorem setent_walk_quiet (fct_name : String) (sel : service_user β → Option (SetentFn β))
    (stayopen : Int) :
    ∀ (chain : List (service_user β)) (fctp : Option (fct (SetentFn β))) (s : State β),
      ∀ x ∈ (setent_walk fct_name sel stayopen chain fctp s).trace, x.is_erange = false := by
  intro chain
  induction chain with
  | nil => intro fctp s; simp [setent_walk]
  | cons ni next ih =>
    intro fctp s
    rw [setent_walk]
    simp only
    have hr : ∀ x ∈ (call_setent fct_name stayopen (ni :: next) fctp s).trace,
        x.is_erange = false := by
      cases fctp <;> simp [call_setent, Event.is_erange]
    split_ifs with h
    · intro x hx
      rcases List.mem_append.mp hx with hx | hx
      · exact hr x hx
      · exact ih _ _ x hx
    · exact hr

theorem getent_retry_erange (fct_name : String) (guard : ρ → State β → Check β)
    (hg : ∀ r s, ∀ x ∈ (guard r s).trace, x.is_erange = false)
    (f : fct (GetentFn ρ β)) (buflen : Nat) :
    ∀ (fuel : Nat) (res : ρ) (errnop : Int) (s : State β) (o : Out ρ β),
      getent_retry fct_name guard f buflen fuel res errnop s = some o →
      erange_is_final o.status o.errnop o.trace := by
  intro fuel
  induction fuel with
  | zero => intro res errnop s o h; simp [getent_retry] at h
  | succ n ih =>
    intro res errnop s o h
    simp only [getent_retry] at h
    split_ifs at h with h1 h2
    · simp only [Option.map_eq_some'] at h
      obtain ⟨o1, ho1, rfl⟩ := h
      have := ih _ _ _ _ ho1
      refine erange_is_final_append _ _ _ _ ?_ this
      intro x hx
      rcases List.mem_cons.mp hx with hx | hx
      · subst hx; simp [h1, Event.is_erange]
      · exact hg _ _ x hx
    · simp only [Option.some.injEq] at h
      subst h
      refine erange_is_final_quiet _ _ _ ?_
      intro x hx
      rcases List.mem_cons.mp hx with hx | hx
      · subst hx; simp [h1, Event.is_erange]
      · exact hg _ _ x hx
    · simp only [Option.some.injEq] at h
      subst h
      exact erange_is_final_call _ _ _ _

theorem getent_walk_erange (fct_name : String) (sel : service_user β → Option (GetentFn ρ β))
    (guard : ρ → State β → Check β)
    (put : List (service_user β) → Option (fct (GetentFn ρ β)) → State β → State β)
    (hg : ∀ r s, ∀ x ∈ (guard r s).trace, x.is_erange = false)
    (buflen fuel : Nat) :
    ∀ (nip : List (service_user β)) (fctp : Option (fct (GetentFn ρ β))) (res : ρ)
      (errnop : Int) (s : State β) (o : Out ρ β),
      getent_walk fct_name sel guard put buflen fuel nip fctp res errnop s = some o →
      erange_is_final o.status o.errnop o.trace := by
  intro nip
  induction nip with
  | nil =>
    intro fctp res errnop s o h
    simp only [getent_walk, Option.some.injEq] at h
    subst h
    exact erange_is_final_nil _ _
  | cons ni next ih =>
    intro fctp res errnop s o h
    simp only [getent_walk] at h
    split at h
    · simp at h
    · rename_i r hr
      have hfin : erange_is_final r.status r.errnop r.trace := by
        cases fctp with
        | none => simp [call_getent] at hr; subst hr; exact erange_is_final_nil _ _
        | some f => exact getent_retry_erange fct_name guard hg f buflen fuel _ _ _ _ hr
      split_ifs at h with h1 h2 h3
      · simp only [Option.some.injEq] at h
        subst h
        exact hfin
      · simp only [Option.some.injEq] at h
        subst h
        exact hfin
      · simp only [Option.map_eq_some'] at h
        obtain ⟨o1, ho1, rfl⟩ := h
        exact erange_is_final_append _ _ _ _
          (erange_is_final_quiet_of_status _ _ _ hfin h1) (ih _ _ _ _ _ ho1)
      · simp only [Option.some.injEq] at h
        subst h
        exact erange_is_final_quiet _ _ _ (erange_is_final_quiet_of_status _ _ _ hfin h1)

theorem erange_without_check_quiet (tr : List Event) (h : ∀ x ∈ tr, x.is_erange = false) :
    erange_without_check tr := by
  rintro ⟨ev, hev, he⟩
  rw [h ev hev] at he
  exact absurd he (by simp)

/-- An operation that walks the chain and, only after a `SUCCESS` of the walk,
adds guard runs: a buffer-too-small answer is final and excludes guard runs. -/
theorem after_walk_erange (r o : Out ρ β)
    (hw1 : ∀ x ∈ r.trace, x.is_check = false)
    (hw2 : erange_is_final r.status r.errnop r.trace)
    (h1 : r.status ≠ SUCCESS → o = r)
    (h2 : r.status = SUCCESS → ∃ l, o.trace = r.trace ++ l ∧ ∀ x ∈ l, x.is_erange = false) :
    erange_is_final o.status o.errnop o.trace ∧ erange_without_check o.trace := by
  by_cases hs : r.status = SUCCESS
  · obtain ⟨l, hl, hq⟩ := h2 hs
    have hquiet : ∀ x ∈ o.trace, x.is_erange = false := by
      rw [hl]
      intro x hx
      rcases List.mem_append.mp hx with hx | hx
      · exact erange_is_final_quiet_of_status _ _ _ hw2 (by simp [hs]) x hx
      · exact hq x hx
    exact ⟨erange_is_final_quiet _ _ _ hquiet, erange_without_check_quiet _ hquiet⟩
  · rw [h1 hs]
    exact ⟨hw2, fun _ => hw1⟩

theorem setpwent_trace (env : Env β) (stayopen : Int) (s : State β) :
    (_nss_nonlocal_setpwent env stayopen s).trace =
      (setent_walk "setpwent" (fun ni => ni.setpwent) stayopen env.passwd_nonlocal
        (__nss_lookup_function (fun ni => ni.setpwent) env.passwd_nonlocal) s).trace := by
  unfold _nss_nonlocal_setpwent
  cases env.passwd_nonlocal with
  | nil => simp [setent_walk]
  | cons nip next =>
    simp only
    split_ifs <;> rfl

theorem setgrent_trace (env : Env β) (stayopen : Int) (s : State β) :
    (_nss_nonlocal_setgrent env stayopen s).trace =
      (setent_walk "setgrent" (fun ni => ni.setgrent) stayopen env.group_nonlocal
        (__nss_lookup_function (fun ni => ni.setgrent) env.group_nonlocal) s).trace := by
  unfold _nss_nonlocal_setgrent
  cases env.group_nonlocal with
  | nil => simp [setent_walk]
  | cons nip next =>
    simp only
    split_ifs <;> rfl

theorem erange_trivial (st : nss_status) (e : Int) :
    erange_is_final st e [] ∧ erange_without_check [] :=
  ⟨erange_is_final_nil _ _, erange_without_check_quiet _ (by simp)⟩

theorem getent_retry_mono (fct_name : String) (guard : ρ → State β → Check β)
    (f : fct (GetentFn ρ β)) (buflen : Nat) :
    ∀ (fuel : Nat) (res : ρ) (errnop : Int) (s : State β) (o : Out ρ β),
      getent_retry fct_name guard f buflen fuel res errnop s = some o →
      getent_retry fct_name guard f buflen (fuel + 1) res errnop s = some o := by
  intro fuel
  induction fuel with
  | zero => intro res errnop s o h; simp [getent_retry] at h
  | succ n ih =>
    intro res errnop s o h
    rw [getent_retry] at h ⊢
    simp only at h ⊢
    split_ifs at h ⊢ with h1 h2
    · simp only [Option.map_eq_some'] at h ⊢
      obtain ⟨o1, ho1, rfl⟩ := h
      exact ⟨o1, ih _ _ _ _ ho1, rfl⟩
    · exact h
    · exact h

theorem call_getent_mono (fct_name : String) (guard : ρ → State β → Check β)
    (buflen fuel : Nat) (fctp : Option (fct (GetentFn ρ β))) (res : ρ) (errnop : Int)
    (s : State β) (o : Out ρ β)
    (h : call_getent fct_name guard buflen fuel fctp res errnop s = some o) :
    call_getent fct_name guard buflen (fuel + 1) fctp res errnop s = some o := by
  cases fctp with
  | none => exact h
  | some f => exact getent_retry_mono fct_name guard f buflen fuel res errnop s o h

theorem getent_walk_mono (fct_name : String) (sel : service_user β → Option (GetentFn ρ β))
    (guard : ρ → State β → Check β)
    (put : List (service_user β) → Option (fct (GetentFn ρ β)) → State β → State β)
    (buflen fuel : Nat) :
    ∀ (nip : List (service_user β)) (fctp : Option (fct (GetentFn ρ β))) (res : ρ)
      (errnop : Int) (s : State β) (o : Out ρ β),
      getent_walk fct_name sel guard put buflen fuel nip fctp res errnop s = some o →
      getent_walk fct_name sel guard put buflen (fuel + 1) nip fctp res errnop s = some o := by
  intro nip
  induction nip with
  | nil => intro fctp res errnop s o h; simpa [getent_walk] using h
  | cons ni next ih =>
    intro fctp res errnop s o h
    rw [getent_walk] at h ⊢
    cases hr : call_getent fct_name guard buflen fuel fctp res errnop s with
    | none => rw [hr] at h; simp at h
    | some r =>
      rw [hr] at h
      rw [call_getent_mono fct_name guard buflen fuel fctp res errnop s r hr]
      simp only at h ⊢
      split_ifs at h ⊢ with h1 h2 h3
      · exact h
      · exact h
      · simp only [Option.map_eq_some'] at h ⊢
        obtain ⟨o1, ho1, rfl⟩ := h
        exact ⟨o1, ih _ _ _ _ _ ho1, rfl⟩
      · exact h

/-- A candidate that the guard does not accept, for whatever reason, is skipped:
get-next goes on as if called after it, on the same backend. -/
theorem getent_walk_skips (fct_name : String) (sel : service_user β → Option (GetentFn ρ β))
    (guard : ρ → State β → Check β)
    (put : List (service_user β) → Option (fct (GetentFn ρ β)) → State β → State β)
    (buflen fuel : Nat) (ni : service_user β) (next : List (service_user β))
    (f : fct (GetentFn ρ β)) (res : ρ) (errnop : Int) (s : State β) (o : Out ρ β)
    (h1 : (f.l res buflen errnop s.world).status = SUCCESS)
    (h2 : (guard (f.l res buflen errnop s.world).res
      { s with world := (f.l res buflen errnop s.world).world }).status ≠ SUCCESS)
    (h : getent_walk fct_name sel guard put buflen fuel (ni :: next) (some f)
      (f.l res buflen errnop s.world).res (f.l res buflen errnop s.world).errnop
      (guard (f.l res buflen errnop s.world).res
        { s with world := (f.l res buflen errnop s.world).world }).state = some o) :
    getent_walk fct_name sel guard put buflen (fuel + 1) (ni :: next) (some f) res errnop s =
      some { o with
        trace := (Event.call f.service fct_name SUCCESS
          (f.l res buflen errnop s.world).errnop ::
            (guard (f.l res buflen errnop s.world).res
              { s with world := (f.l res buflen errnop s.world).world }).trace ++ o.trace) } := by
  rw [getent_walk] at h ⊢
  simp only [call_getent] at h ⊢
  cases hr : getent_retry fct_name guard f buflen fuel (f.l res buflen errnop s.world).res
      (f.l res buflen errnop s.world).errnop
      (guard (f.l res buflen errnop s.world).res
        { s with world := (f.l res buflen errnop s.world).world }).state with
  | none => rw [hr] at h; simp at h
  | some r =>
    rw [hr] at h
    rw [getent_retry]
    simp only [h1, h2, if_true, ne_eq, not_false_eq_true, hr, Option.map_some']
    simp only at h
    split_ifs at h ⊢ with h3 h4 h5
    · simp only [Option.some.injEq] at h ⊢
      subst h
      rfl
    · simp only [Option.some.injEq] at h ⊢
      subst h
      rfl
    · simp only [Option.map_eq_some'] at h ⊢
      obtain ⟨o1, ho1, rfl⟩ := h
      refine ⟨o1, getent_walk_mono _ _ _ _ _ _ _ _ _ _ _ _ ho1, ?_⟩
      simp
    · simp only [Option.some.injEq] at h ⊢
      subst h
      rfl

/-- A backend answer `TRYAGAIN` with `ERANGE` ends get-next at once. -/
theorem getent_walk_erange_now (fct_name : String)
    (sel : service_user β → Option (GetentFn ρ β)) (guard : ρ → State β → Check β)
    (put : List (service_user β) → Option (fct (GetentFn ρ β)) → State β → State β)
    (buflen fuel : Nat) (ni : service_user β) (next : List (service_user β))
    (f : fct (GetentFn ρ β)) (res : ρ) (errnop : Int) (s : State β)
    (h1 : (f.l res buflen errnop s.world).status = TRYAGAIN)
    (h2 : (f.l res buflen errnop s.world).errnop = ERANGE) :
    getent_walk fct_name sel guard put buflen (fuel + 1) (ni :: next) (some f) res errnop s =
      some ⟨TRYAGAIN, (f.l res buflen errnop s.world).res, ERANGE,
        { s with world := (f.l res buflen errnop s.world).world },
        [Event.call f.service fct_name TRYAGAIN ERANGE]⟩ := by
  rw [getent_walk]
  simp only [call_getent, getent_retry, h1, h2]
  simp

/-- One round that does not end the call: get-next from before the round is
get-next from after it, with the events of the round in front. -/
theorem getent_walk_round (fct_name : String)
    (sel : service_user β → Option (GetentFn ρ β)) (guard : ρ → State β → Check β)
    (put : List (service_user β) → Option (fct (GetentFn ρ β)) → State β → State β)
    (buflen fuel : Nat) (p q : Progress ρ β) (o : Out ρ β)
    (hq : getent_round fct_name sel guard put buflen p = some q)
    (ho : getent_walk fct_name sel guard put buflen fuel q.nip q.fctp q.res q.errnop q.state
      = some o) :
    ∃ d, q.trace = p.trace ++ d ∧
      getent_walk fct_name sel guard put buflen (fuel + 1) p.nip p.fctp p.res p.errnop p.state
        = some { o with trace := d ++ o.trace } := by
  obtain ⟨nip, fctp, res, errnop, s, tr⟩ := p
  simp only [getent_round] at hq
  cases nip with
  | nil => simp at hq
  | cons ni next =>
    cases fctp with
    | none =>
      simp only at hq
      split_ifs at hq with h0
      simp only [Option.some.injEq] at hq
      subst hq
      refine ⟨[], by simp, ?_⟩
      simp only at ho ⊢
      rw [getent_walk]
      simp only [call_getent]
      have hne : ¬ ((UNAVAIL : nss_status) = TRYAGAIN ∧ errnop = ERANGE) := by simp
      simp only [hne, if_false, h0, if_true, List.nil_append]
      rw [getent_walk_mono _ _ _ _ _ _ _ _ _ _ _ _ ho]
      simp
    | some f =>
      simp only at hq
      split_ifs at hq with h1 h2 h3 h4
      · simp only [Option.some.injEq] at hq
        subst hq
        refine ⟨_, rfl, ?_⟩
        simp only at ho ⊢
        have := getent_walk_skips fct_name sel guard put buflen fuel ni next f res errnop s o
          h1 h2 ho
        rw [this, h1]
      · simp only [Option.some.injEq] at hq
        subst hq
        refine ⟨_, rfl, ?_⟩
        simp only at ho ⊢
        rw [getent_walk]
        simp only [call_getent, getent_retry, h1, if_false, h3, h4, if_true]
        rw [getent_walk_mono _ _ _ _ _ _ _ _ _ _ _ _ ho]
        simp

/-- Rounds that do not end the call: get-next from before them is get-next from
after them, with their events in front. -/
theorem getent_walk_rounds (fct_name : String)
    (sel : service_user β → Option (GetentFn ρ β)) (guard : ρ → State β → Check β)
    (put : List (service_user β) → Option (fct (GetentFn ρ β)) → State β → State β)
    (buflen fuel : Nat) (q : Progress ρ β) (o : Out ρ β)
    (ho : getent_walk fct_name sel guard put buflen fuel q.nip q.fctp q.res q.errnop q.state
      = some o) :
    ∀ (m : Nat) (p : Progress ρ β),
      getent_rounds fct_name sel guard put buflen m p = some q →
      ∃ d, q.trace = p.trace ++ d ∧
        getent_walk fct_name sel guard put buflen (fuel + m) p.nip p.fctp p.res p.errnop
          p.state = some { o with trace := d ++ o.trace } := by
  intro m
  induction m with
  | zero =>
    intro p h
    simp only [getent_rounds, Option.some.injEq] at h
    subst h
    exact ⟨[], by simp, by simpa using ho⟩
  | succ m ih =>
    intro p h
    simp only [getent_rounds] at h
    cases hr : getent_round fct_name sel guard put buflen p with
    | none => rw [hr] at h; simp at h
    | some p1 =>
      rw [hr] at h
      simp only at h
      obtain ⟨d1, hd1, hw1⟩ := ih p1 h
      obtain ⟨d0, hd0, hw0⟩ := getent_walk_round fct_name sel guard put buflen (fuel + m) p p1
        _ hr hw1
      refine ⟨d0 ++ d1, by rw [hd1, hd0, List.append_assoc], ?_⟩
      rw [← Nat.add_assoc, hw0]
      simp

/-- The guard runs of rounds that do not end the call are runs that did not
accept the candidate. -/
theorem getent_rounds_rejections (fct_name : String)
    (sel : service_user β → Option (GetentFn ρ β)) (guard : ρ → State β → Check β)
    (put : List (service_user β) → Option (fct (GetentFn ρ β)) → State β → State β)
    (hg : ∀ r s, ∀ x ∈ (guard r s).trace, x.check_status = some (guard r s).status)
    (buflen : Nat) :
    ∀ (m : Nat) (p q : Progress ρ β),
      getent_rounds fct_name sel guard put buflen m p = some q →
      (∀ x ∈ p.trace, x.check_status ≠ some SUCCESS) →
      ∀ x ∈ q.trace, x.check_status ≠ some SUCCESS := by
  intro m
  induction m with
  | zero =>
    intro p q h hp
    simp only [getent_rounds, Option.some.injEq] at h
    subst h
    exact hp
  | succ m ih =>
    intro p q h hp
    simp only [getent_rounds] at h
    cases hr : getent_round fct_name sel guard put buflen p with
    | none => rw [hr] at h; simp at h
    | some p1 =>
      rw [hr] at h
      simp only at h
      refine ih p1 q h ?_
      obtain ⟨nip, fctp, res, errnop, s, tr⟩ := p
      simp only [getent_round] at hr
      simp only at hp
      cases nip with
      | nil => simp at hr
      | cons ni next =>
        cases fctp with
        | none =>
          simp only at hr
          split_ifs at hr
          simp only [Option.some.injEq] at hr
          subst hr
          exact hp
        | some f =>
          simp only at hr
          split_ifs at hr with h1 h2 h3 h4
          · simp only [Option.some.injEq] at hr
            subst hr
            intro x hx
            simp only [List.mem_append, List.mem_cons] at hx
            rcases hx with hx | hx | hx
            · exact hp x hx
            · subst hx; simp [Event.check_status]
            · rw [hg _ _ x hx]
              simpa using h2
          · simp only [Option.some.injEq] at hr
            subst hr
            intro x hx
            simp only [List.mem_append, List.mem_singleton] at hx
            rcases hx with hx | hx
            · exact hp x hx
            · subst hx; simp [Event.check_status]

theorem setent_walk_no_check_status (fct_name : String)
    (sel : service_user β → Option (SetentFn β)) (stayopen : Int) :
    ∀ (chain : List (service_user β)) (fctp : Option (fct (SetentFn β))) (s : State β),
      ∀ x ∈ (setent_walk fct_name sel stayopen chain fctp s).trace,
        x.check_status ≠ some SUCCESS := by
  intro chain
  induction chain with
  | nil => intro fctp s; simp [setent_walk]
  | cons ni next ih =>
    intro fctp s
    rw [setent_walk]
    simp only
    have hr : ∀ x ∈ (call_setent fct_name stayopen (ni :: next) fctp s).trace,
        x.check_status ≠ some SUCCESS := by
      cases fctp <;> simp [call_setent, Event.check_status]
    split_ifs with h
    · intro x hx
      rcases List.mem_append.mp hx with hx | hx
      · exact hr x hx
      · exact ih _ _ x hx
    · exact hr

/-- Total form of the buffer-too-small rule for the get-next loops: when, after
`m` rounds that did not end the call, the backend under the cursor answers
`TRYAGAIN` with `ERANGE`, get-next returns that, and that answer is its last
event. -/
theorem getent_walk_erange_returns (fct_name : String)
    (sel : service_user β → Option (GetentFn ρ β)) (guard : ρ → State β → Check β)
    (put : List (service_user β) → Option (fct (GetentFn ρ β)) → State β → State β)
    (buflen m : Nat) (p q : Progress ρ β) (ni : service_user β)
    (next : List (service_user β)) (f : fct (GetentFn ρ β))
    (hq : getent_rounds fct_name sel guard put buflen m p = some q)
    (hnip : q.nip = ni :: next) (hf : q.fctp = some f)
    (h1 : (f.l q.res buflen q.errnop q.state.world).status = TRYAGAIN)
    (h2 : (f.l q.res buflen q.errnop q.state.world).errnop = ERANGE) :
    ∃ d, q.trace = p.trace ++ d ∧
      getent_walk fct_name sel guard put buflen (m + 1) p.nip p.fctp p.res p.errnop p.state =
        some ⟨TRYAGAIN, (f.l q.res buflen q.errnop q.state.world).res, ERANGE,
          { q.state with world := (f.l q.res buflen q.errnop q.state.world).world },
          d ++ [Event.call f.service fct_name TRYAGAIN ERANGE]⟩ := by
  have hnow := getent_walk_erange_now fct_name sel guard put buflen 0 ni next f q.res
    q.errnop q.state h1 h2
  rw [← hnip, ← hf] at hnow
  obtain ⟨d, hd, hw⟩ := getent_walk_rounds fct_name sel guard put buflen (0 + 1) q _ hnow m p hq
  refine ⟨d, hd, ?_⟩
  rw [Nat.add_comm m 1, ← Nat.zero_add 1, hw]

/-- C4 (amended): a backend answer `TRYAGAIN` with `ERANGE` is returned at once.
In every operation and every call that returns, such an answer is the last event
of the call and the call returns `TRYAGAIN` with `ERANGE`: no backend is called
and no guard is run after it.  In the lookups by name and by id and in the group
expansion no guard runs at all in such a call.  The call does return: the
lookups always do; the group expansion returns the result of the chain walk
when that holds such an answer; and get-next, when after `m` rounds that did
not end the call the backend under the cursor gives that answer, returns it
with `m + 1` rounds of fuel.  In get-next the guard may have run before, on
candidates handed out earlier in the call: every such run returned a status
other than `SUCCESS`, the candidate was not accepted. -/
theorem C4_erange_returns_at_once (env : Env β) :
    (∀ name pwd buflen errnop s,
      erange_is_final (_nss_nonlocal_getpwnam_r env name pwd buflen errnop s).status
        (_nss_nonlocal_getpwnam_r env name pwd buflen errnop s).errnop
        (_nss_nonlocal_getpwnam_r env name pwd buflen errnop s).trace ∧
      erange_without_check (_nss_nonlocal_getpwnam_r env name pwd buflen errnop s).trace) ∧
    (∀ uid pwd buflen errnop s,
      erange_is_final (_nss_nonlocal_getpwuid_r env uid pwd buflen errnop s).status
        (_nss_nonlocal_getpwuid_r env uid pwd buflen errnop s).errnop
        (_nss_nonlocal_getpwuid_r env uid pwd buflen errnop s).trace ∧
      erange_without_check (_nss_nonlocal_getpwuid_r env uid pwd buflen errnop s).trace) ∧
    (∀ name grp buflen errnop s,
      erange_is_final (_nss_nonlocal_getgrnam_r env name grp buflen errnop s).status
        (_nss_nonlocal_getgrnam_r env name grp buflen errnop s).errnop
        (_nss_nonlocal_getgrnam_r env name grp buflen errnop s).trace ∧
      erange_without_check (_nss_nonlocal_getgrnam_r env name grp buflen errnop s).trace) ∧
    (∀ gid grp buflen errnop s,
      erange_is_final (_nss_nonlocal_getgrgid_r env gid grp buflen errnop s).status
        (_nss_nonlocal_getgrgid_r env gid grp buflen errnop s).errnop
        (_nss_nonlocal_getgrgid_r env gid grp buflen errnop s).trace ∧
      erange_without_check (_nss_nonlocal_getgrgid_r env gid grp buflen errnop s).trace) ∧
    (∀ user grp buf limit errnop s o,
      _nss_nonlocal_initgroups_dyn env user grp buf limit errnop s = some o →
      erange_is_final o.status o.errnop o.trace ∧ erange_without_check o.trace) ∧
    (∀ fuel pwd buflen errnop s o,
      _nss_nonlocal_getpwent_r env fuel pwd buflen errnop s = some o →
      erange_is_final o.status o.errnop o.trace) ∧
    (∀ fuel grp buflen errnop s o,
      _nss_nonlocal_getgrent_r env fuel grp buflen errnop s = some o →
      erange_is_final o.status o.errnop o.trace) ∧
    (∀ user grp buf limit errnop s,
      let r := nss_walk "initgroups_dyn" (fun ni => ni.initgroups_dyn)
        (fun f res e w => f user grp res limit e w) env.group_nonlocal
        (__nss_lookup_function (fun ni => ni.initgroups_dyn) env.group_nonlocal) buf errnop s
      (∃ ev ∈ r.trace, ev.is_erange = true) →
      _nss_nonlocal_initgroups_dyn env user grp buf limit errnop s = some r ∧
        r.status = TRYAGAIN ∧ r.errnop = ERANGE) ∧
    (∀ m pwd buflen errnop s p q ni next f,
      getpwent_entry env pwd errnop s = some p →
      getent_rounds "getpwent_r" (fun ni => ni.getpwent_r)
        (fun r t => check_nonlocal_uid env r.pw_name r.pw_uid 0 t)
        (fun nip f t => { t with pwent_nip := nip, pwent_fct := f }) buflen m p = some q →
      q.nip = ni :: next → q.fctp = some f →
      let c := f.l q.res buflen q.errnop q.state.world
      c.status = TRYAGAIN → c.errnop = ERANGE →
      _nss_nonlocal_getpwent_r env (m + 1) pwd buflen errnop s =
        some ⟨TRYAGAIN, c.res, ERANGE, { q.state with world := c.world },
          q.trace ++ [Event.call f.service "getpwent_r" TRYAGAIN ERANGE]⟩ ∧
      ∀ x ∈ q.trace, x.check_status ≠ some SUCCESS) ∧
    (∀ m grp buflen errnop s p q ni next f,
      getgrent_entry env grp errnop s = some p →
      getent_rounds "getgrent_r" (fun ni => ni.getgrent_r)
        (fun r t => check_nonlocal_gid env "(unknown)" r.gr_gid 0 t)
        (fun nip f t => { t with grent_nip := nip, grent_fct := f }) buflen m p = some q →
      q.nip = ni :: next → q.fctp = some f →
      let c := f.l q.res buflen q.errnop q.state.world
      c.status = TRYAGAIN → c.errnop = ERANGE →
      _nss_nonlocal_getgrent_r env (m + 1) grp buflen errnop s =
        some ⟨TRYAGAIN, c.res, ERANGE, { q.state with world := c.world },
          q.trace ++ [Event.call f.service "getgrent_r" TRYAGAIN ERANGE]⟩ ∧
      ∀ x ∈ q.trace, x.check_status ≠ some SUCCESS) := by
  refine ⟨?_, ?_, ?_, ?_, ?_, ?_, ?_, ?_, ?_, ?_⟩
  · intro name pwd buflen errnop s
    by_cases hne : env.passwd_nonlocal = []
    · simp only [_nss_nonlocal_getpwnam_r, hne]
      exact erange_trivial _ _
    · obtain ⟨hw1, hw2⟩ := nss_walk_erange "getpwnam_r" (fun ni => ni.getpwnam_r)
        (fun f res e w => f name res buflen e w) env.passwd_nonlocal
        (__nss_lookup_function (fun ni => ni.getpwnam_r) env.passwd_nonlocal) pwd errnop s
      refine after_walk_erange _ _ hw1 hw2 ?_ ?_
      · intro h
        rw [getpwnam_r_walk env name pwd buflen errnop s hne]
        simp only [h, ne_eq, not_false_eq_true, if_true]
      · intro h
        rw [getpwnam_r_walk env name pwd buflen errnop s hne]
        simp only [h, ne_eq, not_true_eq_false, if_false]
        split_ifs <;>
          first
          | exact ⟨_, rfl, check_nonlocal_uid_quiet _ _ _ _ _⟩
          | exact ⟨_, List.append_assoc _ _ _, fun x hx =>
              (List.mem_append.mp hx).elim (check_nonlocal_uid_quiet _ _ _ _ _ x)
                (check_nonlocal_gid_quiet _ _ _ _ _ x)⟩
  · intro uid pwd buflen errnop s
    by_cases h0 : s.local_only = 1
    · simp only [_nss_nonlocal_getpwuid_r, h0, if_true]
      exact erange_trivial _ _
    by_cases hne : env.passwd_nonlocal = []
    · simp only [_nss_nonlocal_getpwuid_r, hne, h0, if_false]
      exact erange_trivial _ _
    · obtain ⟨hw1, hw2⟩ := nss_walk_erange "getpwuid_r" (fun ni => ni.getpwuid_r)
        (fun f res e w => f uid res buflen e w) env.passwd_nonlocal
        (__nss_lookup_function (fun ni => ni.getpwuid_r) env.passwd_nonlocal) pwd errnop s
      refine after_walk_erange _ _ hw1 hw2 ?_ ?_
      · intro h
        rw [getpwuid_r_walk env uid pwd buflen errnop s hne h0]
        simp only [h, ne_eq, not_false_eq_true, if_true]
      · intro h
        rw [getpwuid_r_walk env uid pwd buflen errnop s hne h0]
        simp only [h, ne_eq, not_true_eq_false, if_false]
        split_ifs <;>
          first
          | exact ⟨_, rfl, check_nonlocal_uid_quiet _ _ _ _ _⟩
          | exact ⟨_, List.append_assoc _ _ _, fun x hx =>
              (List.mem_append.mp hx).elim (check_nonlocal_uid_quiet _ _ _ _ _ x)
                (check_nonlocal_gid_quiet _ _ _ _ _ x)⟩
  · intro name grp buflen errnop s
    by_cases hne : env.group_nonlocal = []
    · simp only [_nss_nonlocal_getgrnam_r, hne]
      exact erange_trivial _ _
    · obtain ⟨hw1, hw2⟩ := nss_walk_erange "getgrnam_r" (fun ni => ni.getgrnam_r)
        (fun f res e w => f name res buflen e w) env.group_nonlocal
        (__nss_lookup_function (fun ni => ni.getgrnam_r) env.group_nonlocal) grp errnop s
      refine after_walk_erange _ _ hw1 hw2 ?_ ?_
      · intro h
        rw [getgrnam_r_walk env name grp buflen errnop s hne]
        simp only [h, ne_eq, not_false_eq_true, if_true]
      · intro h
        rw [getgrnam_r_walk env name grp buflen errnop s hne]
        simp only [h, ne_eq, not_true_eq_false, if_false]
        exact ⟨_, rfl, check_nonlocal_gid_quiet _ _ _ _ _⟩
  · intro gid grp buflen errnop s
    by_cases h0 : (buflen : Int) = MAGIC_LOCAL_GR_BUFLEN env
    · simp only [_nss_nonlocal_getgrgid_r, h0, if_true]
      exact erange_trivial _ _
    by_cases hne : env.group_nonlocal = []
    · simp only [_nss_nonlocal_getgrgid_r, hne, h0, if_false]
      exact erange_trivial _ _
    · obtain ⟨hw1, hw2⟩ := nss_walk_erange "getgrgid_r" (fun ni => ni.getgrgid_r)
        (fun f res e w => f gid res buflen e w) env.group_nonlocal
        (__nss_lookup_function (fun ni => ni.getgrgid_r) env.group_nonlocal) grp errnop s
      refine after_walk_erange _ _ hw1 hw2 ?_ ?_
      · intro h
        rw [getgrgid_r_walk env gid grp buflen errnop s hne h0]
        simp only [h, ne_eq, not_false_eq_true, if_true]
      · intro h
        rw [getgrgid_r_walk env gid grp buflen errnop s hne h0]
        simp only [h, ne_eq, not_true_eq_false, if_false]
        exact ⟨_, rfl, check_nonlocal_gid_quiet _ _ _ _ _⟩
  · intro user grp buf limit errnop s o ho
    obtain ⟨hw1, hw2⟩ := nss_walk_erange "initgroups_dyn" (fun ni => ni.initgroups_dyn)
      (fun f res e w => f user grp res limit e w) env.group_nonlocal
      (__nss_lookup_function (fun ni => ni.initgroups_dyn) env.group_nonlocal) buf errnop s
    refine after_walk_erange _ _ hw1 hw2 ?_ ?_
    · intro h
      rcases initgroups_dyn_some env user grp buf limit errnop s o ho with h1 | h1
      · exact h1.2
      · exact absurd h1.1 h
    · intro h
      rcases initgroups_dyn_some env user grp buf limit errnop s o ho with h1 | h1
      · exact absurd h h1.1
      · obtain ⟨_, _, n, hn⟩ := h1
        rw [hn]
        exact initgroups_filter_nat_trace env user _ _ _ _ _ _ _
  · intro fuel pwd buflen errnop s o h
    have key := getent_walk_erange "getpwent_r" (fun ni => ni.getpwent_r)
      (fun p t => check_nonlocal_uid env p.pw_name p.pw_uid 0 t)
      (fun nip f t => { t with pwent_nip := nip, pwent_fct := f })
      (fun r t => check_nonlocal_uid_quiet env _ _ _ t) buflen fuel
    unfold _nss_nonlocal_getpwent_r at h
    simp only at h
    have hset : ∀ x ∈ (_nss_nonlocal_setpwent env 0 s).trace, x.is_erange = false := by
      rw [setpwent_trace]
      exact setent_walk_quiet _ _ _ _ _ _
    split at h
    · split_ifs at h with h1
      · simp only [Option.some.injEq] at h
        subst h
        exact erange_is_final_quiet _ _ _ hset
      · simp only [Option.map_eq_some'] at h
        obtain ⟨o1, ho1, rfl⟩ := h
        exact erange_is_final_append _ _ _ _ hset (key _ _ _ _ _ _ ho1)
    · exact key _ _ _ _ _ _ h
  · intro fuel grp buflen errnop s o h
    have key := getent_walk_erange "getgrent_r" (fun ni => ni.getgrent_r)
      (fun g t => check_nonlocal_gid env "(unknown)" g.gr_gid 0 t)
      (fun nip f t => { t with grent_nip := nip, grent_fct := f })
      (fun r t => check_nonlocal_gid_quiet env _ _ _ t) buflen fuel
    unfold _nss_nonlocal_getgrent_r at h
    simp only at h
    have hset : ∀ x ∈ (_nss_nonlocal_setgrent env 0 s).trace, x.is_erange = false := by
      rw [setgrent_trace]
      exact setent_walk_quiet _ _ _ _ _ _
    split at h
    · split_ifs at h with h1
      · simp only [Option.some.injEq] at h
        subst h
        exact erange_is_final_quiet _ _ _ hset
      · simp only [Option.map_eq_some'] at h
        obtain ⟨o1, ho1, rfl⟩ := h
        exact erange_is_final_append _ _ _ _ hset (key _ _ _ _ _ _ ho1)
    · exact key _ _ _ _ _ _ h
  · intro user grp buf limit errnop s
    dsimp only
    rintro ⟨ev, hev, he⟩
    obtain ⟨_, hw2⟩ := nss_walk_erange "initgroups_dyn" (fun ni => ni.initgroups_dyn)
      (fun f res e w => f user grp res limit e w) env.group_nonlocal
      (__nss_lookup_function (fun ni => ni.initgroups_dyn) env.group_nonlocal) buf errnop s
    obtain ⟨pre, post, hsplit⟩ := List.append_of_mem hev
    obtain ⟨_, hst, herr⟩ := hw2 pre ev post hsplit he
    refine ⟨?_, hst, herr⟩
    rw [initgroups_dyn_walk]
    simp [hst]
  · intro m pwd buflen errnop s p q ni next f hp hq hnip hf
    dsimp only
    intro h1 h2
    obtain ⟨d, hd, hw⟩ := getent_walk_erange_returns "getpwent_r" (fun ni => ni.getpwent_r)
      (fun r t => check_nonlocal_uid env r.pw_name r.pw_uid 0 t)
      (fun nip f t => { t with pwent_nip := nip, pwent_fct := f }) buflen m p q ni next f
      hq hnip hf h1 h2
    have hrej := getent_rounds_rejections "getpwent_r" (fun ni => ni.getpwent_r)
      (fun r t => check_nonlocal_uid env r.pw_name r.pw_uid 0 t)
      (fun nip f t => { t with pwent_nip := nip, pwent_fct := f })
      (fun r t x hx => by
        rw [check_nonlocal_uid_trace] at hx
        simp only [List.mem_singleton] at hx
        subst hx
        rfl) buflen m p q hq
    unfold getpwent_entry at hp
    unfold _nss_nonlocal_getpwent_r
    simp only at hp ⊢
    split at hp
    · rename_i hnil
      split_ifs at hp with h0
      simp only [Option.some.injEq] at hp
      subst hp
      simp only at hw hd hrej
      simp only [hnil, h0, if_false, hw, Option.map_some', hd, List.append_assoc]
      refine ⟨trivial, ?_⟩
      rw [← hd]
      refine hrej ?_
      rw [setpwent_trace]
      exact setent_walk_no_check_status _ _ _ _ _ _
    · rename_i n1 n2 hcons
      simp only [Option.some.injEq] at hp
      subst hp
      simp only at hw hd hrej
      rw [hcons] at hw
      simp only [hcons, hd, List.nil_append]
      refine ⟨hw, ?_⟩
      rw [← List.nil_append d, ← hd]
      exact hrej (by simp)
  · intro m grp buflen errnop s p q ni next f hp hq hnip hf
    dsimp only
    intro h1 h2
    obtain ⟨d, hd, hw⟩ := getent_walk_erange_returns "getgrent_r" (fun ni => ni.getgrent_r)
      (fun r t => check_nonlocal_gid env "(unknown)" r.gr_gid 0 t)
      (fun nip f t => { t with grent_nip := nip, grent_fct := f }) buflen m p q ni next f
      hq hnip hf h1 h2
    have hrej := getent_rounds_rejections "getgrent_r" (fun ni => ni.getgrent_r)
      (fun r t => check_nonlocal_gid env "(unknown)" r.gr_gid 0 t)
      (fun nip f t => { t with grent_nip := nip, grent_fct := f })
      (fun r t x hx => by
        rw [check_nonlocal_gid_trace] at hx
        simp only [List.mem_singleton] at hx
        subst hx
        rfl) buflen m p q hq
    unfold getgrent_entry at hp
    unfold _nss_nonlocal_getgrent_r
    simp only at hp ⊢
    split at hp
    · rename_i hnil
      split_ifs at hp with h0
      simp only [Option.some.injEq] at hp
      subst hp
      simp only at hw hd hrej
      simp only [hnil, h0, if_false, hw, Option.map_some', hd, List.append_assoc]
      refine ⟨trivial, ?_⟩
      rw [← hd]
      refine hrej ?_
      rw [setgrent_trace]
      exact setent_walk_no_check_status _ _ _ _ _ _
    · rename_i n1 n2 hcons
      simp only [Option.some.injEq] at hp
      subst hp
      simp only at hw hd hrej
      rw [hcons] at hw
      simp only [hcons, hd, List.nil_append]
      refine ⟨hw, ?_⟩
      rw [← List.nil_append d, ← hd]
      exact hrej (by simp)

/-- An instance: a user enumeration over two backends.  The first hands out uid
0, which the guard rejects, and then answers `NOTFOUND`; the second answers
`TRYAGAIN` with `ERANGE`.  After these two rounds the call returns that answer,
its last event; the guard ran before, on the candidate of the first backend. -/
theorem C4_erange_returns_at_once_witness :
    (_nss_nonlocal_getpwent_r
      (demo_local [demo_stream [0] .NOTFOUND 2, demo_stream [] .TRYAGAIN ERANGE] []) 3
      (demo_pw "" 0 0) 64 0 demo_state).map (fun o => (o.status, o.errnop, o.trace)) =
    some (TRYAGAIN, ERANGE,
      [Event.setent "stream" "setpwent" SUCCESS,
       Event.call "stream" "getpwent_r" SUCCESS 0,
       Event.check_uid 0 NOTFOUND,
       Event.call "stream" "getpwent_r" NOTFOUND 2,
       Event.call "stream" "getpwent_r" TRYAGAIN ERANGE]) := by
  have h := (C4_erange_returns_at_once
    (demo_local [demo_stream [0] .NOTFOUND 2, demo_stream [] .TRYAGAIN ERANGE] [])).2.2.2.2.2.2.2.2.1
    2 (demo_pw "" 0 0) 64 0 demo_state _ _ _ _ _ rfl rfl rfl rfl (by decide) (by decide)
  rw [h.1]
  decide

/-- C4 as stated fails for get-next: the backend first hands out a user
with uid 0, the guard runs on it and rejects it, the backend is asked again and
answers `TRYAGAIN` with `ERANGE`; the call returns that, and the guard did run. -/
theorem C4_counterexample :
    (_nss_nonlocal_getpwent_r (demo_local [demo_stream [0] .TRYAGAIN ERANGE, demo_late] []) 2 (demo_pw "" 0 0) 64 0
        demo_state).map (fun o => (o.status, o.errnop, o.trace)) =
      some (TRYAGAIN, ERANGE,
        [Event.setent "stream" "setpwent" SUCCESS,
         Event.call "stream" "getpwent_r" SUCCESS 0,
         Event.check_uid 0 NOTFOUND,
         Event.call "stream" "getpwent_r" TRYAGAIN ERANGE]) := by
  decide

/-- C5: with the scratch buffer allocated, `check_nonlocal_uid` returns
`NOTFOUND` exactly when the authoritative lookup `local_getpwuid_r` found an
entry (`SUCCESS`, i.e. libc delivered a result), `SUCCESS` exactly when that
lookup reported the uid absent (`NOTFOUND` or `UNAVAIL`, i.e. libc returned 0
and no result), and otherwise the lookup's error status `TRYAGAIN`;
`check_nonlocal_gid` returns `NOTFOUND` exactly when `getgrgid_r` returned 0
with a result, `SUCCESS` exactly when it returned 0 without one, and `TRYAGAIN`
exactly when it returned an error; when the allocation fails both return
`TRYAGAIN` with `ENOMEM`. -/
theorem C5_guard_verdict (env : Env β) :
    (∀ user uid e s, (env.malloc env.sysconf_GETPW_R_SIZE_MAX s.world).1 = true →
      let m := env.malloc env.sysconf_GETPW_R_SIZE_MAX s.world
      let r := env.getpwuid_r 1 uid env.sysconf_GETPW_R_SIZE_MAX { m.2 with errno := 0 }
      let l := local_getpwuid_r env uid env.sysconf_GETPW_R_SIZE_MAX 0 { s with world := m.2 }
      let c := check_nonlocal_uid env user uid e s
      (l.status = SUCCESS ↔ r.result.isSome = true) ∧
      (l.status = NOTFOUND ∨ l.status = UNAVAIL ↔ r.result = none ∧ r.ret = 0) ∧
      (c.status = NOTFOUND ↔ l.status = SUCCESS) ∧
      (c.status = SUCCESS ↔ l.status = NOTFOUND ∨ l.status = UNAVAIL) ∧
      (c.status ≠ NOTFOUND → c.status ≠ SUCCESS →
        c.status = TRYAGAIN ∧ c.status = l.status ∧ c.errnop = l.errnop)) ∧
    (∀ user gid e s, (env.malloc (MAGIC_LOCAL_GR_BUFLEN env) s.world).1 = true →
      let m := env.malloc (MAGIC_LOCAL_GR_BUFLEN env) s.world
      let r := env.getgrgid_r gid (MAGIC_LOCAL_GR_BUFLEN env) { m.2 with errno := 0 }
      let c := check_nonlocal_gid env user gid e s
      (c.status = NOTFOUND ↔ r.ret = 0 ∧ r.result.isSome = true) ∧
      (c.status = SUCCESS ↔ r.ret = 0 ∧ r.result = none) ∧
      (c.status = TRYAGAIN ↔ r.ret ≠ 0) ∧
      (c.status ≠ NOTFOUND → c.status ≠ SUCCESS → c.status = TRYAGAIN)) ∧
    (∀ user uid e s, (env.malloc env.sysconf_GETPW_R_SIZE_MAX s.world).1 = false →
      (check_nonlocal_uid env user uid e s).status = TRYAGAIN ∧
      (check_nonlocal_uid env user uid e s).errnop = ENOMEM) ∧
    (∀ user gid e s, (env.malloc (MAGIC_LOCAL_GR_BUFLEN env) s.world).1 = false →
      (check_nonlocal_gid env user gid e s).status = TRYAGAIN ∧
      (check_nonlocal_gid env user gid e s).errnop = ENOMEM) := by
  refine ⟨?_, ?_, ?_, ?_⟩
  · intro user uid e s hm
    simp only [check_nonlocal_uid, local_getpwuid_r, hm]
    cases hres : (env.getpwuid_r 1 uid env.sysconf_GETPW_R_SIZE_MAX
        { errno := 0, ext := (env.malloc env.sysconf_GETPW_R_SIZE_MAX s.world).2.ext }).result
      with
    | some p => simp
    | none =>
      by_cases hret : (env.getpwuid_r 1 uid env.sysconf_GETPW_R_SIZE_MAX
        { errno := 0, ext := (env.malloc env.sysconf_GETPW_R_SIZE_MAX s.world).2.ext }).ret = 0
      · simp [hret]
      · simp [hret]
  · intro user gid e s hm
    simp only [check_nonlocal_gid, hm]
    by_cases hret : (env.getgrgid_r gid (MAGIC_LOCAL_GR_BUFLEN env)
        { errno := 0, ext := (env.malloc (MAGIC_LOCAL_GR_BUFLEN env) s.world).2.ext }).ret = 0
    · cases hres : (env.getgrgid_r gid (MAGIC_LOCAL_GR_BUFLEN env)
        { errno := 0, ext := (env.malloc (MAGIC_LOCAL_GR_BUFLEN env) s.world).2.ext }).result
        <;> simp [hret]
    · simp [hret]
  · intro user uid e s hm
    simp [check_nonlocal_uid, hm]
  · intro user gid e s hm
    simp [check_nonlocal_gid, hm]

/-- An instance: the uid guard on uid 0 (a local user), on uid 1000 (no local
user) and on uid 7 (the authoritative lookup fails). -/
theorem C5_guard_verdict_witness :
    (check_nonlocal_uid (demo_local [] []) "toor" 0 0 demo_state).status = NOTFOUND ∧
    (check_nonlocal_uid (demo_local [] []) "joe" 1000 0 demo_state).status = SUCCESS ∧
    (check_nonlocal_uid (demo_local [] []) "odd" 7 0 demo_state).status = TRYAGAIN :=
  ⟨((C5_guard_verdict (demo_local [] [])).1 "toor" 0 0 demo_state rfl).2.2.1.mpr
      (by decide),
   ((C5_guard_verdict (demo_local [] [])).1 "joe" 1000 0 demo_state rfl).2.2.2.1.mpr
      (by decide),
   (((C5_guard_verdict (demo_local [] [])).1 "odd" 7 0 demo_state rfl).2.2.2.2
      (by decide) (by decide)).1⟩

/-- C7: in a user lookup by name or by uid in which the chain produces a record
whose uid passes `check_nonlocal_uid`: if `check_nonlocal_gid` returns
`NOTFOUND` for the primary gid, the lookup returns `SUCCESS` with that record,
gid replaced by 65534 and nothing else changed; if it returns `SUCCESS`, the
lookup returns `SUCCESS` with the record as the chain produced it. -/
theorem C7_colliding_gid_rewritten (env : Env β) :
    (∀ name pwd buflen errnop s,
      let r := nss_walk "getpwnam_r" (fun ni => ni.getpwnam_r)
        (fun f res e w => f name res buflen e w) env.passwd_nonlocal
        (__nss_lookup_function (fun ni => ni.getpwnam_r) env.passwd_nonlocal) pwd errnop s
      let c := check_nonlocal_uid env name r.res.pw_uid r.errnop r.state
      let g := check_nonlocal_gid env name r.res.pw_gid 0 c.state
      let o := _nss_nonlocal_getpwnam_r env name pwd buflen errnop s
      r.status = SUCCESS → c.status = SUCCESS →
      (g.status = NOTFOUND → o.status = SUCCESS ∧ o.res = { r.res with pw_gid := 65534 }) ∧
      (g.status = SUCCESS → o.status = SUCCESS ∧ o.res = r.res)) ∧
    (∀ uid pwd buflen errnop s, s.local_only ≠ 1 →
      let r := nss_walk "getpwuid_r" (fun ni => ni.getpwuid_r)
        (fun f res e w => f uid res buflen e w) env.passwd_nonlocal
        (__nss_lookup_function (fun ni => ni.getpwuid_r) env.passwd_nonlocal) pwd errnop s
      let c := check_nonlocal_uid env r.res.pw_name r.res.pw_uid r.errnop r.state
      let g := check_nonlocal_gid env r.res.pw_name r.res.pw_gid 0 c.state
      let o := _nss_nonlocal_getpwuid_r env uid pwd buflen errnop s
      r.status = SUCCESS → c.status = SUCCESS →
      (g.status = NOTFOUND → o.status = SUCCESS ∧ o.res = { r.res with pw_gid := 65534 }) ∧
      (g.status = SUCCESS → o.status = SUCCESS ∧ o.res = r.res)) := by
  refine ⟨?_, ?_⟩
  · intro name pwd buflen errnop s
    dsimp only
    intro hr hc
    have hne : env.passwd_nonlocal ≠ [] := by
      intro h
      rw [h] at hr
      simp [nss_walk] at hr
    rw [getpwnam_r_walk env name pwd buflen errnop s hne]
    constructor
    · intro hg
      simp [hr, hc, hg]
    · intro hg
      simp [hr, hc, hg]
  · intro uid pwd buflen errnop s h0
    dsimp only
    intro hr hc
    have hne : env.passwd_nonlocal ≠ [] := by
      intro h
      rw [h] at hr
      simp [nss_walk] at hr
    rw [getpwuid_r_walk env uid pwd buflen errnop s hne h0]
    constructor
    · intro hg
      simp [hr, hc, hg]
    · intro hg
      simp [hr, hc, hg]

/-- An instance: the backend hands out user joe with primary gid 20, the gid of
the local group staff; the lookup returns joe with gid 65534. -/
theorem C7_colliding_gid_rewritten_witness :
    (_nss_nonlocal_getpwnam_r (demo_local [demo_empty, demo_dir_gid 20] []) "joe"
      (demo_pw "" 0 0) 64 0 demo_state).status = SUCCESS ∧
    (_nss_nonlocal_getpwnam_r (demo_local [demo_empty, demo_dir_gid 20] []) "joe"
      (demo_pw "" 0 0) 64 0 demo_state).res = demo_pw "joe" 1000 65534 :=
  ((C7_colliding_gid_rewritten (demo_local [demo_empty, demo_dir_gid 20] [])).1 "joe"
    (demo_pw "" 0 0) 64 0 demo_state (by decide) (by decide)).1 (by decide)

/-- C8: the guards cannot re-enter the module.  `local_getpwuid_r`, and with it
`check_nonlocal_uid`, lets libc's lookup see `local_only` as 1 only (replacing
libc's behaviour under any other flag value changes nothing) and leaves
`local_only` as it found it; `_nss_nonlocal_getpwuid_r` entered with
`local_only` 1 returns `UNAVAIL` at once, with no event at all (no backend
called, no guard run) and nothing changed.  `check_nonlocal_gid` lets libc's
lookup see the magic buffer length only, and `_nss_nonlocal_getgrgid_r`
entered with that length returns `UNAVAIL` at once in the same way. -/
theorem C8_guard_does_not_reenter (env : Env β) :
    (∀ uid buflen errnop s,
      local_getpwuid_r env uid buflen errnop s =
        local_getpwuid_r { env with getpwuid_r := fun _ => env.getpwuid_r 1 } uid buflen
          errnop s ∧
      (local_getpwuid_r env uid buflen errnop s).state.local_only = s.local_only) ∧
    (∀ user uid e s,
      check_nonlocal_uid env user uid e s =
        check_nonlocal_uid { env with getpwuid_r := fun _ => env.getpwuid_r 1 } user uid e s ∧
      (check_nonlocal_uid env user uid e s).state.local_only = s.local_only) ∧
    (∀ uid pwd buflen errnop s, s.local_only = 1 →
      _nss_nonlocal_getpwuid_r env uid pwd buflen errnop s = ⟨UNAVAIL, pwd, errnop, s, []⟩) ∧
    (∀ user gid e s,
      check_nonlocal_gid env user gid e s =
        check_nonlocal_gid
          { env with getgrgid_r := fun g _ => env.getgrgid_r g (MAGIC_LOCAL_GR_BUFLEN env) }
          user gid e s) ∧
    (∀ gid grp (buflen : Nat) errnop s, (buflen : Int) = MAGIC_LOCAL_GR_BUFLEN env →
      _nss_nonlocal_getgrgid_r env gid grp buflen errnop s = ⟨UNAVAIL, grp, errnop, s, []⟩) := by
  refine ⟨?_, ?_, ?_, ?_, ?_⟩
  · intro uid buflen errnop s
    constructor
    · rfl
    · simp only [local_getpwuid_r]
      split_ifs <;> rfl
  · intro user uid e s
    constructor
    · rfl
    · simp only [check_nonlocal_uid, local_getpwuid_r]
      split_ifs <;> rfl
  · intro uid pwd buflen errnop s h
    simp [_nss_nonlocal_getpwuid_r, h]
  · intro user gid e s
    rfl
  · intro gid grp buflen errnop s h
    simp [_nss_nonlocal_getgrgid_r, h]

/-- An instance: the by-uid lookup entered with `local_only == 1` and the by-gid
lookup entered with buffer length 1031 = 1024 + 7 return `UNAVAIL` at once. -/
theorem C8_guard_does_not_reenter_witness :
    _nss_nonlocal_getpwuid_r (demo_env [demo_dir] []) 1000 (demo_pw "" 0 0) 64 0
        { demo_state with local_only := 1 } =
      ⟨UNAVAIL, demo_pw "" 0 0, 0, { demo_state with local_only := 1 }, []⟩ ∧
    _nss_nonlocal_getgrgid_r (demo_env [] [demo_dir]) 100 (demo_gr "" 0) 1031 0 demo_state =
      ⟨UNAVAIL, demo_gr "" 0, 0, demo_state, []⟩ :=
  ⟨(C8_guard_does_not_reenter (demo_env [demo_dir] [])).2.2.1 1000 (demo_pw "" 0 0) 64 0
      { demo_state with local_only := 1 } rfl,
   (C8_guard_does_not_reenter (demo_env [] [demo_dir])).2.2.2.2 100 (demo_gr "" 0) 1031 0
      demo_state (by decide)⟩

theorem check_error_is_final_quiet (st : nss_status) (tr : List Event)
    (h : ∀ x ∈ tr, x.check_error = none) : check_error_is_final st tr := by
  intro pre ev post st1 htr hev
  have := h ev (by rw [htr]; simp)
  rw [this] at hev
  exact absurd hev (by simp)

theorem check_error_is_final_append (st : nss_status) (tr1 tr2 : List Event)
    (h1 : ∀ x ∈ tr1, x.check_error = none) (h2 : check_error_is_final st tr2) :
    check_error_is_final st (tr1 ++ tr2) := by
  intro pre ev post st1 h hev
  rw [List.append_eq_append_iff] at h
  rcases h with ⟨a, rfl, ha⟩ | ⟨c, rfl, hc⟩
  · exact h2 a ev post st1 ha hev
  · cases c with
    | nil => exact h2 [] ev post st1 (by simpa using hc.symm) hev
    | cons x c =>
      simp only [List.cons_append, List.cons.injEq] at hc
      have := h1 ev (by simp [hc.1])
      rw [this] at hev
      exact absurd hev (by simp)

theorem check_error_is_final_single (ev : Event) (st : nss_status)
    (h : ∀ st1, ev.check_error = some st1 → st = st1) : check_error_is_final st [ev] := by
  intro pre ev1 post st1 htr hev
  cases pre with
  | nil =>
    simp only [List.nil_append, List.cons.injEq] at htr
    rw [← htr.1] at hev
    exact ⟨htr.2.symm, h st1 hev⟩
  | cons x pre =>
    simp only [List.cons_append, List.cons.injEq] at htr
    have := htr.2
    simp at this

theorem call_fct_no_check (fct_name : String) (call : α → ρ → Int → World β → Ret ρ β)
    (fctp : Option (fct α)) (res : ρ) (errnop : Int) (s : State β) :
    ∀ x ∈ (call_fct fct_name call fctp res errnop s).trace, x.check_error = none := by
  cases fctp <;> simp [call_fct, Event.check_error]

theorem nss_walk_no_check (fct_name : String) (sel : service_user β → Option α)
    (call : α → ρ → Int → World β → Ret ρ β) :
    ∀ (chain : List (service_user β)) (fctp : Option (fct α)) (res : ρ) (errnop : Int)
      (s : State β),
      ∀ x ∈ (nss_walk fct_name sel call chain fctp res errnop s).trace,
        x.check_error = none := by
  intro chain
  induction chain with
  | nil => intro fctp res errnop s; simp [nss_walk]
  | cons ni next ih =>
    intro fctp res errnop s
    rw [nss_walk]
    simp only
    split_ifs
    · exact call_fct_no_check _ _ _ _ _ _
    · intro x hx
      rcases List.mem_append.mp hx with hx | hx
      · exact call_fct_no_check _ _ _ _ _ _ x hx
      · exact ih _ _ _ _ x hx
    · exact call_fct_no_check _ _ _ _ _ _

theorem check_nonlocal_gid_error (env : Env β) (user : String) (gid : Nat) (e : Int)
    (s : State β) :
    ((check_nonlocal_gid env user gid e s).status = SUCCESS ∨
      (check_nonlocal_gid env user gid e s).status = NOTFOUND →
      ∀ x ∈ (check_nonlocal_gid env user gid e s).trace, x.check_error = none) ∧
    check_error_is_final (check_nonlocal_gid env user gid e s).status
      (check_nonlocal_gid env user gid e s).trace := by
  rw [check_nonlocal_gid_trace]
  constructor
  · intro h x hx
    simp only [List.mem_singleton] at hx
    subst hx
    simp [Event.check_error, h]
  · apply check_error_is_final_single
    intro st1 h
    simp only [Event.check_error] at h
    split_ifs at h
    simpa using h

/-- In the filter loop of the group expansion a guard error ends the call and is
its status. -/
theorem initgroups_filter_nat_error (env : Env β) (user : String) :
    ∀ (n i_n out : Nat) (buf : GroupBuf) (errnop : Int) (s : State β) (tr : List Event),
      (∀ x ∈ tr, x.check_error = none) →
      check_error_is_final (initgroups_filter_nat env user n i_n out buf errnop s tr).status
        (initgroups_filter_nat env user n i_n out buf errnop s tr).trace := by
  intro n
  induction n with
  | zero =>
    intro i_n out buf errnop s tr h
    simp only [initgroups_filter_nat]
    exact check_error_is_final_quiet _ _ h
  | succ n ih =>
    intro i_n out buf errnop s tr h
    obtain ⟨hq, hf⟩ := check_nonlocal_gid_error env user (buf.groups.getD i_n 0) errnop s
    simp only [initgroups_filter_nat]
    split_ifs with h1 h2 h3
    · exact ih _ _ _ _ _ _ h
    · apply ih
      intro x hx
      rcases List.mem_append.mp hx with hx | hx
      · exact h x hx
      · exact hq (Or.inl h2) x hx
    · exact check_error_is_final_append _ _ _ h hf
    · apply ih
      intro x hx
      rcases List.mem_append.mp hx with hx | hx
      · exact h x hx
      · simp only [ne_eq, Decidable.not_not] at h3
        exact hq (Or.inr h3) x hx

theorem check_nonlocal_uid_state (env : Env β) (user : String) (uid : Nat) (e : Int)
    (s : State β) :
    (check_nonlocal_uid env user uid e s).state =
      { s with world := (check_nonlocal_uid env user uid e s).state.world } := by
  simp only [check_nonlocal_uid, local_getpwuid_r]
  split_ifs <;> rfl

theorem check_nonlocal_gid_state (env : Env β) (user : String) (gid : Nat) (e : Int)
    (s : State β) :
    (check_nonlocal_gid env user gid e s).state =
      { s with world := (check_nonlocal_gid env user gid e s).state.world } := by
  simp only [check_nonlocal_gid]
  split_ifs <;> rfl

theorem getpwent_r_open (env : Env β) (fuel : Nat) (pwd : passwd) (buflen : Nat)
    (errnop : Int) (s : State β) (ni : service_user β) (next : List (service_user β))
    (h : s.pwent_nip = ni :: next) :
    _nss_nonlocal_getpwent_r env fuel pwd buflen errnop s =
      getent_walk "getpwent_r" (fun ni => ni.getpwent_r)
        (fun p t => check_nonlocal_uid env p.pw_name p.pw_uid 0 t)
        (fun nip f t => { t with pwent_nip := nip, pwent_fct := f })
        buflen fuel (ni :: next) s.pwent_fct pwd errnop s := by
  unfold _nss_nonlocal_getpwent_r
  simp only [h]

theorem getgrent_r_open (env : Env β) (fuel : Nat) (grp : group) (buflen : Nat)
    (errnop : Int) (s : State β) (ni : service_user β) (next : List (service_user β))
    (h : s.grent_nip = ni :: next) :
    _nss_nonlocal_getgrent_r env fuel grp buflen errnop s =
      getent_walk "getgrent_r" (fun ni => ni.getgrent_r)
        (fun g t => check_nonlocal_gid env "(unknown)" g.gr_gid 0 t)
        (fun nip f t => { t with grent_nip := nip, grent_fct := f })
        buflen fuel (ni :: next) s.grent_fct grp errnop s := by
  unfold _nss_nonlocal_getgrent_r
  simp only [h]

theorem dup_scan_lt (groups : List Nat) (x out : Nat) :
    ∀ (n i : Nat), out ≤ i + n →
      (dup_scan groups x out n i < out ↔ ∃ j, i ≤ j ∧ j < out ∧ groups.getD j 0 = x) := by
  intro n
  induction n with
  | zero =>
    intro i h
    simp only [dup_scan]
    constructor
    · intro h1; omega
    · rintro ⟨j, h1, h2, _⟩; omega
  | succ n ih =>
    intro i h
    simp only [dup_scan]
    split_ifs with h1 h2
    · constructor
      · intro _; exact ⟨i, le_refl i, h1, h2⟩
      · intro _; exact h1
    · rw [ih (i + 1) (by omega)]
      constructor
      · rintro ⟨j, h3, h4, h5⟩; exact ⟨j, by omega, h4, h5⟩
      · rintro ⟨j, h3, h4, h5⟩
        refine ⟨j, ?_, h4, h5⟩
        by_contra hlt
        have : j = i := by omega
        subst this
        exact h2 h5
    · constructor
      · intro h3; exact absurd h3 h1
      · rintro ⟨j, h3, h4, _⟩; omega

theorem getD_append_left (A B : List Nat) (j : Nat) (h : j < A.length) :
    (A ++ B).getD j 0 = A.getD j 0 := by
  simp [List.getD_eq_getElem?_getD, List.getElem?_append_left h]

theorem getD_append_right (A B : List Nat) :
    (A ++ B).getD A.length 0 = B.getD 0 0 := by
  simp [List.getD_eq_getElem?_getD, List.getElem?_append_right (le_refl A.length)]

/-- The duplicate scan finds `x` exactly when `x` is among the accepted entries. -/
theorem dup_scan_mem (A B : List Nat) (x : Nat) :
    dup_scan (A ++ B) x A.length A.length 0 < A.length ↔ x ∈ A := by
  rw [dup_scan_lt (A ++ B) x A.length A.length 0 (by omega)]
  constructor
  · rintro ⟨j, _, h2, h3⟩
    rw [getD_append_left A B j h2] at h3
    rw [← h3, List.getD_eq_getElem?_getD, List.getElem?_eq_getElem h2]
    simp
  · intro h
    obtain ⟨j, hj, rfl⟩ := List.getElem_of_mem h
    refine ⟨j, Nat.zero_le j, hj, ?_⟩
    rw [getD_append_left A B j hj, List.getD_eq_getElem?_getD, List.getElem?_eq_getElem hj]
    simp

theorem set_accept (A G rest : List Nat) (g : Nat) :
    (A ++ G ++ g :: rest).set A.length g = (A ++ [g]) ++ (G ++ [g]).tail ++ rest := by
  cases G with
  | nil => simp [List.set_append_right]
  | cons x G => simp [List.set_append_left, List.set_append_right]

/-- The filter loop on the array refines `keep_new`: with the accepted entries
`A` in front (`out` of them), then `in - out` stale slots `G`, then the entries
`L` still to look at, the loop decides as `keep_new A L` and leaves `A` followed
by the kept entries in front, the window marker behind them. -/
theorem initgroups_filter_nat_refines (env : Env β) (user : String) :
    ∀ (L A G R : List Nat) (n i o start size : Nat) (groups : List Nat) (errnop : Int)
      (s : State β) (tr : List Event),
      n = L.length → o = A.length → i = A.length + G.length →
      groups = A ++ G ++ L ++ R →
      (initgroups_filter_nat env user n i o ⟨start, size, groups⟩ errnop s tr).status =
        (keep_new env user A L errnop s).status ∧
      (initgroups_filter_nat env user n i o ⟨start, size, groups⟩ errnop s tr).errnop =
        (keep_new env user A L errnop s).errnop ∧
      (initgroups_filter_nat env user n i o ⟨start, size, groups⟩ errnop s tr).state =
        (keep_new env user A L errnop s).state ∧
      (initgroups_filter_nat env user n i o ⟨start, size, groups⟩ errnop s tr).trace =
        tr ++ (keep_new env user A L errnop s).trace ∧
      (initgroups_filter_nat env user n i o ⟨start, size, groups⟩ errnop s tr).res.start =
        A.length + (keep_new env user A L errnop s).kept.length ∧
      (initgroups_filter_nat env user n i o ⟨start, size, groups⟩ errnop s tr).res.size = size ∧
      (initgroups_filter_nat env user n i o ⟨start, size, groups⟩ errnop s tr).res.groups.take
          (A.length + (keep_new env user A L errnop s).kept.length) =
        A ++ (keep_new env user A L errnop s).kept ∧
      (initgroups_filter_nat env user n i o ⟨start, size, groups⟩ errnop s tr).res.groups.length =
        groups.length := by
  intro L
  induction L with
  | nil =>
    intro A G R n i o start size groups errnop s tr hn ho hi hg
    subst hn ho hi hg
    simp [initgroups_filter_nat, keep_new]
  | cons g L ih =>
    intro A G R n i o start size groups errnop s tr hn ho hi hg
    subst hn ho hi
    have hget : groups.getD (A.length + G.length) 0 = g := by
      rw [hg]
      have : A ++ G ++ g :: L ++ R = (A ++ G) ++ (g :: (L ++ R)) := by simp
      rw [this, ← List.length_append, getD_append_right]
      rfl
    have hdup : dup_scan groups g A.length A.length 0 < A.length ↔ g ∈ A := by
      rw [hg]
      have : A ++ G ++ g :: L ++ R = A ++ (G ++ g :: (L ++ R)) := by simp
      rw [this]
      exact dup_scan_mem A _ g
    have hskip : groups = A ++ (G ++ [g]) ++ L ++ R := by rw [hg]; simp
    have hlen : A.length + G.length + 1 = A.length + (G ++ [g]).length := by simp; omega
    simp only [initgroups_filter_nat, List.length_cons, hget, keep_new]
    by_cases hmem : g ∈ A
    · rw [if_pos (hdup.mpr hmem), if_pos hmem]
      exact ih A (G ++ [g]) R _ _ _ start size groups errnop s tr rfl rfl hlen hskip
    · rw [if_neg (fun h => hmem (hdup.mp h)), if_neg hmem]
      by_cases hs : (check_nonlocal_gid env user g errnop s).status = SUCCESS
      · rw [if_pos hs, if_pos hs]
        have hset : groups.set A.length g = (A ++ [g]) ++ (G ++ [g]).tail ++ L ++ R := by
          rw [hg]
          have : A ++ G ++ g :: L ++ R = A ++ G ++ g :: (L ++ R) := by simp
          rw [this, set_accept]
          simp
        have hl2 : A.length + G.length + 1 = (A ++ [g]).length + (G ++ [g]).tail.length := by
          simp; omega
        obtain ⟨h1, h2, h3, h4, h5, h6, h7, h8⟩ :=
          ih (A ++ [g]) (G ++ [g]).tail R L.length (A.length + G.length + 1) (A.length + 1)
            start size (groups.set A.length g) errnop
            (check_nonlocal_gid env user g errnop s).state
            (tr ++ (check_nonlocal_gid env user g errnop s).trace) rfl (by simp) hl2 hset
        refine ⟨h1, h2, h3, ?_, ?_, h6, ?_, ?_⟩
        · rw [h4, List.append_assoc]
        · rw [h5]; simp; omega
        · have e : A.length + ((keep_new env user (A ++ [g]) L errnop
              (check_nonlocal_gid env user g errnop s).state).kept.length + 1) =
              (A ++ [g]).length + (keep_new env user (A ++ [g]) L errnop
              (check_nonlocal_gid env user g errnop s).state).kept.length := by
            simp; omega
          simp only [List.length_cons]
          rw [e, h7]
          simp
        · rw [h8]; simp
      · rw [if_neg hs, if_neg hs]
        by_cases hnf : (check_nonlocal_gid env user g errnop s).status = NOTFOUND
        · simp only [hnf, ne_eq, not_true_eq_false, if_false]
          obtain ⟨h1, h2, h3, h4, h5, h6, h7, h8⟩ :=
            ih A (G ++ [g]) R _ _ _ start size groups errnop
              (check_nonlocal_gid env user g errnop s).state
              (tr ++ (check_nonlocal_gid env user g errnop s).trace) rfl rfl hlen hskip
          exact ⟨h1, h2, h3, by rw [h4, List.append_assoc], h5, h6, h7, h8⟩
        · simp only [hnf, ne_eq, not_false_eq_true, if_true]
          simp [hg]

/-- What `keep_new` keeps: a duplicate-free selection of the new entries, in
their order, none of them accepted before, each one accepted by the guard. -/
theorem keep_new_kept (env : Env β) (user : String) :
    ∀ (L acc : List Nat) (errnop : Int) (s : State β),
      (keep_new env user acc L errnop s).kept.Sublist L ∧
      (∀ g ∈ (keep_new env user acc L errnop s).kept, g ∉ acc) ∧
      (keep_new env user acc L errnop s).kept.Nodup ∧
      (∀ g ∈ (keep_new env user acc L errnop s).kept,
        Event.check_gid g SUCCESS ∈ (keep_new env user acc L errnop s).trace) := by
  intro L
  induction L with
  | nil => intro acc errnop s; simp [keep_new]
  | cons g L ih =>
    intro acc errnop s
    simp only [keep_new]
    by_cases hmem : g ∈ acc
    · rw [if_pos hmem]
      obtain ⟨h1, h2, h3, h4⟩ := ih acc errnop s
      exact ⟨h1.cons g, h2, h3, h4⟩
    · rw [if_neg hmem]
      by_cases hs : (check_nonlocal_gid env user g errnop s).status = SUCCESS
      · rw [if_pos hs]
        obtain ⟨h1, h2, h3, h4⟩ := ih (acc ++ [g]) errnop
          (check_nonlocal_gid env user g errnop s).state
        refine ⟨h1.cons₂ g, ?_, ?_, ?_⟩
        · intro x hx
          rcases List.mem_cons.mp hx with rfl | hx
          · exact hmem
          · exact fun hacc => h2 x hx (List.mem_append_left _ hacc)
        · refine List.nodup_cons.mpr ⟨?_, h3⟩
          intro hg
          exact h2 g hg (by simp)
        · intro x hx
          rcases List.mem_cons.mp hx with rfl | hx
          · rw [check_nonlocal_gid_trace, hs]; simp
          · exact List.mem_append_right _ (h4 x hx)
      · rw [if_neg hs]
        by_cases hnf : (check_nonlocal_gid env user g errnop s).status = NOTFOUND
        · simp only [hnf, ne_eq, not_true_eq_false, if_false]
          obtain ⟨h1, h2, h3, h4⟩ := ih acc errnop
            (check_nonlocal_gid env user g errnop s).state
          exact ⟨h1.cons g, h2, h3, fun x hx => List.mem_append_right _ (h4 x hx)⟩
        · simp [hnf]

theorem call_fct_no_accepted (fct_name : String) (call : α → ρ → Int → World β → Ret ρ β)
    (fctp : Option (fct α)) (res : ρ) (errnop : Int) (s : State β) :
    (call_fct fct_name call fctp res errnop s).trace.filterMap Event.accepted = [] := by
  cases fctp <;> simp [call_fct, Event.accepted]

theorem nss_walk_no_accepted (fct_name : String) (sel : service_user β → Option α)
    (call : α → ρ → Int → World β → Ret ρ β) :
    ∀ (chain : List (service_user β)) (fctp : Option (fct α)) (res : ρ) (errnop : Int)
      (s : State β),
      (nss_walk fct_name sel call chain fctp res errnop s).trace.filterMap Event.accepted
        = [] := by
  intro chain
  induction chain with
  | nil => intro fctp res errnop s; simp [nss_walk]
  | cons ni next ih =>
    intro fctp res errnop s
    rw [nss_walk]
    simp only
    split_ifs
    · exact call_fct_no_accepted _ _ _ _ _ _
    · rw [List.filterMap_append, call_fct_no_accepted, ih]
      rfl
    · exact call_fct_no_accepted _ _ _ _ _ _

/-- The guard runs of `keep_new` that returned `SUCCESS` are, in order, the
entries it keeps. -/
theorem keep_new_accepted (env : Env β) (user : String) :
    ∀ (L acc : List Nat) (errnop : Int) (s : State β),
      (keep_new env user acc L errnop s).trace.filterMap Event.accepted =
        (keep_new env user acc L errnop s).kept := by
  intro L
  induction L with
  | nil => intro acc errnop s; simp [keep_new]
  | cons g rest ih =>
    intro acc errnop s
    simp only [keep_new]
    by_cases hg : g ∈ acc
    · simp only [hg, if_true]
      exact ih _ _ _
    · simp only [hg, if_false]
      by_cases hs : (check_nonlocal_gid env user g errnop s).status = SUCCESS
      · simp only [hs, if_true, List.filterMap_append, ih]
        rw [check_nonlocal_gid_trace, hs]
        simp [Event.accepted]
      · simp only [hs, if_false]
        by_cases hnf : (check_nonlocal_gid env user g errnop s).status = NOTFOUND
        · simp only [hnf, ne_eq, not_true_eq_false, if_false, List.filterMap_append, ih]
          rw [check_nonlocal_gid_trace, hnf]
          simp [Event.accepted]
        · simp only [hnf, ne_eq, not_false_eq_true, if_true]
          rw [check_nonlocal_gid_trace]
          simp [Event.accepted, hs]

/-- The reference filter stops at the first entry on which the guard fails: with
the entries `L1` before it filtered without an error and `g` not a duplicate of
an accepted entry, a guard error on `g` ends the run, whatever follows `g`. -/
theorem keep_new_stops (env : Env β) (user : String) (g : Nat) (L2 : List Nat) :
    ∀ (L1 acc : List Nat) (errnop : Int) (s : State β),
      (keep_new env user acc L1 errnop s).status = SUCCESS →
      g ∉ acc → g ∉ (keep_new env user acc L1 errnop s).kept →
      (check_nonlocal_gid env user g errnop
        (keep_new env user acc L1 errnop s).state).status ≠ SUCCESS →
      (check_nonlocal_gid env user g errnop
        (keep_new env user acc L1 errnop s).state).status ≠ NOTFOUND →
      keep_new env user acc (L1 ++ g :: L2) errnop s =
        ⟨(check_nonlocal_gid env user g errnop
            (keep_new env user acc L1 errnop s).state).status,
          (keep_new env user acc L1 errnop s).kept,
          (check_nonlocal_gid env user g errnop
            (keep_new env user acc L1 errnop s).state).errnop,
          (check_nonlocal_gid env user g errnop
            (keep_new env user acc L1 errnop s).state).state,
          (keep_new env user acc L1 errnop s).trace ++
            (check_nonlocal_gid env user g errnop
              (keep_new env user acc L1 errnop s).state).trace⟩ := by
  intro L1
  induction L1 with
  | nil =>
    intro acc errnop s _ hacc _ hs hnf
    simp only [keep_new] at hs hnf ⊢
    simp [keep_new, hacc, hs, hnf]
  | cons x rest ih =>
    intro acc errnop s hk hacc hkept hs hnf
    rw [List.cons_append]
    simp only [keep_new, List.append_eq] at hk hkept hs hnf ⊢
    by_cases hx : x ∈ acc
    · simp only [hx, if_true] at hk hkept hs hnf ⊢
      exact ih acc errnop s hk hacc hkept hs hnf
    · simp only [hx, if_false] at hk hkept hs hnf ⊢
      by_cases hxs : (check_nonlocal_gid env user x errnop s).status = SUCCESS
      · simp only [hxs, if_true] at hk hkept hs hnf ⊢
        have hgx : g ≠ x := fun h => hkept (by rw [h]; exact List.mem_cons_self _ _)
        have hgk : g ∉ (keep_new env user (acc ++ [x]) rest errnop
            (check_nonlocal_gid env user x errnop s).state).kept :=
          fun h => hkept (List.mem_cons_of_mem _ h)
        have hacc1 : g ∉ acc ++ [x] := by
          simp [hacc, hgx]
        rw [ih (acc ++ [x]) errnop _ hk hacc1 hgk hs hnf]
        simp
      · simp only [hxs, if_false] at hk hkept hs hnf ⊢
        by_cases hxn : (check_nonlocal_gid env user x errnop s).status = NOTFOUND
        · simp only [hxn, ne_eq, not_true_eq_false, if_false] at hk hkept hs hnf ⊢
          rw [ih acc errnop _ hk hacc hkept hs hnf]
          simp
        · simp only [hxn, ne_eq, not_false_eq_true, if_true] at hk
          exact absurd hk hxs

/-- The group expansion on a window that fits the `int` indices of the loop.  The
chain walk has succeeded, `P` are the entries below the marker, `L` the first
entries behind it and `m` more follow; the marker and the positions of `L` are
in the range of `int`, and either the reference filter stops in `L` with a guard
error or `L` is the whole window.  Then the call returns, and it returns what
`keep_new` decides on `L`. -/
theorem initgroups_dyn_window (env : Env β) (user : String) (grp : Nat) (buf : GroupBuf)
    (limit : Int) (errnop : Int) (s : State β) (P L R : List Nat) (m : Nat)
    (hr : (nss_walk "initgroups_dyn" (fun ni => ni.initgroups_dyn)
        (fun f res e w => f user grp res limit e w) env.group_nonlocal
        (__nss_lookup_function (fun ni => ni.initgroups_dyn) env.group_nonlocal) buf errnop
        s).status = SUCCESS)
    (hP : P.length = buf.start)
    (hstart : (nss_walk "initgroups_dyn" (fun ni => ni.initgroups_dyn)
        (fun f res e w => f user grp res limit e w) env.group_nonlocal
        (__nss_lookup_function (fun ni => ni.initgroups_dyn) env.group_nonlocal) buf errnop
        s).res.start = buf.start + L.length + m)
    (hgroups : (nss_walk "initgroups_dyn" (fun ni => ni.initgroups_dyn)
        (fun f res e w => f user grp res limit e w) env.group_nonlocal
        (__nss_lookup_function (fun ni => ni.initgroups_dyn) env.group_nonlocal) buf errnop
        s).res.groups = P ++ L ++ R)
    (hb : (buf.start : Int) + L.length ≤ INT_MAX + 1)
    (hk : (keep_new env user P L (nss_walk "initgroups_dyn" (fun ni => ni.initgroups_dyn)
        (fun f res e w => f user grp res limit e w) env.group_nonlocal
        (__nss_lookup_function (fun ni => ni.initgroups_dyn) env.group_nonlocal) buf errnop
        s).errnop (nss_walk "initgroups_dyn" (fun ni => ni.initgroups_dyn)
        (fun f res e w => f user grp res limit e w) env.group_nonlocal
        (__nss_lookup_function (fun ni => ni.initgroups_dyn) env.group_nonlocal) buf errnop
        s).state).status = SUCCESS →
      m = 0 ∧ (buf.start : Int) + L.length ≤ INT_MAX) :
    ∃ o, _nss_nonlocal_initgroups_dyn env user grp buf limit errnop s = some o ∧
      o.status = (keep_new env user P L (nss_walk "initgroups_dyn" (fun ni => ni.initgroups_dyn)
        (fun f res e w => f user grp res limit e w) env.group_nonlocal
        (__nss_lookup_function (fun ni => ni.initgroups_dyn) env.group_nonlocal) buf errnop
        s).errnop (nss_walk "initgroups_dyn" (fun ni => ni.initgroups_dyn)
        (fun f res e w => f user grp res limit e w) env.group_nonlocal
        (__nss_lookup_function (fun ni => ni.initgroups_dyn) env.group_nonlocal) buf errnop
        s).state).status ∧
      o.errnop = (keep_new env user P L (nss_walk "initgroups_dyn" (fun ni => ni.initgroups_dyn)
        (fun f res e w => f user grp res limit e w) env.group_nonlocal
        (__nss_lookup_function (fun ni => ni.initgroups_dyn) env.group_nonlocal) buf errnop
        s).errnop (nss_walk "initgroups_dyn" (fun ni => ni.initgroups_dyn)
        (fun f res e w => f user grp res limit e w) env.group_nonlocal
        (__nss_lookup_function (fun ni => ni.initgroups_dyn) env.group_nonlocal) buf errnop
        s).state).errnop ∧
      o.state = (keep_new env user P L (nss_walk "initgroups_dyn" (fun ni => ni.initgroups_dyn)
        (fun f res e w => f user grp res limit e w) env.group_nonlocal
        (__nss_lookup_function (fun ni => ni.initgroups_dyn) env.group_nonlocal) buf errnop
        s).errnop (nss_walk "initgroups_dyn" (fun ni => ni.initgroups_dyn)
        (fun f res e w => f user grp res limit e w) env.group_nonlocal
        (__nss_lookup_function (fun ni => ni.initgroups_dyn) env.group_nonlocal) buf errnop
        s).state).state ∧
      o.trace = (nss_walk "initgroups_dyn" (fun ni => ni.initgroups_dyn)
        (fun f res e w => f user grp res limit e w) env.group_nonlocal
        (__nss_lookup_function (fun ni => ni.initgroups_dyn) env.group_nonlocal) buf errnop
        s).trace ++ (keep_new env user P L (nss_walk "initgroups_dyn" (fun ni => ni.initgroups_dyn)
        (fun f res e w => f user grp res limit e w) env.group_nonlocal
        (__nss_lookup_function (fun ni => ni.initgroups_dyn) env.group_nonlocal) buf errnop
        s).errnop (nss_walk "initgroups_dyn" (fun ni => ni.initgroups_dyn)
        (fun f res e w => f user grp res limit e w) env.group_nonlocal
        (__nss_lookup_function (fun ni => ni.initgroups_dyn) env.group_nonlocal) buf errnop
        s).state).trace ∧
      o.res.start = buf.start +
        (keep_new env user P L (nss_walk "initgroups_dyn" (fun ni => ni.initgroups_dyn)
        (fun f res e w => f user grp res limit e w) env.group_nonlocal
        (__nss_lookup_function (fun ni => ni.initgroups_dyn) env.group_nonlocal) buf errnop
        s).errnop (nss_walk "initgroups_dyn" (fun ni => ni.initgroups_dyn)
        (fun f res e w => f user grp res limit e w) env.group_nonlocal
        (__nss_lookup_function (fun ni => ni.initgroups_dyn) env.group_nonlocal) buf errnop
        s).state).kept.length ∧
      o.res.groups.take (buf.start +
          (keep_new env user P L (nss_walk "initgroups_dyn" (fun ni => ni.initgroups_dyn)
        (fun f res e w => f user grp res limit e w) env.group_nonlocal
        (__nss_lookup_function (fun ni => ni.initgroups_dyn) env.group_nonlocal) buf errnop
        s).errnop (nss_walk "initgroups_dyn" (fun ni => ni.initgroups_dyn)
        (fun f res e w => f user grp res limit e w) env.group_nonlocal
        (__nss_lookup_function (fun ni => ni.initgroups_dyn) env.group_nonlocal) buf errnop
        s).state).kept.length) =
        P ++ (keep_new env user P L (nss_walk "initgroups_dyn" (fun ni => ni.initgroups_dyn)
        (fun f res e w => f user grp res limit e w) env.group_nonlocal
        (__nss_lookup_function (fun ni => ni.initgroups_dyn) env.group_nonlocal) buf errnop
        s).errnop (nss_walk "initgroups_dyn" (fun ni => ni.initgroups_dyn)
        (fun f res e w => f user grp res limit e w) env.group_nonlocal
        (__nss_lookup_function (fun ni => ni.initgroups_dyn) env.group_nonlocal) buf errnop
        s).state).kept := by
  rw [initgroups_dyn_walk]
  generalize nss_walk "initgroups_dyn" (fun ni => ni.initgroups_dyn)
        (fun f res e w => f user grp res limit e w) env.group_nonlocal
        (__nss_lookup_function (fun ni => ni.initgroups_dyn) env.group_nonlocal) buf errnop
        s = r at hr hstart hgroups hk ⊢
  obtain ⟨rst, ⟨st, sz, gs⟩, rerr, rstate, rtrace⟩ := r
  simp only at hr hstart hgroups hk ⊢
  subst hr
  simp only [ne_eq, not_true_eq_false, if_false]
  obtain ⟨h1, h2, h3, h4, h5, _, h7, _⟩ := initgroups_filter_nat_refines env user L P [] R
    L.length buf.start buf.start st sz gs rerr rstate rtrace
    rfl hP.symm (by simp [hP]) (by rw [hgroups]; simp)
  rw [hP] at h5 h7
  have hle : (buf.start : Int) ≤ INT_MAX := by
    by_cases hs : (keep_new env user P L rerr rstate).status = SUCCESS
    · have := (hk hs).2
      omega
    · have hL : L ≠ [] := by
        intro hL
        subst hL
        exact hs (by simp [keep_new])
      have : 0 < L.length := List.length_pos.mpr hL
      omega
  have hn : ((st : Int) - (buf.start : Int)).toNat = L.length + m := by
    rw [hstart]
    push_cast
    omega
  rw [long_to_int_eq _ (Int.natCast_nonneg _) hle, hn]
  have hrun : initgroups_filter env user (L.length + m) (buf.start : Int) (buf.start : Int)
      ⟨st, sz, gs⟩ rerr rstate rtrace =
      some (initgroups_filter_nat env user L.length buf.start buf.start ⟨st, sz, gs⟩ rerr
        rstate rtrace) := by
    by_cases hs : (keep_new env user P L rerr rstate).status = SUCCESS
    · obtain ⟨hm, hbb⟩ := hk hs
      subst hm
      exact initgroups_filter_total env user _ _ _ _ _ _ _ (by omega) (fun _ => hbb)
    · have hne : (initgroups_filter_nat env user L.length buf.start buf.start ⟨st, sz, gs⟩
          rerr rstate rtrace).status ≠ SUCCESS := by rw [h1]; exact hs
      exact initgroups_filter_stops env user m _ _ _ _ _ _ _ _
        (initgroups_filter_total env user _ _ _ _ _ _ _ hb (fun h => absurd h hne)) hne
  exact ⟨_, hrun, h1, h2, h3, h4, h5, h7⟩

theorem check_nonlocal_gid_notfound (env : Env β) (user : String) (gid : Nat) (e : Int)
    (s : State β) (h : (check_nonlocal_gid env user gid e s).status = NOTFOUND) :
    ∃ w, (env.getgrgid_r gid (MAGIC_LOCAL_GR_BUFLEN env) w).ret = 0 ∧
      (env.getgrgid_r gid (MAGIC_LOCAL_GR_BUFLEN env) w).result.isSome = true := by
  unfold check_nonlocal_gid at h
  simp only at h
  split_ifs at h with h1 h2 h3
  exact ⟨_, by simpa using h2, h3⟩

/-- The group expansion returns `SUCCESS` only when the chain walk has succeeded
and the end of the window, and so the marker, is in the range of `int`. -/
theorem initgroups_dyn_success (env : Env β) (user : String) (grp : Nat) (buf : GroupBuf)
    (limit : Int) (errnop : Int) (s : State β) (o : Out GroupBuf β)
    (h : _nss_nonlocal_initgroups_dyn env user grp buf limit errnop s = some o)
    (hs : o.status = SUCCESS) :
    (nss_walk "initgroups_dyn" (fun ni => ni.initgroups_dyn)
        (fun f res e w => f user grp res limit e w) env.group_nonlocal
        (__nss_lookup_function (fun ni => ni.initgroups_dyn) env.group_nonlocal) buf errnop
        s).status = SUCCESS ∧ ((nss_walk "initgroups_dyn" (fun ni => ni.initgroups_dyn)
        (fun f res e w => f user grp res limit e w) env.group_nonlocal
        (__nss_lookup_function (fun ni => ni.initgroups_dyn) env.group_nonlocal) buf errnop
        s).res.start : Int) ≤ INT_MAX := by
  rw [initgroups_dyn_walk] at h
  generalize nss_walk "initgroups_dyn" (fun ni => ni.initgroups_dyn)
        (fun f res e w => f user grp res limit e w) env.group_nonlocal
        (__nss_lookup_function (fun ni => ni.initgroups_dyn) env.group_nonlocal) buf errnop
        s = r at h ⊢
  simp only at h
  by_cases hr : r.status = SUCCESS
  · simp only [hr, ne_eq, not_true_eq_false, if_false] at h
    refine ⟨hr, ?_⟩
    have := initgroups_filter_success_bound env user _ _ _ _ _ _ _ _
      (long_to_int_le _) h hs
    generalize long_to_int (buf.start : Int) = a at this
    omega
  · simp only [hr, ne_eq, not_false_eq_true, if_true, Option.some.injEq] at h
    subst h
    exact absurd hs hr

theorem keep_new_cons_dup (env : Env β) (user : String) (acc rest : List Nat) (g : Nat)
    (e : Int) (s : State β) (hg : g ∈ acc) :
    keep_new env user acc (g :: rest) e s = keep_new env user acc rest e s := by
  simp only [keep_new, hg, if_true]

/-- A new entry that is no duplicate and that the guard does not reject, in a
run of the reference filter that ends `SUCCESS`: it is kept. -/
theorem keep_new_cons_fresh (env : Env β) (user : String) (acc rest : List Nat) (g : Nat)
    (e : Int) (s : State β) (hg : g ∉ acc)
    (hs : (keep_new env user acc (g :: rest) e s).status = SUCCESS)
    (hn : (check_nonlocal_gid env user g e s).status ≠ NOTFOUND) :
    (keep_new env user (acc ++ [g]) rest e (check_nonlocal_gid env user g e s).state).status
      = SUCCESS ∧
    (keep_new env user acc (g :: rest) e s).kept =
      g :: (keep_new env user (acc ++ [g]) rest e
        (check_nonlocal_gid env user g e s).state).kept := by
  simp only [keep_new, hg, if_false] at hs ⊢
  by_cases hc : (check_nonlocal_gid env user g e s).status = SUCCESS
  · simp only [hc, if_true] at hs ⊢
    exact ⟨hs, trivial⟩
  · simp only [hc, if_false, ne_eq, hn, not_false_eq_true, if_true] at hs

/-- A new entry that is no duplicate and that the guard does not accept, in a
run of the reference filter that ends `SUCCESS`: it is dropped. -/
theorem keep_new_cons_rejected (env : Env β) (user : String) (acc rest : List Nat) (g : Nat)
    (e : Int) (s : State β) (hg : g ∉ acc)
    (hs : (keep_new env user acc (g :: rest) e s).status = SUCCESS)
    (hn : (check_nonlocal_gid env user g e s).status ≠ SUCCESS) :
    (keep_new env user acc rest e (check_nonlocal_gid env user g e s).state).status
      = SUCCESS ∧
    (keep_new env user acc (g :: rest) e s).kept =
      (keep_new env user acc rest e (check_nonlocal_gid env user g e s).state).kept := by
  simp only [keep_new, hg, if_false, hn] at hs ⊢
  by_cases hc : (check_nonlocal_gid env user g e s).status = NOTFOUND
  · simp only [hc, ne_eq, not_true_eq_false, if_false] at hs ⊢
    exact ⟨hs, trivial⟩
  · simp only [hc, ne_eq, not_false_eq_true, if_true] at hs
    exact absurd hs hn

theorem keep_new_10_20_10_30 (env : Env β) (user : String) (P : List Nat) (e : Int)
    (t : State β) (h10 : 10 ∉ P) (h20 : 20 ∉ P) (h30 : 30 ∉ P)
    (hn : ∀ g ∈ [10, 20, 30], ∀ e t, (check_nonlocal_gid env user g e t).status ≠ NOTFOUND)
    (hs : (keep_new env user P [10, 20, 10, 30] e t).status = SUCCESS) :
    (keep_new env user P [10, 20, 10, 30] e t).kept = [10, 20, 30] := by
  obtain ⟨s1, k1⟩ := keep_new_cons_fresh env user P _ 10 e t h10 hs (hn 10 (by simp) _ _)
  obtain ⟨s2, k2⟩ := keep_new_cons_fresh env user _ _ 20 e _ (by simp [h20]) s1
    (hn 20 (by simp) _ _)
  rw [keep_new_cons_dup env user _ _ 10 e _ (by simp)] at s2 k2
  obtain ⟨_, k3⟩ := keep_new_cons_fresh env user _ _ 30 e _ (by simp [h30]) s2
    (hn 30 (by simp) _ _)
  rw [k1, k2, k3]
  simp [keep_new]

theorem keep_new_10_20 (env : Env β) (user : String) (P : List Nat) (e : Int)
    (t : State β) (h10 : 10 ∉ P) (h20 : 20 ∉ P)
    (a10 : ∀ e t, (check_nonlocal_gid env user 10 e t).status ≠ NOTFOUND)
    (a20 : ∀ e t, (check_nonlocal_gid env user 20 e t).status ≠ SUCCESS)
    (hs : (keep_new env user P [10, 20] e t).status = SUCCESS) :
    (keep_new env user P [10, 20] e t).kept = [10] := by
  obtain ⟨s1, k1⟩ := keep_new_cons_fresh env user P _ 10 e t h10 hs (a10 _ _)
  obtain ⟨_, k2⟩ := keep_new_cons_rejected env user _ _ 20 e _ (by simp [h20]) s1 (a20 _ _)
  rw [k1, k2]
  simp [keep_new]

/-- C6: when the group expansion returns `SUCCESS`, with `P` the entries below the
initial window marker and `L` the entries the chain appended behind them: the
entries below the initial marker are still `P`; behind them stand exactly the
entries that `keep_new` keeps, i.e. in first-seen order those elements of `L`
that equal no entry accepted before and that the guard accepts, which are the
gids of the guard runs of this call that returned `SUCCESS`; the final marker is
the initial one plus their number.  This holds for every marker: a call whose
window does not fit the `int` indices of the loop does not return `SUCCESS`.  When
the window fits and no guard run fails, the call does return `SUCCESS`.  Raw
result [10, 20, 10, 30] with no local group of these gids yields [10, 20, 30];
raw result [10, 20] with a local group of gid 20 and none of gid 10 yields
[10]. -/
theorem C6_group_expansion_merge (env : Env β) :
    (∀ user grp buf limit errnop s (P L R : List Nat) (o : Out GroupBuf β),
      let r := nss_walk "initgroups_dyn" (fun ni => ni.initgroups_dyn)
        (fun f res e w => f user grp res limit e w) env.group_nonlocal
        (__nss_lookup_function (fun ni => ni.initgroups_dyn) env.group_nonlocal) buf errnop
        s
      let k := keep_new env user P L r.errnop r.state
      _nss_nonlocal_initgroups_dyn env user grp buf limit errnop s = some o →
      o.status = SUCCESS →
      P.length = buf.start → r.res.start = buf.start + L.length →
      r.res.groups = P ++ L ++ R →
      k.status = SUCCESS ∧
      o.res.start = buf.start + k.kept.length ∧
      o.res.groups.take buf.start = P ∧
      o.res.groups.take o.res.start = P ++ k.kept ∧
      k.kept.Sublist L ∧ k.kept.Nodup ∧ (∀ g ∈ k.kept, g ∉ P) ∧
      (∀ g ∈ k.kept, Event.check_gid g SUCCESS ∈ o.trace) ∧
      k.kept = o.trace.filterMap Event.accepted) ∧
    (∀ user grp buf limit errnop s (P L R : List Nat),
      let r := nss_walk "initgroups_dyn" (fun ni => ni.initgroups_dyn)
        (fun f res e w => f user grp res limit e w) env.group_nonlocal
        (__nss_lookup_function (fun ni => ni.initgroups_dyn) env.group_nonlocal) buf errnop
        s
      let k := keep_new env user P L r.errnop r.state
      r.status = SUCCESS → P.length = buf.start → r.res.start = buf.start + L.length →
      r.res.groups = P ++ L ++ R → (buf.start : Int) + L.length ≤ INT_MAX →
      k.status = SUCCESS →
      ∃ o, _nss_nonlocal_initgroups_dyn env user grp buf limit errnop s = some o ∧
        o.status = SUCCESS) ∧
    (∀ user grp buf limit errnop s (P R : List Nat) (o : Out GroupBuf β),
      let r := nss_walk "initgroups_dyn" (fun ni => ni.initgroups_dyn)
        (fun f res e w => f user grp res limit e w) env.group_nonlocal
        (__nss_lookup_function (fun ni => ni.initgroups_dyn) env.group_nonlocal) buf errnop
        s
      _nss_nonlocal_initgroups_dyn env user grp buf limit errnop s = some o →
      o.status = SUCCESS →
      P.length = buf.start → r.res.start = buf.start + 4 →
      r.res.groups = P ++ [10, 20, 10, 30] ++ R → 10 ∉ P → 20 ∉ P → 30 ∉ P →
      (∀ g ∈ [10, 20, 30], ∀ w,
        ¬ ((env.getgrgid_r g (MAGIC_LOCAL_GR_BUFLEN env) w).ret = 0 ∧
          (env.getgrgid_r g (MAGIC_LOCAL_GR_BUFLEN env) w).result.isSome = true)) →
      o.res.start = buf.start + 3 ∧
      o.res.groups.take (buf.start + 3) = P ++ [10, 20, 30]) ∧
    (∀ user grp buf limit errnop s (P R : List Nat) (o : Out GroupBuf β),
      let r := nss_walk "initgroups_dyn" (fun ni => ni.initgroups_dyn)
        (fun f res e w => f user grp res limit e w) env.group_nonlocal
        (__nss_lookup_function (fun ni => ni.initgroups_dyn) env.group_nonlocal) buf errnop
        s
      _nss_nonlocal_initgroups_dyn env user grp buf limit errnop s = some o →
      o.status = SUCCESS →
      P.length = buf.start → r.res.start = buf.start + 2 →
      r.res.groups = P ++ [10, 20] ++ R → 10 ∉ P → 20 ∉ P →
      (∀ w, ¬ ((env.getgrgid_r 10 (MAGIC_LOCAL_GR_BUFLEN env) w).ret = 0 ∧
          (env.getgrgid_r 10 (MAGIC_LOCAL_GR_BUFLEN env) w).result.isSome = true)) →
      (∀ w, (env.getgrgid_r 20 (MAGIC_LOCAL_GR_BUFLEN env) w).ret = 0 ∧
          (env.getgrgid_r 20 (MAGIC_LOCAL_GR_BUFLEN env) w).result.isSome = true) →
      o.res.start = buf.start + 1 ∧
      o.res.groups.take (buf.start + 1) = P ++ [10]) := by
  have main : ∀ user grp buf limit errnop s (P L R : List Nat) (o : Out GroupBuf β),
      _nss_nonlocal_initgroups_dyn env user grp buf limit errnop s = some o →
      o.status = SUCCESS →
      P.length = buf.start → (nss_walk "initgroups_dyn" (fun ni => ni.initgroups_dyn)
        (fun f res e w => f user grp res limit e w) env.group_nonlocal
        (__nss_lookup_function (fun ni => ni.initgroups_dyn) env.group_nonlocal) buf errnop
        s).res.start = buf.start + L.length →
      (nss_walk "initgroups_dyn" (fun ni => ni.initgroups_dyn)
        (fun f res e w => f user grp res limit e w) env.group_nonlocal
        (__nss_lookup_function (fun ni => ni.initgroups_dyn) env.group_nonlocal) buf errnop
        s).res.groups = P ++ L ++ R →
      o.status = (keep_new env user P L (nss_walk "initgroups_dyn" (fun ni => ni.initgroups_dyn)
        (fun f res e w => f user grp res limit e w) env.group_nonlocal
        (__nss_lookup_function (fun ni => ni.initgroups_dyn) env.group_nonlocal) buf errnop
        s).errnop (nss_walk "initgroups_dyn" (fun ni => ni.initgroups_dyn)
        (fun f res e w => f user grp res limit e w) env.group_nonlocal
        (__nss_lookup_function (fun ni => ni.initgroups_dyn) env.group_nonlocal) buf errnop
        s).state).status ∧
      o.trace = (nss_walk "initgroups_dyn" (fun ni => ni.initgroups_dyn)
        (fun f res e w => f user grp res limit e w) env.group_nonlocal
        (__nss_lookup_function (fun ni => ni.initgroups_dyn) env.group_nonlocal) buf errnop
        s).trace ++ (keep_new env user P L (nss_walk "initgroups_dyn" (fun ni => ni.initgroups_dyn)
        (fun f res e w => f user grp res limit e w) env.group_nonlocal
        (__nss_lookup_function (fun ni => ni.initgroups_dyn) env.group_nonlocal) buf errnop
        s).errnop (nss_walk "initgroups_dyn" (fun ni => ni.initgroups_dyn)
        (fun f res e w => f user grp res limit e w) env.group_nonlocal
        (__nss_lookup_function (fun ni => ni.initgroups_dyn) env.group_nonlocal) buf errnop
        s).state).trace ∧
      o.res.start = buf.start +
        (keep_new env user P L (nss_walk "initgroups_dyn" (fun ni => ni.initgroups_dyn)
        (fun f res e w => f user grp res limit e w) env.group_nonlocal
        (__nss_lookup_function (fun ni => ni.initgroups_dyn) env.group_nonlocal) buf errnop
        s).errnop (nss_walk "initgroups_dyn" (fun ni => ni.initgroups_dyn)
        (fun f res e w => f user grp res limit e w) env.group_nonlocal
        (__nss_lookup_function (fun ni => ni.initgroups_dyn) env.group_nonlocal) buf errnop
        s).state).kept.length ∧
      o.res.groups.take (buf.start +
          (keep_new env user P L (nss_walk "initgroups_dyn" (fun ni => ni.initgroups_dyn)
        (fun f res e w => f user grp res limit e w) env.group_nonlocal
        (__nss_lookup_function (fun ni => ni.initgroups_dyn) env.group_nonlocal) buf errnop
        s).errnop (nss_walk "initgroups_dyn" (fun ni => ni.initgroups_dyn)
        (fun f res e w => f user grp res limit e w) env.group_nonlocal
        (__nss_lookup_function (fun ni => ni.initgroups_dyn) env.group_nonlocal) buf errnop
        s).state).kept.length) =
        P ++ (keep_new env user P L (nss_walk "initgroups_dyn" (fun ni => ni.initgroups_dyn)
        (fun f res e w => f user grp res limit e w) env.group_nonlocal
        (__nss_lookup_function (fun ni => ni.initgroups_dyn) env.group_nonlocal) buf errnop
        s).errnop (nss_walk "initgroups_dyn" (fun ni => ni.initgroups_dyn)
        (fun f res e w => f user grp res limit e w) env.group_nonlocal
        (__nss_lookup_function (fun ni => ni.initgroups_dyn) env.group_nonlocal) buf errnop
        s).state).kept := by
    intro user grp buf limit errnop s P L R o ho hs hP hstart hgroups
    obtain ⟨hr, hmax⟩ := initgroups_dyn_success env user grp buf limit errnop s o ho hs
    have hb : (buf.start : Int) + L.length ≤ INT_MAX := by
      rw [hstart] at hmax
      push_cast at hmax
      exact hmax
    have hb1 : (buf.start : Int) + L.length ≤ INT_MAX + 1 := Int.le_add_one hb
    obtain ⟨o1, ho1, h1, _, _, h4, h5, h6⟩ :=
      initgroups_dyn_window env user grp buf limit errnop s P L R 0 hr hP
        (hstart.trans (Nat.add_zero _).symm) hgroups hb1 (fun _ => ⟨rfl, hb⟩)
    rw [ho] at ho1
    obtain rfl := Option.some.inj ho1
    exact ⟨h1, h4, h5, h6⟩
  refine ⟨?_, ?_, ?_, ?_⟩
  · intro user grp buf limit errnop s P L R o
    dsimp only
    intro ho hs hP hstart hgroups
    obtain ⟨h1, h4, h5, h6⟩ := main user grp buf limit errnop s P L R o ho hs hP hstart hgroups
    obtain ⟨k1, k2, k3, k4⟩ := keep_new_kept env user L P (nss_walk "initgroups_dyn" (fun ni => ni.initgroups_dyn)
        (fun f res e w => f user grp res limit e w) env.group_nonlocal
        (__nss_lookup_function (fun ni => ni.initgroups_dyn) env.group_nonlocal) buf errnop
        s).errnop (nss_walk "initgroups_dyn" (fun ni => ni.initgroups_dyn)
        (fun f res e w => f user grp res limit e w) env.group_nonlocal
        (__nss_lookup_function (fun ni => ni.initgroups_dyn) env.group_nonlocal) buf errnop
        s).state
    refine ⟨by rw [← h1]; exact hs, h5, ?_, by rw [h5]; exact h6, k1, k3, k2, ?_, ?_⟩
    · have := congrArg (List.take buf.start) h6
      rw [List.take_take] at this
      rw [Nat.min_eq_left (Nat.le_add_right _ _)] at this
      rw [this, ← hP]
      simp
    · intro g hg
      rw [h4]
      exact List.mem_append_right _ (k4 g hg)
    · rw [h4, List.filterMap_append, nss_walk_no_accepted, keep_new_accepted]
      rfl
  · intro user grp buf limit errnop s P L R
    dsimp only
    intro hr hP hstart hgroups hb hk
    have hb1 : (buf.start : Int) + L.length ≤ INT_MAX + 1 := Int.le_add_one hb
    obtain ⟨o1, ho1, h1, _⟩ :=
      initgroups_dyn_window env user grp buf limit errnop s P L R 0 hr hP
        (hstart.trans (Nat.add_zero _).symm) hgroups hb1 (fun _ => ⟨rfl, hb⟩)
    exact ⟨o1, ho1, by rw [h1]; exact hk⟩
  · intro user grp buf limit errnop s P R o
    dsimp only
    intro ho hs hP hstart hgroups h10 h20 h30 hnc
    obtain ⟨h1, _, h5, h6⟩ :=
      main user grp buf limit errnop s P [10, 20, 10, 30] R o ho hs hP hstart hgroups
    have hn : ∀ g ∈ [10, 20, 30], ∀ e t,
        (check_nonlocal_gid env user g e t).status ≠ NOTFOUND := by
      intro g hg e t hnf
      obtain ⟨w, hw⟩ := check_nonlocal_gid_notfound env user g e t hnf
      exact hnc g hg w hw
    rw [hs] at h1
    rw [keep_new_10_20_10_30 env user P _ _ h10 h20 h30 hn h1.symm] at h5 h6
    exact ⟨h5, h6⟩
  · intro user grp buf limit errnop s P R o
    dsimp only
    intro ho hs hP hstart hgroups h10 h20 hnc hcol
    obtain ⟨h1, _, h5, h6⟩ :=
      main user grp buf limit errnop s P [10, 20] R o ho hs hP hstart hgroups
    have a10 : ∀ e t, (check_nonlocal_gid env user 10 e t).status ≠ NOTFOUND := by
      intro e t hnf
      obtain ⟨w, hw⟩ := check_nonlocal_gid_notfound env user 10 e t hnf
      exact hnc w hw
    have a20 : ∀ e t, (check_nonlocal_gid env user 20 e t).status ≠ SUCCESS := by
      intro e t hsu
      have := (check_nonlocal_gid_success env user 20 e t hsu).2.1
      have hc := (hcol { (env.malloc (MAGIC_LOCAL_GR_BUFLEN env) t.world).2 with errno := 0 }).2
      rw [this] at hc
      simp at hc
    rw [hs] at h1
    rw [keep_new_10_20 env user P _ _ h10 h20 a10 a20 h1.symm] at h5 h6
    exact ⟨h5, h6⟩

/-- An instance: the two example runs, on an array that already holds gid 5 below
the marker. -/
theorem C6_group_expansion_merge_witness :
    (∃ o, _nss_nonlocal_initgroups_dyn (demo_env [] [demo_groups [10, 20, 10, 30]]) "joe" 5
        ⟨1, 8, [5, 0, 0, 0, 0, 0, 0, 0]⟩ 16 0 demo_state = some o ∧
      o.status = SUCCESS ∧ o.res.start = 4 ∧ o.res.groups.take 4 = [5, 10, 20, 30]) ∧
    (∃ o, _nss_nonlocal_initgroups_dyn (demo_local [] [demo_groups [10, 20]]) "joe" 5
        ⟨1, 8, [5, 0, 0, 0, 0, 0, 0, 0]⟩ 16 0 demo_state = some o ∧
      o.status = SUCCESS ∧ o.res.start = 2 ∧ o.res.groups.take 2 = [5, 10]) := by
  constructor
  · obtain ⟨o, ho, hs⟩ := (C6_group_expansion_merge
      (demo_env [] [demo_groups [10, 20, 10, 30]])).2.1 "joe" 5
      ⟨1, 8, [5, 0, 0, 0, 0, 0, 0, 0]⟩ 16 0 demo_state [5] [10, 20, 10, 30] []
      (by decide) rfl rfl rfl (by decide) (by decide)
    have h := (C6_group_expansion_merge
      (demo_env [] [demo_groups [10, 20, 10, 30]])).2.2.1 "joe" 5
      ⟨1, 8, [5, 0, 0, 0, 0, 0, 0, 0]⟩ 16 0 demo_state [5] [] o ho hs rfl rfl rfl
      (by decide) (by decide) (by decide) (by intro g _ w; simp [demo_env])
    exact ⟨o, ho, hs, h.1, h.2⟩
  · obtain ⟨o, ho, hs⟩ := (C6_group_expansion_merge
      (demo_local [] [demo_groups [10, 20]])).2.1 "joe" 5
      ⟨1, 8, [5, 0, 0, 0, 0, 0, 0, 0]⟩ 16 0 demo_state [5] [10, 20] []
      (by decide) rfl rfl rfl (by decide) (by decide)
    have h := (C6_group_expansion_merge
      (demo_local [] [demo_groups [10, 20]])).2.2.2 "joe" 5
      ⟨1, 8, [5, 0, 0, 0, 0, 0, 0, 0]⟩ 16 0 demo_state [5] [] o ho hs rfl rfl rfl
      (by decide) (by decide) (by intro w; simp [demo_local]) (by intro w; simp [demo_local])
    exact ⟨o, ho, hs, h.1, h.2⟩

theorem getent_retry_mono_le (fct_name : String) (guard : ρ → State β → Check β)
    (f : fct (GetentFn ρ β)) (buflen : Nat) (n m : Nat) (hnm : n ≤ m) (res : ρ)
    (errnop : Int) (s : State β) (o : Out ρ β)
    (h : getent_retry fct_name guard f buflen n res errnop s = some o) :
    getent_retry fct_name guard f buflen m res errnop s = some o := by
  induction hnm with
  | refl => exact h
  | step _ ih => exact getent_retry_mono _ _ _ _ _ _ _ _ _ ih

theorem getent_walk_mono_le (fct_name : String) (sel : service_user β → Option (GetentFn ρ β))
    (guard : ρ → State β → Check β)
    (put : List (service_user β) → Option (fct (GetentFn ρ β)) → State β → State β)
    (buflen : Nat) (n m : Nat) (hnm : n ≤ m) (nip : List (service_user β))
    (fctp : Option (fct (GetentFn ρ β))) (res : ρ) (errnop : Int) (s : State β) (o : Out ρ β)
    (h : getent_walk fct_name sel guard put buflen n nip fctp res errnop s = some o) :
    getent_walk fct_name sel guard put buflen m nip fctp res errnop s = some o := by
  induction hnm with
  | refl => exact h
  | step _ ih => exact getent_walk_mono _ _ _ _ _ _ _ _ _ _ _ _ ih

/-- A get-next walk ends in one of three ways: with a candidate, with the
buffer too small, or, the chain being exhausted, with `NOTFOUND` and the cursor
put to NULL. -/
theorem getent_walk_outcome (fct_name : String) (sel : service_user β → Option (GetentFn ρ β))
    (guard : ρ → State β → Check β)
    (put : List (service_user β) → Option (fct (GetentFn ρ β)) → State β → State β)
    (buflen fuel : Nat) :
    ∀ (nip : List (service_user β)) (fctp : Option (fct (GetentFn ρ β))) (res : ρ)
      (errnop : Int) (s : State β) (o : Out ρ β), nip ≠ [] →
      getent_walk fct_name sel guard put buflen fuel nip fctp res errnop s = some o →
      o.status = SUCCESS ∨ (o.status = TRYAGAIN ∧ o.errnop = ERANGE) ∨
        (o.status = NOTFOUND ∧ ∃ f t, o.state = put [] f t) := by
  intro nip
  induction nip with
  | nil => intro fctp res errnop s o h; exact absurd rfl h
  | cons ni next ih =>
    intro fctp res errnop s o _ h
    rw [getent_walk] at h
    cases hr : call_getent fct_name guard buflen fuel fctp res errnop s with
    | none => rw [hr] at h; simp at h
    | some r =>
      rw [hr] at h
      simp only at h
      split_ifs at h with h1 h2 h3
      · simp only [Option.some.injEq] at h
        subst h
        exact Or.inr (Or.inl h1)
      · simp only [Option.some.injEq] at h
        subst h
        exact Or.inl h2
      · simp only [Option.map_eq_some'] at h
        obtain ⟨o1, ho1, rfl⟩ := h
        have hnext : next ≠ [] := by
          intro hn
          subst hn
          exact nss_next_last sel ni fctp r.status h3
        exact ih _ _ _ _ o1 hnext ho1
      · simp only [Option.some.injEq] at h
        subst h
        exact Or.inr (Or.inr ⟨rfl, _, _, rfl⟩)

/-- An answer of the last backend of the chain that `__nss_next` passes ends
get-next with `NOTFOUND` and the cursor put to NULL. -/
theorem getent_walk_exhaust_now (fct_name : String)
    (sel : service_user β → Option (GetentFn ρ β)) (guard : ρ → State β → Check β)
    (put : List (service_user β) → Option (fct (GetentFn ρ β)) → State β → State β)
    (buflen fuel : Nat) (ni : service_user β)
    (f : fct (GetentFn ρ β)) (res : ρ) (errnop : Int) (s : State β)
    (h1 : (f.l res buflen errnop s.world).status ≠ SUCCESS)
    (h2 : ¬ ((f.l res buflen errnop s.world).status = TRYAGAIN ∧
      (f.l res buflen errnop s.world).errnop = ERANGE)) :
    getent_walk fct_name sel guard put buflen (fuel + 1) [ni] (some f) res errnop s =
      some ⟨NOTFOUND, (f.l res buflen errnop s.world).res,
        (f.l res buflen errnop s.world).errnop,
        put [] (some f) { s with world := (f.l res buflen errnop s.world).world },
        [Event.call f.service fct_name (f.l res buflen errnop s.world).status
          (f.l res buflen errnop s.world).errnop]⟩ := by
  rw [getent_walk]
  simp only [call_getent, getent_retry, h1, if_false, h2, __nss_next]
  simp

/-- Exhaustion and implicit reopen, user enumeration.  When, after `m` rounds
that did not end the call, the last backend of the chain gives an answer that
is neither a candidate nor `TRYAGAIN` with `ERANGE`, get-next returns `NOTFOUND`
with the cursor closed.  On an open cursor every call that returns ends with a
candidate, with the buffer too small, or with `NOTFOUND` and the cursor closed.
On a closed cursor the call first runs open(0), hands back the status of the
open when that fails, and otherwise walks from the cursor and with the function
pointer the open has left in `pwent_nip` and `pwent_fct`. -/
theorem getpwent_r_exhausts_and_reopens (env : Env β) :
    (∀ m pwd buflen errnop s p q ni f,
      getpwent_entry env pwd errnop s = some p →
      getent_rounds "getpwent_r" (fun ni => ni.getpwent_r)
        (fun r t => check_nonlocal_uid env r.pw_name r.pw_uid 0 t)
        (fun nip f t => { t with pwent_nip := nip, pwent_fct := f }) buflen m p = some q →
      q.nip = [ni] → q.fctp = some f →
      let c := f.l q.res buflen q.errnop q.state.world
      c.status ≠ SUCCESS → ¬ (c.status = TRYAGAIN ∧ c.errnop = ERANGE) →
      _nss_nonlocal_getpwent_r env (m + 1) pwd buflen errnop s =
        some ⟨NOTFOUND, c.res, c.errnop,
          { q.state with world := c.world, pwent_nip := [], pwent_fct := some f },
          q.trace ++ [Event.call f.service "getpwent_r" c.status c.errnop]⟩) ∧
    (∀ fuel pwd buflen errnop s o, s.pwent_nip ≠ [] →
      _nss_nonlocal_getpwent_r env fuel pwd buflen errnop s = some o →
      o.status = SUCCESS ∨ (o.status = TRYAGAIN ∧ o.errnop = ERANGE) ∨
        (o.status = NOTFOUND ∧ o.state.pwent_nip = [])) ∧
    (∀ fuel pwd buflen errnop s, s.pwent_nip = [] →
      _nss_nonlocal_getpwent_r env fuel pwd buflen errnop s =
        if (_nss_nonlocal_setpwent env 0 s).status ≠ SUCCESS then
          some ⟨(_nss_nonlocal_setpwent env 0 s).status, pwd, errnop,
            (_nss_nonlocal_setpwent env 0 s).state, (_nss_nonlocal_setpwent env 0 s).trace⟩
        else
          (getent_walk "getpwent_r" (fun ni => ni.getpwent_r)
            (fun p t => check_nonlocal_uid env p.pw_name p.pw_uid 0 t)
            (fun nip f t => { t with pwent_nip := nip, pwent_fct := f })
            buflen fuel (_nss_nonlocal_setpwent env 0 s).state.pwent_nip
            (_nss_nonlocal_setpwent env 0 s).state.pwent_fct pwd errnop
            (_nss_nonlocal_setpwent env 0 s).state).map
            (fun r => { r with trace := (_nss_nonlocal_setpwent env 0 s).trace ++ r.trace })) := by
  refine ⟨?_, ?_, ?_⟩
  · intro m pwd buflen errnop s p q ni f hp hq hnip hf
    dsimp only
    intro h1 h2
    have hnow := getent_walk_exhaust_now "getpwent_r" (fun ni => ni.getpwent_r)
      (fun r t => check_nonlocal_uid env r.pw_name r.pw_uid 0 t)
      (fun nip f t => { t with pwent_nip := nip, pwent_fct := f }) buflen 0 ni f q.res
      q.errnop q.state h1 h2
    rw [← hnip, ← hf] at hnow
    obtain ⟨d, hd, hw⟩ := getent_walk_rounds "getpwent_r" (fun ni => ni.getpwent_r)
      (fun r t => check_nonlocal_uid env r.pw_name r.pw_uid 0 t)
      (fun nip f t => { t with pwent_nip := nip, pwent_fct := f }) buflen (0 + 1) q _ hnow m p hq
    rw [Nat.zero_add, Nat.add_comm 1 m] at hw
    unfold getpwent_entry at hp
    unfold _nss_nonlocal_getpwent_r
    simp only at hp ⊢
    split at hp
    · rename_i hnil
      split_ifs at hp with h0
      simp only [Option.some.injEq] at hp
      subst hp
      simp only at hw hd
      simp only [hnil, h0, if_false, hw, Option.map_some', hd, List.append_assoc, hf]
    · rename_i n1 n2 hcons
      simp only [Option.some.injEq] at hp
      subst hp
      simp only at hw hd
      rw [hcons] at hw
      simp only [hcons, hd, List.nil_append, hw, hf]
  · intro fuel pwd buflen errnop s o hne h
    obtain ⟨ni, next, hnip⟩ := List.exists_cons_of_ne_nil hne
    rw [getpwent_r_open env fuel pwd buflen errnop s ni next hnip] at h
    rcases getent_walk_outcome _ _ _ _ _ _ _ _ _ _ _ _ (List.cons_ne_nil ni next) h with
      h1 | h1 | ⟨h1, f, t, h2⟩
    · exact Or.inl h1
    · exact Or.inr (Or.inl h1)
    · exact Or.inr (Or.inr ⟨h1, by rw [h2]⟩)
  · intro fuel pwd buflen errnop s h
    unfold _nss_nonlocal_getpwent_r
    simp only [h]

/-- C10, the run on which the code departs from it.  Chain alpha, beta.  Three
get-next calls in a row, without an open in between, hand out uid 1001, hand
out uid 1002 and exhaust the chain: `NOTFOUND`, cursor closed.  Then alpha
becomes unreachable, and get-next is called again.  It finds the cursor closed
and opens: alpha's open fails, beta's succeeds, so the open selects beta
(`pwent_nip`), but `pwent_fct` is the function cached at the first open,
alpha's.  The call asks alpha, not beta, and returns `NOTFOUND` without ever
calling beta's get-next, where uid 1002 waits. -/
theorem C10_reopen_calls_stale_function :
    demo_three_calls.map (fun q =>
      ((q.1.status, q.1.res.pw_uid), (q.2.1.status, q.2.1.res.pw_uid),
       (q.2.2.status, q.2.2.state.pwent_nip.map (fun ni => ni.name)))) =
      some ((SUCCESS, 1001), (SUCCESS, 1002), (NOTFOUND, [])) ∧
    demo_three_calls.map (fun q =>
      ((_nss_nonlocal_setpwent (demo_env [demo_alpha, demo_beta] []) 0
          (demo_alpha_down q.2.2.state)).status,
       (_nss_nonlocal_setpwent (demo_env [demo_alpha, demo_beta] []) 0
          (demo_alpha_down q.2.2.state)).state.pwent_nip.map (fun ni => ni.name),
       (_nss_nonlocal_setpwent (demo_env [demo_alpha, demo_beta] []) 0
          (demo_alpha_down q.2.2.state)).state.pwent_fct.map (fun f => f.service))) =
      some (SUCCESS, ["beta"], some "alpha") ∧
    demo_three_calls.bind (fun q =>
      (_nss_nonlocal_getpwent_r (demo_env [demo_alpha, demo_beta] []) 1 (demo_pw "" 0 0) 64 0
        (demo_alpha_down q.2.2.state)).map (fun o => (o.status, o.trace))) =
      some (NOTFOUND,
        [Event.setent "alpha" "setpwent" UNAVAIL,
         Event.setent "beta" "setpwent" SUCCESS,
         Event.call "alpha" "getpwent_r" UNAVAIL 111]) :=
  ⟨rfl, rfl, rfl⟩

theorem int_pos_succ (a b : Nat) (h : (a : Int) + b ≤ INT_MAX) :
    (a : Int) + ((b + 1 : Nat) : Int) ≤ INT_MAX + 1 := by
  push_cast
  omega

theorem length_split (L1 L2 : List Nat) (g a : Nat) :
    a + (L1 ++ g :: L2).length = a + (L1 ++ [g]).length + L2.length := by
  simp only [List.length_append, List.length_cons, List.length_singleton, List.length_nil]
  omega

/-- C9 (amended): a guard status other than `SUCCESS` is handed to the caller,
with the guard's errno, by the uid check of the user lookups and by the gid check
of the group lookups; in the group expansion a guard status other than
`SUCCESS` and `NOTFOUND` ends the call and is its status: in every call that
returns, nothing follows such a guard run, a round of the filter loop in which
the guard fails returns the guard's status and errno, and the call whose filter
comes to an entry on which the guard fails, at a position in the range of the
`int` indices of the loop, returns with the guard's status and errno.  It is not
handed on
in two places: a primary-gid check of a user lookup that does not return
`SUCCESS` makes the lookup return `SUCCESS` with gid 65534; and in get-next a
candidate whose check does not return `SUCCESS` is skipped, the call going on
with the same backend as if called after that candidate. -/
theorem C9_guard_error_handling (env : Env β) :
    (∀ name pwd buflen errnop s,
      let r := nss_walk "getpwnam_r" (fun ni => ni.getpwnam_r)
        (fun f res e w => f name res buflen e w) env.passwd_nonlocal
        (__nss_lookup_function (fun ni => ni.getpwnam_r) env.passwd_nonlocal) pwd errnop s
      let c := check_nonlocal_uid env name r.res.pw_uid r.errnop r.state
      let g := check_nonlocal_gid env name r.res.pw_gid 0 c.state
      let o := _nss_nonlocal_getpwnam_r env name pwd buflen errnop s
      r.status = SUCCESS →
      (c.status ≠ SUCCESS → o.status = c.status ∧ o.errnop = c.errnop) ∧
      (c.status = SUCCESS → g.status ≠ SUCCESS →
        o.status = SUCCESS ∧ o.res = { r.res with pw_gid := 65534 })) ∧
    (∀ uid pwd buflen errnop s, s.local_only ≠ 1 →
      let r := nss_walk "getpwuid_r" (fun ni => ni.getpwuid_r)
        (fun f res e w => f uid res buflen e w) env.passwd_nonlocal
        (__nss_lookup_function (fun ni => ni.getpwuid_r) env.passwd_nonlocal) pwd errnop s
      let c := check_nonlocal_uid env r.res.pw_name r.res.pw_uid r.errnop r.state
      let g := check_nonlocal_gid env r.res.pw_name r.res.pw_gid 0 c.state
      let o := _nss_nonlocal_getpwuid_r env uid pwd buflen errnop s
      r.status = SUCCESS →
      (c.status ≠ SUCCESS → o.status = c.status ∧ o.errnop = c.errnop) ∧
      (c.status = SUCCESS → g.status ≠ SUCCESS →
        o.status = SUCCESS ∧ o.res = { r.res with pw_gid := 65534 })) ∧
    (∀ name grp buflen errnop s,
      let r := nss_walk "getgrnam_r" (fun ni => ni.getgrnam_r)
        (fun f res e w => f name res buflen e w) env.group_nonlocal
        (__nss_lookup_function (fun ni => ni.getgrnam_r) env.group_nonlocal) grp errnop s
      let c := check_nonlocal_gid env name r.res.gr_gid r.errnop r.state
      let o := _nss_nonlocal_getgrnam_r env name grp buflen errnop s
      r.status = SUCCESS → o.status = c.status ∧ o.errnop = c.errnop) ∧
    (∀ gid grp (buflen : Nat) errnop s, (buflen : Int) ≠ MAGIC_LOCAL_GR_BUFLEN env →
      let r := nss_walk "getgrgid_r" (fun ni => ni.getgrgid_r)
        (fun f res e w => f gid res buflen e w) env.group_nonlocal
        (__nss_lookup_function (fun ni => ni.getgrgid_r) env.group_nonlocal) grp errnop s
      let c := check_nonlocal_gid env r.res.gr_name r.res.gr_gid r.errnop r.state
      let o := _nss_nonlocal_getgrgid_r env gid grp buflen errnop s
      r.status = SUCCESS → o.status = c.status ∧ o.errnop = c.errnop) ∧
    (∀ user grp buf limit errnop s o,
      _nss_nonlocal_initgroups_dyn env user grp buf limit errnop s = some o →
      check_error_is_final o.status o.trace) ∧
    (∀ fuel pwd buflen errnop s ni next f o,
      s.pwent_nip = ni :: next → s.pwent_fct = some f →
      let c := f.l pwd buflen errnop s.world
      let g := check_nonlocal_uid env c.res.pw_name c.res.pw_uid 0 { s with world := c.world }
      c.status = SUCCESS → g.status ≠ SUCCESS →
      _nss_nonlocal_getpwent_r env fuel c.res buflen c.errnop g.state = some o →
      _nss_nonlocal_getpwent_r env (fuel + 1) pwd buflen errnop s =
        some { o with
          trace := (Event.call f.service "getpwent_r" SUCCESS c.errnop :: g.trace ++
            o.trace) }) ∧
    (∀ fuel grp buflen errnop s ni next f o,
      s.grent_nip = ni :: next → s.grent_fct = some f →
      let c := f.l grp buflen errnop s.world
      let g := check_nonlocal_gid env "(unknown)" c.res.gr_gid 0 { s with world := c.world }
      c.status = SUCCESS → g.status ≠ SUCCESS →
      _nss_nonlocal_getgrent_r env fuel c.res buflen c.errnop g.state = some o →
      _nss_nonlocal_getgrent_r env (fuel + 1) grp buflen errnop s =
        some { o with
          trace := (Event.call f.service "getgrent_r" SUCCESS c.errnop :: g.trace ++
            o.trace) }) ∧
    (∀ user n (i_n out : Int) buf errnop s tr, 0 ≤ i_n →
      let c := check_nonlocal_gid env user (buf.groups.getD i_n.toNat 0) errnop s
      ¬ ((dup_scan buf.groups (buf.groups.getD i_n.toNat 0) out.toNat out.toNat 0 : Int)
        < out) →
      c.status ≠ SUCCESS → c.status ≠ NOTFOUND →
      initgroups_filter env user (n + 1) i_n out buf errnop s tr =
        some ⟨c.status, { buf with start := out.toNat }, c.errnop, c.state, tr ++ c.trace⟩) ∧
    (∀ user grp buf limit errnop s (P L1 L2 R : List Nat) (g : Nat),
      let r := nss_walk "initgroups_dyn" (fun ni => ni.initgroups_dyn)
        (fun f res e w => f user grp res limit e w) env.group_nonlocal
        (__nss_lookup_function (fun ni => ni.initgroups_dyn) env.group_nonlocal) buf errnop
        s
      let k := keep_new env user P L1 r.errnop r.state
      let c := check_nonlocal_gid env user g r.errnop k.state
      r.status = SUCCESS → P.length = buf.start →
      r.res.start = buf.start + (L1 ++ g :: L2).length →
      r.res.groups = P ++ (L1 ++ g :: L2) ++ R →
      (buf.start : Int) + L1.length ≤ INT_MAX →
      k.status = SUCCESS → g ∉ P → g ∉ k.kept →
      c.status ≠ SUCCESS → c.status ≠ NOTFOUND →
      ∃ o, _nss_nonlocal_initgroups_dyn env user grp buf limit errnop s = some o ∧
        o.status = c.status ∧ o.errnop = c.errnop ∧ o.status ≠ SUCCESS) := by
  refine ⟨?_, ?_, ?_, ?_, ?_, ?_, ?_, ?_, ?_⟩
  · intro name pwd buflen errnop s
    dsimp only
    intro hr
    have hne : env.passwd_nonlocal ≠ [] := by
      intro h; rw [h] at hr; simp [nss_walk] at hr
    rw [getpwnam_r_walk env name pwd buflen errnop s hne]
    constructor
    · intro hc; simp [hr, hc]
    · intro hc hg; simp [hr, hc, hg]
  · intro uid pwd buflen errnop s h0
    dsimp only
    intro hr
    have hne : env.passwd_nonlocal ≠ [] := by
      intro h; rw [h] at hr; simp [nss_walk] at hr
    rw [getpwuid_r_walk env uid pwd buflen errnop s hne h0]
    constructor
    · intro hc; simp [hr, hc]
    · intro hc hg; simp [hr, hc, hg]
  · intro name grp buflen errnop s
    dsimp only
    intro hr
    have hne : env.group_nonlocal ≠ [] := by
      intro h; rw [h] at hr; simp [nss_walk] at hr
    rw [getgrnam_r_walk env name grp buflen errnop s hne]
    simp [hr]
  · intro gid grp buflen errnop s h0
    dsimp only
    intro hr
    have hne : env.group_nonlocal ≠ [] := by
      intro h; rw [h] at hr; simp [nss_walk] at hr
    rw [getgrgid_r_walk env gid grp buflen errnop s hne h0]
    simp [hr]
  · intro user grp buf limit errnop s o ho
    rcases initgroups_dyn_some env user grp buf limit errnop s o ho with h1 | h1
    · rw [h1.2]
      exact check_error_is_final_quiet _ _ (nss_walk_no_check _ _ _ _ _ _ _ _)
    · obtain ⟨_, _, n, hn⟩ := h1
      rw [hn]
      exact initgroups_filter_nat_error env user _ _ _ _ _ _ _
        (nss_walk_no_check _ _ _ _ _ _ _ _)
  · intro fuel pwd buflen errnop s ni next f o hnip hfct
    dsimp only
    intro hc hg ho
    have hst := check_nonlocal_uid_state env (f.l pwd buflen errnop s.world).res.pw_name
      (f.l pwd buflen errnop s.world).res.pw_uid 0
      { s with world := (f.l pwd buflen errnop s.world).world }
    rw [getpwent_r_open env fuel _ buflen _ _ ni next (by rw [hst]; exact hnip)] at ho
    rw [getpwent_r_open env (fuel + 1) pwd buflen errnop s ni next hnip]
    have hf : (check_nonlocal_uid env (f.l pwd buflen errnop s.world).res.pw_name
      (f.l pwd buflen errnop s.world).res.pw_uid 0
      { s with world := (f.l pwd buflen errnop s.world).world }).state.pwent_fct = some f := by
      rw [hst]; exact hfct
    rw [hf] at ho
    have key := getent_walk_skips "getpwent_r" (fun ni => ni.getpwent_r)
      (fun p t => check_nonlocal_uid env p.pw_name p.pw_uid 0 t)
      (fun nip f t => { t with pwent_nip := nip, pwent_fct := f })
      buflen fuel ni next f pwd errnop s o hc hg ho
    rw [← hfct] at key
    exact key
  · intro fuel grp buflen errnop s ni next f o hnip hfct
    dsimp only
    intro hc hg ho
    have hst := check_nonlocal_gid_state env "(unknown)"
      (f.l grp buflen errnop s.world).res.gr_gid 0
      { s with world := (f.l grp buflen errnop s.world).world }
    rw [getgrent_r_open env fuel _ buflen _ _ ni next (by rw [hst]; exact hnip)] at ho
    rw [getgrent_r_open env (fuel + 1) grp buflen errnop s ni next hnip]
    have hf : (check_nonlocal_gid env "(unknown)"
      (f.l grp buflen errnop s.world).res.gr_gid 0
      { s with world := (f.l grp buflen errnop s.world).world }).state.grent_fct = some f := by
      rw [hst]; exact hfct
    rw [hf] at ho
    have key := getent_walk_skips "getgrent_r" (fun ni => ni.getgrent_r)
      (fun g t => check_nonlocal_gid env "(unknown)" g.gr_gid 0 t)
      (fun nip f t => { t with grent_nip := nip, grent_fct := f })
      buflen fuel ni next f grp errnop s o hc hg ho
    rw [← hfct] at key
    exact key
  · intro user n i_n out buf errnop s tr h0
    dsimp only
    intro hd hs hn
    have hneg : ¬ (i_n < 0) := not_lt.mpr h0
    simp only [initgroups_filter, hneg, hd, hs, hn, if_false, ne_eq, not_false_eq_true,
      if_true]
  · intro user grp buf limit errnop s P L1 L2 R g
    dsimp only
    intro hr hP hstart hgroups hb hk hgP hgk hcs hcn
    have hstop := keep_new_stops env user g [] L1 P (nss_walk "initgroups_dyn"
        (fun ni => ni.initgroups_dyn)
        (fun f res e w => f user grp res limit e w) env.group_nonlocal
        (__nss_lookup_function (fun ni => ni.initgroups_dyn) env.group_nonlocal) buf errnop
        s).errnop (nss_walk "initgroups_dyn" (fun ni => ni.initgroups_dyn)
        (fun f res e w => f user grp res limit e w) env.group_nonlocal
        (__nss_lookup_function (fun ni => ni.initgroups_dyn) env.group_nonlocal) buf errnop
        s).state hk hgP hgk hcs hcn
    have hb1 : (buf.start : Int) + ((L1 ++ [g]).length : Nat) ≤ INT_MAX + 1 := by
      rw [List.length_append, List.length_singleton]
      exact int_pos_succ _ _ hb
    obtain ⟨o, ho, h1, h2, _⟩ :=
      initgroups_dyn_window env user grp buf limit errnop s P (L1 ++ [g]) (L2 ++ R)
        L2.length hr hP
        (hstart.trans (length_split L1 L2 g buf.start))
        (by rw [hgroups]; simp)
        hb1
        (fun h => by rw [hstop] at h; exact absurd h hcs)
    rw [hstop] at h1 h2
    exact ⟨o, ho, h1, h2, by rw [h1]; exact hcs⟩

/-- An instance: the group lookup by name whose backend hands out gid 7, on which
the guard fails, returns the guard's `TRYAGAIN`. -/
theorem C9_guard_error_handling_witness :
    (_nss_nonlocal_getgrnam_r (demo_local [] [demo_dir_gid 7]) "staff" (demo_gr "" 0) 64 0
      demo_state).status = TRYAGAIN ∧
    (_nss_nonlocal_getgrnam_r (demo_local [] [demo_dir_gid 7]) "staff" (demo_gr "" 0) 64 0
      demo_state).errnop = 0 :=
  (C9_guard_error_handling (demo_local [] [demo_dir_gid 7])).2.2.1 "staff" (demo_gr "" 0) 64 0
    demo_state (by decide)

/-- C9 as stated fails.  A user lookup whose candidate has primary gid 7, for
which the guard fails with `TRYAGAIN`, returns `SUCCESS` (with gid 65534); and a
get-next whose first candidate has uid 7, for which the guard fails with
`TRYAGAIN`, skips it and returns `SUCCESS` with the next candidate. -/
theorem C9_counterexample :
    (check_nonlocal_gid (demo_local [demo_dir_gid 7] []) "joe" 7 0 demo_state).status
      = TRYAGAIN ∧
    (_nss_nonlocal_getpwnam_r (demo_local [demo_dir_gid 7] []) "joe" (demo_pw "" 0 0) 64 0
      demo_state).status = SUCCESS ∧
    (_nss_nonlocal_getpwnam_r (demo_local [demo_dir_gid 7] []) "joe" (demo_pw "" 0 0) 64 0
      demo_state).res = demo_pw "joe" 1000 65534 ∧
    (_nss_nonlocal_getpwnam_r (demo_local [demo_dir_gid 7] []) "joe" (demo_pw "" 0 0) 64 0
      demo_state).trace =
        [Event.call "dir" "getpwnam_r" SUCCESS 0, Event.check_uid 1000 SUCCESS,
         Event.check_gid 7 TRYAGAIN] ∧
    (_nss_nonlocal_getpwent_r (demo_local [demo_stream [7, 1000] NOTFOUND 2] []) 2
        (demo_pw "" 0 0) 64 0 demo_state).map (fun o => (o.status, o.res.pw_uid, o.trace)) =
      some (SUCCESS, 1000,
        [Event.setent "stream" "setpwent" SUCCESS,
         Event.call "stream" "getpwent_r" SUCCESS 0,
         Event.check_uid 7 TRYAGAIN,
         Event.call "stream" "getpwent_r" SUCCESS 0,
         Event.check_uid 1000 SUCCESS]) := by
  decide

end NssNonlocal
